import Mathlib

/-!
# undark: record recovery engine

A shallow embedding of `varint.c` and of the row decoder, the row materializer, the
page scanner and the page loop of `undark.c`, followed by theorems about them.

Conventions of the embedding.

* The mapped file is a list of bytes `db`; an address is a byte offset from
  `db_origin`, so `db_origin` is address 0 and `db_end = db_origin + db_size - 1`.
* Unsigned machine integers are naturals reduced modulo `2 ^ w` where the C
  arithmetic can wrap; `int` values are integers, and a conversion to `int` wraps to
  32 bits as the usual compilers define it.
* An execution that leaves defined C behaviour (a read outside the mapping, a shift
  by 64 bits or more, a signed overflow, an index outside a fixed array, a write
  outside an allocated buffer) ends in `Res.fault`.
* Diagnostics are off (`debug = 0`, `verbose = 0`): statements under `DEBUG` and
  `VERBOSE` are not part of the embedding.  Writes to standard output are collected
  as a list of strings, in order.
-/

namespace Undark

/-! ## Machine model -/

/-- Ways in which an execution leaves defined behaviour.  `fuel` marks a loop of the
embedding running out of its iteration budget; the budget lemmas show that the decoder
and the materializer never do.  `nontermination` marks a loop of the program that does
not end. -/
inductive Fault where
  | oob_read
  | shift_range
  | int_overflow
  | array_bounds
  | heap_bounds
  | indeterminate
  | fuel
  | nontermination
  deriving DecidableEq, Repr

/-- Outcome of running a piece of C code: a value, or a fault. -/
inductive Res (α : Type) where
  | ok : α → Res α
  | fault : Fault → Res α
  deriving DecidableEq, Repr

/-- Conversion of an integer value to `int` (32 bits, two's complement wrap). -/
def to_int32 (n : Int) : Int := (n + 2147483648) % 4294967296 - 2147483648

/-- Conversion of an `int` to `uint64_t`. -/
def to_u64 (n : Int) : Nat := (n % 18446744073709551616).toNat

/-- Subtraction of `uint64_t` / `size_t` values: the difference modulo `2 ^ 64`. -/
def sub64 (a b : Nat) : Nat :=
  let x := a % 18446744073709551616
  let y := b % 18446744073709551616
  if y ≤ x then x - y else x + 18446744073709551616 - y

/-- Subtraction of `uint32_t` values: the difference modulo `2 ^ 32`. -/
def sub32 (a b : Nat) : Nat :=
  let x := a % 4294967296
  let y := b % 4294967296
  if y ≤ x then x - y else x + 4294967296 - y

/-- Assignment to one slot of a fixed array. -/
def upd {α : Type} (f : Nat → α) (i : Nat) (v : α) : Nat → α :=
  fun j => if j = i then v else f j

/-- One byte of the mapping, `none` outside it. -/
def byte_at (db : List Nat) (a : Nat) : Option Nat :=
  match db[a]? with
  | some b => some (b % 256)
  | none => none

/-- The idiom `memcpy(&tmp, a, 4); ntohl(tmp)`: four bytes at `a`, big-endian. -/
def read32be (db : List Nat) (a : Nat) : Res Nat :=
  match byte_at db a, byte_at db (a + 1), byte_at db (a + 2), byte_at db (a + 3) with
  | some b0, some b1, some b2, some b3 => .ok (b0 * 16777216 + b1 * 65536 + b2 * 256 + b3)
  | _, _, _, _ => .fault .oob_read

/-! ## varint.c -/

/-- The `for (;;)` loop of `varint_decode`, run on the bytes from the cursor on.
The arguments are `shift`, `length` and `value`; each step shifts the accumulated
value by the running `shift`, which grows by 7 per byte. -/
def varint_loop : List Nat → Nat → Int → Nat → Res (Nat × Int)
  | [], shift, _, _ => if 64 ≤ shift then .fault .shift_range else .fault .oob_read
  | b :: rest, shift, length, value =>
    if 64 ≤ shift then .fault .shift_range else
    let value := ((value <<< shift) % 18446744073709551616) ||| ((b % 256) &&& 0x7f)
    let length := length + 1
    if (b % 256) &&& 0x80 = 0 then .ok (value, length)
    else varint_loop rest (shift + 7) length value

/-- The function `varint_decode(&result, varint_p, &end)`: the result is
`(result, length, end)`. -/
def varint_decode (db : List Nat) (varint_p : Nat) : Res (Nat × Int × Nat) :=
  match varint_loop (db.drop varint_p) 0 0 0 with
  | .ok (value, length) => .ok (value, length, varint_p + length.toNat)
  | .fault f => .fault f

/-! ## undark.c: data -/

def DECODE_MODE_FREESPACE : Int := 1
def DECODE_MODE_NORMAL : Int := 0
def PAYLOAD_SIZE_MINIMUM : Nat := 10
def PAYLOAD_CELLS_MAX : Nat := 1000
def OVERFLOW_PAGES_MAX : Nat := 10000
def SIZE_MAX : Nat := 18446744073709551615

/-- The fields of `struct globals` the decoder and the materializer read.  `db` is
the mapping `db_origin[0 .. db_size)`. -/
structure globals where
  db : List Nat
  page_size : Nat
  page_count : Nat
  cc_min : Int
  cc_max : Int
  rs_min : Nat
  rs_max : Nat
  report_blobs : Int
  blob_size_limit : Nat
  blob_count : Int
  fine_search : Int
  freelist_space_only : Int
  removed_only : Int

/-- The field `db_size`: `main` sets it to the size of the mapped file. -/
def globals.db_size (g : globals) : Nat := g.db.length

/-- The field `db_end`: `main` sets it to `db_origin + st_size - 1`. -/
def globals.db_end (g : globals) : Int := (g.db.length : Int) - 1

/-- The settings of `UNDARK_init` for a mapped file `db`, with the page size and
page count `main` reads afterwards. -/
def UNDARK_init (db : List Nat) (page_size page_count : Nat) : globals :=
  { db := db, page_size := page_size, page_count := page_count,
    cc_min := 2, cc_max := PAYLOAD_CELLS_MAX, rs_min := 10, rs_max := SIZE_MAX,
    report_blobs := 1, blob_size_limit := SIZE_MAX, blob_count := 0,
    fine_search := 0, freelist_space_only := 0, removed_only := 0 }

/-- The record `struct cell`: serial type, offset, size. -/
structure cell where
  t : Int
  o : Int
  s : Int
  deriving DecidableEq, Repr

/-- The record `struct sql_payload` (the fields the decoder writes). -/
structure sql_payload where
  prefix_length : Nat
  length : Nat
  rowid : Nat
  header_size : Nat
  cell_count : Int
  cells : Nat → cell
  overflow_pages : Nat → Nat

/-- What a call of `decode_row` leaves behind: its return value, the payload
descriptor and the text written to standard output. -/
structure decoded where
  ret : Int
  payload : sql_payload
  out : List String

/-! ## undark.c: decode_row -/

/-- The `while (ovp > 0)` loop of `decode_row` (lines 723-755).  The state is the
current page number `ovp`, the write index `ovpi`, the payload and the text written
so far.  Leaving the loop by `break` and by `ovp == 0` both end in `Res.ok`. -/
def overflow_loop (g : globals) :
    Nat → Nat → Nat → sql_payload → List String → Res (sql_payload × List String)
  | 0, _, _, _, _ => .fault .fuel
  | fuel + 1, ovp, ovpi, payload, out =>
    if ovp > 0 then
      let calculated_address := ((ovp - 1) * g.page_size) % 4294967296
      if (calculated_address : Int) > g.db_end - 4 then .ok (payload, out)
      else if (calculated_address : Int) < 0 then .ok (payload, out)
      else
        match read32be g.db calculated_address with
        | .fault f => .fault f
        | .ok tmp =>
          if ovpi > OVERFLOW_PAGES_MAX then .fault .array_bounds else
          let payload := { payload with overflow_pages := upd payload.overflow_pages ovpi tmp }
          let ovp := tmp
          let ovpi := ovpi + 1
          if ovpi > OVERFLOW_PAGES_MAX then
            .ok ({ payload with overflow_pages := upd payload.overflow_pages 0 0 },
                 out ++ ["ERROR: No more space for overflow pages\n"])
          else
            let payload := { payload with overflow_pages := upd payload.overflow_pages ovpi 0 }
            overflow_loop g fuel ovp ovpi payload out
    else .ok (payload, out)

/-- The overflow handling of `decode_row` (lines 707-766), entered when
`payload->length > g->page_size - 35`.  The flag of the result is `true` when the code
returns 0 from inside the block (first page number above `page_count`). -/
def overflow_chain (g : globals) (data_endpoint : Nat) (payload : sql_payload) :
    Res (Bool × sql_payload × List String) :=
  if data_endpoint < 4 then .fault .oob_read else
  match read32be g.db (data_endpoint - 4) with
  | .fault f => .fault f
  | .ok tmp =>
    let payload := { payload with overflow_pages := upd payload.overflow_pages 0 tmp }
    let ovp := tmp
    if ovp > g.page_count then .ok (true, payload, [])
    else
      match overflow_loop g OVERFLOW_PAGES_MAX ovp 1 payload [] with
      | .fault f => .fault f
      | .ok (payload, out) => .ok (false, payload, out)

/-- The `switch (s)` of the cell loop (lines 788-802): the recorded type and the
size, as `uint64_t`, for a serial type other than 10 and 11. -/
def serial_switch (s : Nat) : Int × Nat :=
  if s = 0 then (to_int32 s, 0)
  else if s = 1 then (to_int32 s, 1)
  else if s = 2 then (to_int32 s, 2)
  else if s = 3 then (to_int32 s, 3)
  else if s = 4 then (to_int32 s, 4)
  else if s = 5 then (to_int32 s, 6)
  else if s = 6 ∨ s = 7 then (to_int32 s, 8)
  else if s = 8 ∨ s = 9 then (to_int32 s, 0)
  else if s ≥ 12 ∧ s &&& 0x01 = 0 then (12, (s - 12) / 2)
  else if s ≥ 13 ∧ s &&& 0x01 = 1 then (13, (s - 13) / 2)
  else (to_int32 s, s)

/-- The `while (1)` loop over the serial types (lines 779-815).  The state is the
cursor `p`, the cell index `t`, the running `offset` and the payload.  The result is
`none` when the code returns 0 from inside the loop, and the state at the `break`
otherwise. -/
def cell_loop (g : globals) (base plh_ep : Nat) :
    Nat → Nat → Nat → Int → sql_payload → Res (Option (Nat × Nat × Int) × sql_payload)
  | 0, _, _, _, _ => .fault .fuel
  | fuel + 1, p, t, offset, payload =>
    match varint_decode g.db p with
    | .fault f => .fault f
    | .ok (s, vil, p) =>
      if vil > 8 then .ok (none, payload) else
      if t > PAYLOAD_CELLS_MAX then .fault .array_bounds else
      let payload := { payload with cells := upd payload.cells t { payload.cells t with t := to_int32 s } }
      if s = 10 ∨ s = 11 then .ok (none, payload) else
      let ts := serial_switch s
      let c : cell := { t := ts.1, s := to_int32 ts.2, o := to_int32 ((plh_ep : Int) + offset - base) }
      let payload := { payload with cells := upd payload.cells t c }
      let offset := offset + c.s
      if offset < -2147483648 ∨ offset > 2147483647 then .fault .int_overflow else
      if to_u64 offset > payload.length then .ok (none, payload) else
      if p ≥ plh_ep then .ok (some (p, t, offset), payload) else
      let t := t + 1
      let payload := { payload with cell_count := payload.cell_count + 1 }
      if (t : Int) > g.cc_max then .ok (none, payload) else
      cell_loop g base plh_ep fuel p t offset payload

/-- Lines 669-702 of `decode_row`: the payload length, the row id and the header
size, with their checks.  The result is the finished call when the code returns here,
and otherwise the payload, the start of the payload header (the first value of
`plh_ep`) and the cursor `p` behind the header size. -/
def decode_head (g : globals) (p : Nat) (payload : sql_payload) (mode : Int)
    (forced_length : Nat) : Res (decoded ⊕ (sql_payload × Nat × Nat)) :=
  let base := p
  let payload := { payload with overflow_pages := upd payload.overflow_pages 0 0, cell_count := 0 }
  match (if mode = DECODE_MODE_FREESPACE then Res.ok (sub64 forced_length 4, (0 : Int), p)
         else varint_decode g.db p) with
  | .fault f => .fault f
  | .ok (length, _, p) =>
    let payload := { payload with length := length }
    if payload.length > g.db_size then .ok (.inl ⟨0, payload, []⟩) else
    if payload.length < g.rs_min then .ok (.inl ⟨0, payload, []⟩) else
    if payload.length > g.rs_max then .ok (.inl ⟨0, payload, []⟩) else
    match (if mode = DECODE_MODE_FREESPACE then Res.ok (1, (0 : Int), p)
           else varint_decode g.db p) with
    | .fault f => .fault f
    | .ok (rowid, _, p) =>
      let payload := { payload with rowid := rowid }
      if payload.rowid < 1 then .ok (.inl ⟨0, payload, []⟩) else
      let payload := { payload with prefix_length := p - base }
      let plh_ep := p
      match varint_decode g.db p with
      | .fault f => .fault f
      | .ok (header_size, _, p) =>
        let payload := { payload with header_size := header_size }
        if payload.header_size > g.page_size then .ok (.inl ⟨0, payload, []⟩) else
        if mode = DECODE_MODE_FREESPACE then
          .ok (.inr ({ payload with length := sub64 payload.length payload.header_size }, plh_ep, p))
        else .ok (.inr (payload, plh_ep, p))

/-- Lines 768-850 of `decode_row`: the header size checks, the cell loop and the
final acceptance.  The arguments `plh_start` and `p` are the start of the payload
header and the cursor behind the header size; `out` is the text written so far. -/
def decode_cells (g : globals) (base plh_start p : Nat) (payload : sql_payload)
    (out : List String) (mode : Int) : Res decoded :=
  if payload.header_size > g.page_size then .ok ⟨0, payload, out⟩ else
  if payload.header_size < 2 then .ok ⟨0, payload, out⟩ else
  let plh_ep := plh_start + payload.header_size
  match cell_loop g base plh_ep payload.header_size p 0 0 payload with
  | .fault f => .fault f
  | .ok (none, payload) => .ok ⟨0, payload, out⟩
  | .ok (some (_, t, offset), payload) =>
    if (t : Int) < g.cc_min then .ok ⟨0, payload, out⟩ else
    if mode = DECODE_MODE_FREESPACE ∧ to_u64 offset ≤ payload.length then
      .ok ⟨to_int32 (((to_u64 offset + payload.header_size + 4) % 18446744073709551616 : Nat) : Int),
           payload, out⟩
    else if (to_u64 offset + payload.header_size) % 18446744073709551616 = payload.length then
      .ok ⟨1, payload, out⟩
    else .ok ⟨0, payload, out⟩

/-- The function `decode_row(g, p, data_endpoint, payload, mode, forced_length)`. -/
def decode_row (g : globals) (p data_endpoint : Nat) (payload : sql_payload) (mode : Int)
    (forced_length : Nat) : Res decoded :=
  match decode_head g p payload mode forced_length with
  | .fault f => .fault f
  | .ok (.inl d) => .ok d
  | .ok (.inr (payload, plh_start, p1)) =>
    match (if payload.length > sub32 g.page_size 35 then overflow_chain g data_endpoint payload
           else Res.ok (false, payload, [])) with
    | .fault f => .fault f
    | .ok (rejected, payload, out) =>
      if rejected then .ok ⟨0, payload, out⟩
      else decode_cells g p plh_start p1 payload out mode

/-- The return value of a run, `none` on a fault. -/
def ret_of (r : Res decoded) : Option Int :=
  match r with
  | .ok d => some d.ret
  | .fault _ => none

/-- The payload descriptor a run leaves, `none` on a fault. -/
def payload_of (r : Res decoded) : Option sql_payload :=
  match r with
  | .ok d => some d.payload
  | .fault _ => none

/-- The sum of the recorded sizes of the first `n` cells. -/
def sum_sizes (cells : Nat → cell) (n : Nat) : Int :=
  ((List.range n).map (fun i => (cells i).s)).sum

/-- The sum of the sizes of cells `0 .. cell_count`, the cells `dump_row` renders. -/
def cell_size_sum (payload : sql_payload) : Int :=
  sum_sizes payload.cells (payload.cell_count.toNat + 1)

/-- A payload descriptor before any decode: all fields zero. -/
def empty_payload : sql_payload :=
  { prefix_length := 0, length := 0, rowid := 0, header_size := 0, cell_count := 0,
    cells := fun _ => { t := 0, o := 0, s := 0 }, overflow_pages := fun _ => 0 }

/-! ## undark.c: dump_row

The host is the one the tool is built for: x86-64 Linux, so `char` is signed, `long`
has 64 bits and `ntohl` swaps bytes.  `malloc` succeeds for every size that is not
negative as an `int`; opening and writing a sidecar file succeeds. -/

/-- What the C code leaves open: the byte an uninitialised `uint32_t` holds behind the
three bytes copied into it (per cell index), and the text `printf("%f", ...)` produces
for the bit pattern handed to it. -/
structure host where
  junk : Nat → Nat
  float_text : Nat → String

/-- The memory `dump_row` reads cells from.  `data` is the object `mapped_data` points
into (the mapped file, or the allocated buffer), `origin` the index of `mapped_data`
in it, and `endpoint` is `mapped_data_endpoint - mapped_data`.  A byte `some b` has a
value, a byte `none` of the buffer was never written. -/
structure mapped where
  data : List (Option Nat)
  origin : Nat
  endpoint : Int

/-- What a call of `dump_row` leaves behind: its return value, the text written to
standard output, the sidecar files written (name and content) and `g->blob_count`. -/
structure dumped where
  ret : Int
  out : String
  files : List (String × List Nat)
  blob_count : Int

/-- Conversion of a value to `long` (64 bits, two's complement wrap). -/
def to_int64 (n : Int) : Int := (n + 9223372036854775808) % 18446744073709551616 - 9223372036854775808

/-- The statement `signed_value |= -1 << k` on a two's complement integer: all bits
from bit `k` on are set, the low `k` bits are kept. -/
def or_high_bits (signed_value : Int) (k : Nat) : Int := signed_value % 2 ^ k - 2 ^ k

/-- The function `to_signed_byte(unsigned char value)`, which returns a `char`. -/
def to_signed_byte (value : Nat) : Int :=
  let signed_value : Int := value
  let signed_value := if value >>> 7 ≠ 0 then or_high_bits signed_value 7 else signed_value
  (signed_value + 128) % 256 - 128

/-- The function `to_signed_int(unsigned int value)`. -/
def to_signed_int (value : Nat) : Int :=
  let signed_value : Int := to_int32 value
  if value >>> 15 ≠ 0 then or_high_bits signed_value 15 else signed_value

/-- The function `to_signed_long(unsigned long int value)`. -/
def to_signed_long (value : Nat) : Int :=
  let signed_value : Int := to_int64 value
  if value >>> 31 ≠ 0 then or_high_bits signed_value 31 else signed_value

/-- The value of a `char` holding the byte `b`. -/
def char_value (b : Nat) : Int := if b % 256 ≥ 128 then (b % 256 : Int) - 256 else (b % 256 : Int)

/-- The function `ntohl` on a `uint32_t`. -/
def ntohl (u : Nat) : Nat :=
  (u % 256) * 16777216 + (u / 256 % 256) * 65536 + (u / 65536 % 256) * 256 + u / 16777216 % 256

/-- The test `isprint(c)` in the C locale. -/
def isprint (b : Nat) : Bool := 32 ≤ b ∧ b ≤ 126

/-- One upper-case hexadecimal digit. -/
def hex_digit (d : Nat) : Char := if d < 10 then Char.ofNat (48 + d) else Char.ofNat (55 + d)

/-- The text of `printf("%02X", b)` for a byte. -/
def hex2 (b : Nat) : String := String.mk [hex_digit (b / 16 % 16), hex_digit (b % 16)]

/-- The bytes `db[a .. a + n)`, a fault when the range leaves the mapping. -/
def read_bytes (db : List Nat) (a n : Nat) : Res (List Nat) :=
  if a + n ≤ db.length then .ok (((db.drop a).take n).map (fun b => b % 256))
  else .fault .oob_read

/-- The bytes `mapped_data[o .. o + n)`. -/
def view_bytes (m : mapped) (o : Int) (n : Nat) : Res (List Nat) :=
  let a : Int := (m.origin : Int) + o
  if a < 0 then .fault .oob_read
  else if a.toNat + n ≤ m.data.length then
    let bs := (m.data.drop a.toNat).take n
    if bs.all Option.isSome then .ok (bs.map (fun b => b.getD 0)) else .fault .indeterminate
  else .fault .oob_read

/-- A big-endian number from its bytes. -/
def be_value (bs : List Nat) : Nat := bs.foldl (fun v b => v * 256 + b) 0

/-- The function `sqltdump(p, l)` on the `l` bytes at `p`: a double quote, then each
byte (a double quote twice, a byte that is not printable as a dot), then a double
quote. -/
def sqltdump (bs : List Nat) : String :=
  "\"" ++ String.join (bs.map (fun b =>
    (if b = 34 then "\"" else "") ++ (if isprint b then String.mk [Char.ofNat b] else "."))) ++ "\""

/-- The function `blob_dump(p, l)`. -/
def blob_dump (bs : List Nat) : String :=
  "x'" ++ String.join (bs.map hex2) ++ "'"

/-- The address `db_origin + (page - 1) * page_size`, the product taken in `uint32_t`. -/
def page_address (g : globals) (page : Nat) : Nat := ((page - 1) * g.page_size) % 4294967296

/-- The first `while (payload->overflow_pages[ovpi])` loop of `dump_row` (lines
940-948), which adds up `msize`.  The result is `none` when the code returns -1. -/
def dump_size_loop (g : globals) (payload : sql_payload) : Nat → Nat → Int → Res (Option Int)
  | 0, _, _ => .fault .fuel
  | fuel + 1, ovpi, msize =>
    if ovpi > OVERFLOW_PAGES_MAX then .fault .array_bounds else
    if payload.overflow_pages ovpi ≠ 0 then
      let addr : Int := (page_address g (payload.overflow_pages ovpi) : Int) + 4
      if addr < 0 ∨ addr + 4 > g.db_end then .ok none
      else dump_size_loop g payload fuel (ovpi + 1) (to_int32 (msize + (sub32 g.page_size 4 : Nat)))
    else .ok (some msize)

/-- An assignment of bytes to a buffer: `memcpy(buf + pos, bs, bs.length)`. -/
def buf_write (buf : List (Option Nat)) (pos : Int) (bs : List Nat) : Res (List (Option Nat)) :=
  if pos < 0 ∨ pos.toNat + bs.length > buf.length then .fault .heap_bounds
  else .ok (buf.take pos.toNat ++ bs.map some ++ buf.drop (pos.toNat + bs.length))

/-- The second `while (payload->overflow_pages[ovpi])` loop of `dump_row` (lines
969-984), which copies the overflow pages behind the head region.  The result is
`none` when the code returns -1. -/
def dump_copy_loop (g : globals) (payload : sql_payload) :
    Nat → Nat → List (Option Nat) → Int → Res (Option mapped)
  | 0, _, _, _ => .fault .fuel
  | fuel + 1, ovpi, buf, endpoint =>
    if ovpi > OVERFLOW_PAGES_MAX then .fault .array_bounds else
    if payload.overflow_pages ovpi ≠ 0 then
      let addr : Int := (page_address g (payload.overflow_pages ovpi) : Int) + 4
      if addr < 0 ∨ addr + 4 > g.db_end then .ok none
      else
        match read_bytes g.db addr.toNat (sub32 g.page_size 4) with
        | .fault f => .fault f
        | .ok bs =>
          match buf_write buf endpoint bs with
          | .fault f => .fault f
          | .ok buf => dump_copy_loop g payload fuel (ovpi + 1) buf (endpoint + (sub32 g.page_size 4 : Nat))
    else .ok (some { data := buf, origin := 0, endpoint := endpoint })

/-- Lines 926-985 of `dump_row`: the payload view.  The result is the return value
when the code returns here, and otherwise the view; the string is the text written to
standard output on the way. -/
def dump_map (g : globals) (base data_endpoint : Nat) (payload : sql_payload) :
    Res ((Int ⊕ mapped) × String) :=
  if payload.length > g.db_size then .ok (.inl (-1), "")
  else if payload.overflow_pages 0 = 0 then
    .ok (.inr { data := g.db.map (fun b => some (b % 256)), origin := base,
                endpoint := (data_endpoint : Int) - base }, "")
  else
    match dump_size_loop g payload (OVERFLOW_PAGES_MAX + 2) 0 (to_int32 payload.length) with
    | .fault f => .fault f
    | .ok none => .ok (.inl (-1), "")
    | .ok (some msize) =>
      let out := "plength " ++ toString (to_int64 payload.length) ++ ", total: " ++ toString msize ++ "\n"
      if msize < 0 then .ok (.inl (-1), out)
      else if payload.length + 1 > msize.toNat then .fault .heap_bounds
      else
        let buf : List (Option Nat) :=
          List.replicate (payload.length + 1) (some 88) ++
            List.replicate (msize.toNat - (payload.length + 1)) none
        if data_endpoint < base then .fault .oob_read else
        match read_bytes g.db base (data_endpoint - base) with
        | .fault f => .fault f
        | .ok head =>
          match buf_write buf 0 head with
          | .fault f => .fault f
          | .ok buf =>
            match dump_copy_loop g payload (OVERFLOW_PAGES_MAX + 2) 0 buf
                ((data_endpoint : Int) - base - 4) with
            | .fault f => .fault f
            | .ok none => .ok (.inl (-1), out)
            | .ok (some m) => .ok (.inr m, out)

/-- The state the cell loop of `dump_row` threads: text written, sidecar files,
`g->blob_count`. -/
structure dump_state where
  out : String
  files : List (String × List Nat)
  blob_count : Int

/-- The text for a cell whose bytes `mapped_data[o .. o + n)` are read first: the
state `k bs` when the bytes `bs` can be read. -/
def with_view (m : mapped) (o : Int) (n : Nat) (k : List Nat → dump_state) :
    Res (Bool × dump_state) :=
  match view_bytes m o n with
  | .fault f => .fault f
  | .ok bs => .ok (false, k bs)

/-- The `switch (payload->cells[t].t)` of `dump_row` for cell `t` (lines 999-1065).
The flag of the result is `true` when the code returns 0 from the `default` branch. -/
def dump_cell (g : globals) (h : host) (m : mapped) (t : Nat) (c : cell) (st : dump_state) :
    Res (Bool × dump_state) :=
  let put (s : String) : dump_state := { st with out := st.out ++ s }
  if c.t = 0 then .ok (false, put "NULL")
  else if c.t = 1 then
    with_view m c.o 1 (fun bs => put ("x" ++ toString (to_signed_byte (be_value bs))))
  else if c.t = 2 then
    with_view m c.o 2 (fun bs => put (toString (to_signed_int (be_value bs))))
  else if c.t = 3 then
    with_view m c.o 3 (fun bs =>
      put (toString (to_signed_long (be_value bs * 256 + h.junk t % 256))))
  else if c.t = 4 then
    with_view m c.o 4 (fun bs => put (toString (to_signed_long (be_value bs))))
  else if c.t = 5 ∨ c.t = 6 then
    with_view m c.o 1 (fun bs =>
      put (toString (to_int32 (ntohl (char_value (be_value bs) % 4294967296).toNat))))
  else if c.t = 7 then
    with_view m c.o 8 (fun bs => put (h.float_text (be_value bs)))
  else if c.t = 8 then .ok (false, put "0")
  else if c.t = 9 then .ok (false, put "1")
  else if c.t = 12 then
    if g.report_blobs ≠ 0 then
      if to_u64 c.s < g.blob_size_limit then
        with_view m c.o (c.s % 65536).toNat (fun bs =>
          { st with out := st.out ++ blob_dump bs, blob_count := st.blob_count + 1 })
      else
        with_view m c.o (to_u64 c.s) (fun bs =>
          { st with files := st.files ++ [(toString st.blob_count ++ ".blob", bs)],
                    blob_count := st.blob_count + 1 })
    else .ok (false, { st with blob_count := st.blob_count + 1 })
  else if c.t = 13 then
    with_view m c.o (c.s % 65536).toNat (fun bs => put (sqltdump bs))
  else .ok (true, st)

/-- The iterations `t = 0, 1, ...` of the `while (t <= payload->cell_count)` loop of
`dump_row`, over the cell indices still to do. -/
def dump_cells (g : globals) (h : host) (m : mapped) (payload : sql_payload) :
    List Nat → dump_state → Res (Bool × dump_state)
  | [], st => .ok (false, st)
  | t :: rest, st =>
    if t > PAYLOAD_CELLS_MAX then .fault .array_bounds else
    match dump_cell g h m t (payload.cells t) { st with out := st.out ++ "," } with
    | .fault f => .fault f
    | .ok (true, st) => .ok (true, st)
    | .ok (false, st) => dump_cells g h m payload rest st

/-- The function `dump_row(g, base, data_endpoint, payload, mode)`. -/
def dump_row (g : globals) (h : host) (base data_endpoint : Nat) (payload : sql_payload)
    (mode : Int) : Res dumped :=
  match dump_map g base data_endpoint payload with
  | .fault f => .fault f
  | .ok (.inl r, out) => .ok ⟨r, out, [], g.blob_count⟩
  | .ok (.inr m, out) =>
    let out :=
      if mode = DECODE_MODE_FREESPACE then out ++ "-1"
      else if -1 ≤ payload.cell_count then out ++ toString (to_int64 payload.rowid)
      else out
    match dump_cells g h m payload (List.range (payload.cell_count + 1).toNat)
        ⟨out, [], g.blob_count⟩ with
    | .fault f => .fault f
    | .ok (true, st) => .ok ⟨0, st.out, st.files, st.blob_count⟩
    | .ok (false, st) => .ok ⟨0, st.out ++ "\n", st.files, st.blob_count⟩

/-- The payload view of a run of `dump_map`, `none` when there is none. -/
def view_of (r : Res ((Int ⊕ mapped) × String)) : Option mapped :=
  match r with
  | .ok (.inr m, _) => some m
  | _ => none

/-- The fault a run ends in, `none` when it ends normally. -/
def fault_of {α : Type} (r : Res α) : Option Fault :=
  match r with
  | .ok _ => none
  | .fault f => some f

/-- The return value and the text of a run of `dump_row`, `none` on a fault. -/
def dump_result (r : Res dumped) : Option (Int × String) :=
  match r with
  | .ok d => some (d.ret, d.out)
  | .fault _ => none

/-- A host whose indeterminate bytes are zero and whose float text is empty. -/
def host0 : host := { junk := fun _ => 0, float_text := fun _ => "" }

/-! ## Specification-side definitions and test images -/

/-- The value the specification assigns to a varint: the fold of
`value := (value << 7) | (b & 0x7F)` over its bytes, starting from 0, in `uint64_t`. -/
def spec_varint_value (bytes : List Nat) : Nat :=
  bytes.foldl (fun value b => ((value <<< 7) ||| (b &&& 0x7F)) % 18446744073709551616) 0

/-- The number of bytes of the format's varint encoding of `v`. -/
def spec_varint_len (v : Nat) : Nat :=
  if v < 2 ^ 7 then 1 else if v < 2 ^ 14 then 2 else if v < 2 ^ 21 then 3
  else if v < 2 ^ 28 then 4 else if v < 2 ^ 35 then 5 else if v < 2 ^ 42 then 6
  else if v < 2 ^ 49 then 7 else if v < 2 ^ 56 then 8 else 9

/-- The format's varint encoding of a `uint64_t`: big-endian groups of 7 bits, the high
bit set on every byte but the last; a value of more than 56 bits takes 9 bytes, the
last of which holds 8 bits. -/
def spec_varint_encode (v : Nat) : List Nat :=
  let n := spec_varint_len v
  if n ≤ 8 then
    (List.range n).map (fun i => v / 2 ^ (7 * (n - 1 - i)) % 128 + (if i + 1 < n then 128 else 0))
  else
    (List.range 8).map (fun i => v / 2 ^ (8 + 7 * (7 - i)) % 128 + 128) ++ [v % 256]

/-- The first page of a test file: a file header with page size 512 (bytes 16-17) and
the given page count (bytes 28-31), zero otherwise. -/
def file_header (page_count : Nat) : List Nat :=
  List.replicate 16 0 ++ [2, 0] ++ List.replicate 10 0 ++
    [page_count / 16777216 % 256, page_count / 65536 % 256, page_count / 256 % 256,
     page_count % 256] ++ List.replicate 480 0

/-- A leaf table page of 512 bytes: the page header `header` (8 bytes, the first being
0x0D), then `content` from page offset `8 + gap` on, then zeros up to the last bytes
`last`. -/
def leaf_page (header : List Nat) (gap : Nat) (content last : List Nat) : List Nat :=
  header ++ List.replicate gap 0 ++ content ++
    List.replicate (512 - 8 - gap - content.length - last.length) 0 ++ last

/-- The page header of a leaf page without free block. -/
def leaf_header : List Nat := [13, 0, 0, 0, 1, 0, 0, 0]

/-- A record of length 10 with row id 1 and the serial types 1, 1, 4, at file offset
520. -/
def c1_db : List Nat :=
  file_header 2 ++ leaf_page leaf_header 0 [10, 1, 4, 1, 1, 4, 7, 8, 0, 0, 0, 9] []

/-- Ten bytes: nine with the high bit set, then one with the high bit clear. -/
def c4_bytes : List Nat := [0xff, 0xff, 0xff, 0xff, 0xff, 0xff, 0xff, 0xff, 0xff, 0x7f]

/-- A record of length 15 with row id 1, at file offset 520, whose header holds a
four-byte serial type and the serial types 4 and 4. -/
def c5_db : List Nat :=
  file_header 2 ++
    leaf_page leaf_header 0 [15, 1, 7, 0x81, 0x80, 0x80, 0x0C, 4, 4, 0, 0, 0, 1, 0, 0, 0, 2] []

/-- A record of length 11 with row id 1 and exactly two serial types, 4 and 4, at file
offset 520. -/
def c6_db : List Nat :=
  file_header 2 ++ leaf_page leaf_header 0 [11, 1, 3, 4, 4, 0, 0, 0, 1, 0, 0, 0, 2] []

/-- A leaf page whose free block at page offset 8 has size 14; its data, at file offset
524, is a header of size 11 with ten serial types 1. -/
def c7_db : List Nat :=
  file_header 2 ++
    leaf_page [13, 0, 8, 0, 0, 0, 0, 0] 0 [0, 0, 0, 14, 11, 1, 1, 1, 1, 1, 1, 1, 1, 1, 1] []

/-- A record at file offset 1010, 14 bytes before the end of the last page, of length
16 with row id 1 and the serial types 1, 1 and 33 (a text of 10 bytes): its last cell
needs the bytes up to file offset 1028, and the file has 1024. -/
def c8_db : List Nat :=
  file_header 2 ++
    leaf_page leaf_header 490 [16, 1, 4, 1, 1, 33, 7, 8, 72, 69, 76, 76, 79, 33] []

/-- A record of length 478 (above `page_size - 35`) with row id 1 and the serial types
1, 1 and 955 (a text of 471 bytes). -/
def long_record : List Nat :=
  [0x83, 0x5E, 1, 5, 1, 1, 0x87, 0x3B] ++ List.replicate 473 65

/-- A file of three pages: the record `long_record` at file offset 520, the page window
ending in the overflow page number 3, and page 3 starting with the next page number 9,
which lies outside the file. -/
def c10_db : List Nat :=
  file_header 3 ++ leaf_page leaf_header 0 long_record [0, 0, 0, 3] ++
    ([0, 0, 0, 9] ++ List.replicate 508 0)

/-- The payload descriptor a run of `decode_row` leaves, the empty one on a fault. -/
def payload_after (r : Res decoded) : sql_payload :=
  match r with
  | .ok d => d.payload
  | .fault _ => empty_payload

/-- The descriptor `decode_row` leaves for the record of `c10_db`. -/
def c10_payload : sql_payload :=
  payload_after (decode_row (UNDARK_init c10_db 512 3) 520 1024 empty_payload DECODE_MODE_NORMAL 0)

/-- The list `f a, f (a + 1), ..., f (a + n - 1)`. -/
def gen_bytes (f : Nat → Nat) : Nat → Nat → List Nat
  | 0, _ => []
  | n + 1, a => f a :: gen_bytes f n (a + 1)

/-- The first two pages of `c9_db`: a file header with page size 512 and page count
10002, and a leaf page with the record `long_record` at page offset 8 whose page window
ends in the overflow page number 3. -/
def c9_home : List Nat :=
  file_header 10002 ++ leaf_page leaf_header 0 long_record [0, 0, 0, 3]

/-- The next-page number stored in the `j`-th page of the chain of `c9_db` (page number
`j + 3`): the following page, and 0 in the last of the 10000 pages. -/
def c9_next (j : Nat) : Nat := if j + 1 < 10000 then j + 4 else 0

/-- The byte at offset `a` of the chain region of `c9_db`: each page of 512 bytes
starts with its next-page number, big-endian, and is zero otherwise. -/
def c9_chain_byte (a : Nat) : Nat :=
  if a % 512 < 4 then c9_next (a / 512) / 256 ^ (3 - a % 512) % 256 else 0

/-- A file of 10002 pages of 512 bytes: the two pages `c9_home`, then an overflow chain
of exactly 10000 pages, the pages 3 to 10002 in order. -/
def c9_db : List Nat := c9_home ++ gen_bytes c9_chain_byte 5120000 0

/-- The page numbers of the chain of `c9_db`: entry `i` is page `i + 3`, for 10000
entries, then 0. -/
def c9_chain (i : Nat) : Nat := if i < 10000 then i + 3 else 0

/-- The descriptor `decode_row` holds for the record of `c9_db` when it enters the
overflow handling. -/
def c9_head : sql_payload :=
  { prefix_length := 3, length := 478, rowid := 1, header_size := 5, cell_count := 0,
    cells := empty_payload.cells, overflow_pages := upd empty_payload.overflow_pages 0 0 }

/-- The text written to standard output by a run of `decode_row`. -/
def out_of (r : Res decoded) : Option (List String) :=
  match r with
  | .ok d => some d.out
  | .fault _ => none

/-- The settings `g` with the mapped file extended by `tail`. -/
def extend (g : globals) (tail : List Nat) : globals := { g with db := g.db ++ tail }

/-! ## undark.c: find_next_row

A scan writes rows to standard output as it goes, and flushes after each one, so the
text written before a fault stays written.  The state of a scan therefore carries the
output so far together with the fault, if any, that ended it. -/

/-- What a scan has done so far: the text written to standard output, the calls of
`find_next_row` (start cursor, end point, mode, forced length), the cursors at which
`decode_row` was called, the cursors at which `dump_row` ran with the value it
returned, the sidecar files written, `g->blob_count`, and the fault that ended the
scan. -/
structure scan_state where
  out : String
  calls : List (Nat × Nat × Int × Nat)
  attempts : List Nat
  dumps : List (Nat × Int)
  files : List (String × List Nat)
  blob_count : Int
  fault : Option Fault

/-- The state before anything has run. -/
def scan_start : scan_state :=
  { out := "", calls := [], attempts := [], dumps := [], files := [], blob_count := 0,
    fault := none }

/-- The call `dump_row(g, p, end_point, &sql, mode)` inside `find_next_row`, skipped
when a normal-mode scan runs with `freelist_space_only == 1`. -/
def find_next_row_dump (g : globals) (h : host) (end_point : Nat) (mode : Int) (p : Nat)
    (sql : sql_payload) (st : scan_state) : scan_state :=
  if mode = DECODE_MODE_NORMAL ∧ g.freelist_space_only = 1 then st
  else
    match dump_row { g with blob_count := st.blob_count } h p end_point sql mode with
    | .fault f => { st with fault := some f }
    | .ok r =>
      { st with out := st.out ++ r.out, dumps := st.dumps ++ [(p, r.ret)],
                files := st.files ++ r.files, blob_count := r.blob_count }

/-- One pass through the body of the `do` loop of `find_next_row`, with the cursor
`p`, the remaining `forced_length` and the descriptor `sql`.  The result is the state,
the descriptor, and the cursor and forced length for the loop test; these are `none`
when the loop is left by `break` or by a fault. -/
def find_next_row_body (g : globals) (h : host) (end_point : Nat) (mode : Int) (p : Nat)
    (forced_length : Nat) (sql : sql_payload) (st : scan_state) :
    scan_state × sql_payload × Option (Nat × Nat) :=
  let st := { st with attempts := st.attempts ++ [p] }
  match decode_row g p end_point sql mode forced_length with
  | .fault f => ({ st with fault := some f }, sql, none)
  | .ok d =>
    let st := { st with out := st.out ++ String.join d.out }
    let row := d.ret
    if row ≠ 0 then
      if g.removed_only ≠ 0 ∧ row ≥ 0 then (st, d.payload, some (p + 1, forced_length))
      else
        let st := find_next_row_dump g h end_point mode p d.payload st
        if st.fault.isSome then (st, d.payload, none)
        else if mode = DECODE_MODE_NORMAL then
          if g.fine_search ≠ 0 then (st, d.payload, some (p + 1, forced_length))
          else (st, d.payload, some (p + d.payload.length, forced_length))
        else if to_u64 row ≥ forced_length then (st, d.payload, none)
        else if (p : Int) + row < 0 then ({ st with fault := some .oob_read }, d.payload, none)
        else (st, d.payload, some (((p : Int) + row).toNat, sub64 forced_length (to_u64 row)))
    else (st, d.payload, some (p + 1, forced_length))

/-- The `do { ... } while (p < end_point - PAYLOAD_SIZE_MINIMUM)` loop of
`find_next_row`: the body runs first, the test follows it. -/
def find_next_row_loop (g : globals) (h : host) (end_point : Nat) (mode : Int) :
    Nat → Nat → Nat → sql_payload → scan_state → scan_state
  | 0, _, _, _, st => { st with fault := some .fuel }
  | fuel + 1, p, forced_length, sql, st =>
    match find_next_row_body g h end_point mode p forced_length sql st with
    | (st, _, none) => st
    | (st, sql, some (p, forced_length)) =>
      if (p : Int) < (end_point : Int) - PAYLOAD_SIZE_MINIMUM then
        find_next_row_loop g h end_point mode fuel p forced_length sql st
      else st

/-- The function `find_next_row(g, s, end_point, global_start, mode, forced_length)`;
it always returns `NULL`, so the result is the state it leaves.  `global_start` is
only printed under `DEBUG`.  `sql` is the content of the local descriptor on entry,
which the C code does not initialise. -/
def find_next_row (g : globals) (h : host) (s end_point : Nat) (mode : Int)
    (forced_length : Nat) (sql : sql_payload) (st : scan_state) : scan_state :=
  find_next_row_loop g h end_point mode (end_point - s + 1) s forced_length sql
    { st with calls := st.calls ++ [(s, end_point, mode, forced_length)] }

/-! ## undark.c: main -/

/-- The idiom `memcpy(&tmp, a, 2); ntohs(tmp)`: two bytes at `a`, big-endian. -/
def read16be (db : List Nat) (a : Nat) : Res Nat :=
  match byte_at db a, byte_at db (a + 1) with
  | some b0, some b1 => .ok (b0 * 256 + b1)
  | _, _ => .fault .oob_read

/-- The operator `|` on two `int` values (two's complement, 32 bits). -/
def int_or (x y : Int) : Int :=
  to_int32 (((x % 4294967296).toNat ||| (y % 4294967296).toNat : Nat) : Int)

/-- The statement `g->page_size = (*(p+1)) | ((*p)<<8)` with `p = db_origin + 16`, a
`char *`: both bytes are promoted from `char` to `int`, the shift is the arithmetic
one of the usual compilers, and the `int` is stored in a `uint32_t`. -/
def header_page_size (db : List Nat) : Res Nat :=
  match byte_at db 16, byte_at db 17 with
  | some b16, some b17 =>
    .ok (int_or (char_value b17) (char_value b16 * 256) % 4294967296).toNat
  | _, _ => .fault .oob_read

/-- The start of `main` after the parameters are parsed and the file is mapped: the
page size is read from the header unless a parameter has set it, and the page count
and the two free-list fields are read from the header. -/
def main_setup (g : globals) : Res globals :=
  match (if g.page_size = 0 then header_page_size g.db else .ok g.page_size) with
  | .fault f => .fault f
  | .ok page_size =>
    match read32be g.db 28, read32be g.db 32, read32be g.db 36 with
    | .ok page_count, .ok _, .ok _ =>
      .ok { g with page_size := page_size, page_count := page_count }
    | _, _, _ => .fault .oob_read

/-- The loop `do { ... if (next) off = next; } while (next)` over the free-block
chain of the page at `db_cfp`, with the 16-bit offset `off`.  The loop has no state
but `off`, so a walk that ends visits no offset twice; the budget of 65536 steps
given by `main_leaf` is one no ending walk uses up. -/
def freeblock_walk (db : List Nat) (db_cfp : Nat) : Nat → Nat → Res Unit
  | 0, _ => .fault .nontermination
  | fuel + 1, off =>
    match read16be db (db_cfp + off), read16be db (db_cfp + off + 2) with
    | .ok next, .ok _ => if next ≠ 0 then freeblock_walk db db_cfp fuel next else .ok ()
    | _, _ => .fault .oob_read

/-- The block `if (*(g->db_cfp) == 13) { ... }` of `main` for the page at `db_cfp`:
the result is `freeblock_mode`, `leaf.freeblock_offset`, `leaf.freeblock_size` and
the new `db_cfp`. -/
def main_leaf (g : globals) (db_cfp : Nat) : Res (Int × Nat × Nat × Nat) :=
  match read16be g.db (db_cfp + 1) with
  | .fault f => .fault f
  | .ok freeblock_offset =>
    let blocks : Res (Int × Nat) :=
      if freeblock_offset > 0 then
        match freeblock_walk g.db db_cfp 65536 freeblock_offset with
        | .fault f => .fault f
        | .ok _ =>
          match read16be g.db (db_cfp + freeblock_offset),
              read16be g.db (db_cfp + freeblock_offset + 2) with
          | .ok _, .ok freeblock_size => .ok (1, freeblock_size)
          | _, _ => .fault .oob_read
      else .ok (0, 0)
    match blocks with
    | .fault f => .fault f
    | .ok (freeblock_mode, freeblock_size) =>
      match byte_at g.db (db_cfp + 3), byte_at g.db (db_cfp + 5), byte_at g.db (db_cfp + 7) with
      | some _, some _, some _ =>
        if g.freelist_space_only ≠ 0 ∧ freeblock_offset > 0 ∧ freeblock_size > 0 then
          .ok (freeblock_mode, freeblock_offset, freeblock_size, db_cfp + freeblock_offset + 4)
        else .ok (freeblock_mode, freeblock_offset, freeblock_size, db_cfp)
      | _, _, _ => .fault .oob_read

/-- One pass through the body of the page loop of `main`, up to the search of the
page at `db_cpp`: the result is the state and `g->db_cfp`. -/
def main_page (g : globals) (h : host) (sql : sql_payload) (db_cpp : Nat)
    (st : scan_state) : scan_state × Nat :=
  let db_cfp := db_cpp
  let db_cpp_limit := db_cpp + g.page_size
  match byte_at g.db db_cfp with
  | none => ({ st with fault := some .oob_read }, db_cfp)
  | some b =>
    match (if char_value b = 13 then main_leaf g db_cfp else .ok (0, 0, 0, db_cfp)) with
    | .fault f => ({ st with fault := some f }, db_cfp)
    | .ok (freeblock_mode, _, freeblock_size, db_cfp) =>
      let row := db_cfp
      if row > 0 ∧ (row : Int) < g.db_end then
        (find_next_row g h row db_cpp_limit freeblock_mode freeblock_size sql st, db_cfp)
      else (st, db_cfp)

/-- The loop `while (g->db_cfp < g->db_end) { ... }` of `main`, with `g->db_cfp`,
`g->db_cpp` and `g->page_number`. -/
def main_loop (g : globals) (h : host) (sql : sql_payload) :
    Nat → Nat → Nat → Nat → scan_state → scan_state
  | 0, _, _, _, st => { st with fault := some .nontermination }
  | fuel + 1, db_cfp, db_cpp, page_number, st =>
    if (db_cfp : Int) < g.db_end then
      match main_page g h sql db_cpp st with
      | (st, db_cfp) =>
        if st.fault.isSome then st
        else
          let db_cpp := db_cpp + g.page_size
          let page_number := (page_number + 1) % 4294967296
          if g.page_count < page_number then st
          else main_loop g h sql fuel db_cfp db_cpp page_number st
    else st

/-- The function `main` from the point where the parameters are parsed into `g` and
the file is mapped.  `sql` is what the stack holds where `find_next_row` puts its
descriptor.  The page loop ends after at most `page_count + 1` passes when the page
number does not wrap, and after at most `db_size + 2` passes when the page size is
not zero; a loop that uses up the budget does not end. -/
def main (g : globals) (h : host) (sql : sql_payload) : scan_state :=
  match main_setup g with
  | .fault f => { scan_start with fault := some f }
  | .ok g =>
    main_loop g h sql (g.page_count + g.db_size + 2) 0 0 1
      { scan_start with blob_count := g.blob_count }

/-- The value of a run, `none` on a fault. -/
def value_of {α : Type} (r : Res α) : Option α :=
  match r with
  | .ok a => some a
  | .fault _ => none

/-! ## Test images for the scan -/

/-- A file of three pages: the record `long_record` at file offset 520, the page window
ending in the overflow page number 3, and page 3 starting with the next page number 3,
so the chain runs from page 3 to page 3 without end. -/
def c12_db : List Nat :=
  file_header 3 ++ leaf_page leaf_header 0 long_record [0, 0, 0, 3] ++
    ([0, 0, 0, 3] ++ List.replicate 508 0)

/-- A file of two pages whose second page holds 512 bytes 0xFF. -/
def c13_db : List Nat := file_header 2 ++ List.replicate 512 255

/-- A file header of 100 bytes with the bytes `b16`, `b17` at offsets 16 and 17, the
page count 1 and zeros elsewhere. -/
def c14_header (b16 b17 : Nat) : List Nat :=
  List.replicate 16 0 ++ [b16, b17] ++ List.replicate 10 0 ++ [0, 0, 0, 1] ++
    List.replicate 68 0

/-- A file of one page of 512 bytes: the header string, the page size 512, the page
count 1, the leaf page header of page 1 at offset 100, and at offset 500 a record of
length 10 with row id 1 and the serial types 1, 1, 4. -/
def c15_db : List Nat :=
  [83, 81, 76, 105, 116, 101, 32, 102, 111, 114, 109, 97, 116, 32, 51, 0] ++ [2, 0] ++
    List.replicate 10 0 ++ [0, 0, 0, 1] ++ List.replicate 68 0 ++
    [13, 0, 0, 0, 1, 1, 0xF4, 0] ++ List.replicate 392 0 ++
    [10, 1, 4, 1, 1, 4, 7, 8, 0, 0, 0, 9]

/-- A leaf page whose free block, of size 8, lies at page offset 504: its data starts
at file offset 1020, four bytes before the end of the page. -/
def c16_db : List Nat :=
  file_header 2 ++ leaf_page [13, 1, 0xF8, 0, 0, 2, 0, 0] 0 [] [0, 0, 0, 8, 0, 0, 0, 0]

/-- A leaf page whose free block at page offset 8 has size 14 and holds zeros (file
offsets 520 to 533); at file offset 540, outside the free block, lie a header of size
4 with the serial types 1, 1, 4 and the cells 7, 8, 9. -/
def c17_db : List Nat :=
  file_header 2 ++
    leaf_page [13, 0, 8, 0, 0, 2, 0, 0] 0
      ([0, 0, 0, 14] ++ List.replicate 16 0 ++ [4, 1, 1, 4, 7, 8, 0, 0, 0, 9]) []

/-- A leaf page whose free block at page offset 484 has size 14; its data, at file
offset 1000, is the deleted record of `c18_db`, and the rest of the page holds bytes
11. -/
def c19_db : List Nat :=
  file_header 2 ++
    leaf_page [13, 1, 0xE4, 0, 0, 0, 8, 11] 0 []
      ([0, 0, 0, 14, 4, 1, 1, 4, 10, 11, 0, 0, 0, 9] ++ List.replicate 14 11)

/-- A record of length 21 with row id 1 at file offset 520, with the serial types 3, 5
and 6 and three cells that each hold the number 1. -/
def c20_db : List Nat :=
  file_header 2 ++
    leaf_page leaf_header 0
      [21, 1, 4, 3, 5, 6, 0, 0, 1, 0, 0, 0, 0, 0, 1, 0, 0, 0, 0, 0, 0, 0, 1] []

/-- The settings of a run of `main` on the file `db` without parameters. -/
def plain_run (db : List Nat) : globals := UNDARK_init db 0 0

/-- The settings of a run of `main` on the file `db` with `--freespace`. -/
def freespace_run (db : List Nat) : globals :=
  { UNDARK_init db 0 0 with freelist_space_only := 1 }

/-- The property of a step of the cell loop of `dump_row` that a normal result keeps
the text `s0` and writes behind it. -/
def out_grows (s0 : String) (r : Res (Bool × dump_state)) : Prop :=
  ∀ b st, r = .ok (b, st) → ∃ s, st.out = s0 ++ s

/-- The head of a file with a record at file offset 520: row id 1 and the serial types
1, 1 and 131085, a text of 65536 bytes which follow the head.  The payload length 65544
and the serial type 131085 are written as the three bytes `80 84 08` and `80 88 0D`,
which is how `varint_decode` reads these two values. -/
def c21_head : List Nat :=
  file_header 2 ++ leaf_header ++ [0x80, 0x84, 0x08, 1, 6, 1, 1, 0x80, 0x88, 0x0D, 7, 8]

/-- The settings for the file `c21_head ++ body`: the page size 131072 given as a
parameter, so that the record has no overflow chain. -/
def c21_globals (body : List Nat) : globals := extend (UNDARK_init c21_head 131072 2) body

/-- A record of length 10 at file offset 520 with row id 1 and the serial types 1, 1
and 20, a blob of the four bytes `DE AD BE EF`. -/
def c22_db : List Nat :=
  file_header 2 ++ leaf_page leaf_header 0 [10, 1, 4, 1, 1, 20, 7, 8, 0xDE, 0xAD, 0xBE, 0xEF] []

/-- The settings for `c22_db` with `--blob-size-limit=4`. -/
def c22_globals : globals := { UNDARK_init c22_db 512 2 with blob_size_limit := 4 }

/-- A file of three pages.  The record of length 478 with row id 1 and the serial types
1, 1 and 955 (a text of 471 bytes) starts at file offset 920: its first 92 cell bytes
`A` fill the page up to the overflow page number 3 in the last four bytes, and page 3
holds the next page number 0 and 508 bytes `B`. -/
def c23_db : List Nat :=
  file_header 3 ++
    leaf_page leaf_header 400
      ([0x83, 0x5E, 1, 5, 1, 1, 0x87, 0x3B] ++ List.replicate 92 65) [0, 0, 0, 3] ++
    ([0, 0, 0, 0] ++ List.replicate 508 66)

/-- A record of length 13 at file offset 520 with row id 1 and header size 4: the
serial types 4 and 4, and a third serial type written as the two bytes `80 01`, of
which the second lies behind the header end. -/
def c26_db : List Nat :=
  file_header 2 ++
    leaf_page leaf_header 0 [13, 1, 4, 4, 4, 0x80, 0x01, 0, 0, 1, 0, 0, 0, 2, 3] []

/-- A leaf page whose free block at page offset 8 names itself as the next free
block. -/
def c29_db : List Nat :=
  file_header 2 ++ leaf_page [13, 0, 8, 0, 0, 2, 0, 0] 0 [0, 8, 0, 14] []

/-- The cursor at which the cell loop is left by `break`, `none` otherwise. -/
def stop_cursor (r : Res (Option (Nat × Nat × Int) × sql_payload)) : Option Nat :=
  match r with
  | .ok (some (p, _, _), _) => some p
  | _ => none

/-- The number of newline characters of a text. -/
def newlines (s : String) : Nat := (s.toList.filter (fun c => c = '\n')).length

/-- The descriptor `decode_row` holds for the record of `c21_head` behind the header
size. -/
def c21_payload : sql_payload :=
  { prefix_length := 4, length := 65544, rowid := 1, header_size := 6, cell_count := 0,
    cells := empty_payload.cells, overflow_pages := upd empty_payload.overflow_pages 0 0 }

/-- The descriptor `decode_row` holds for the record of `c26_db` behind the header
size. -/
def c26_head : sql_payload :=
  { prefix_length := 2, length := 13, rowid := 1, header_size := 4, cell_count := 0,
    cells := empty_payload.cells, overflow_pages := upd empty_payload.overflow_pages 0 0 }

/-- The sidecar files a run of `dump_row` writes and the `g->blob_count` it leaves,
`none` on a fault. -/
def dump_files (r : Res dumped) : Option (List (String × List Nat) × Int) :=
  match r with
  | .ok d => some (d.files, d.blob_count)
  | .fault _ => none

/-- The descriptor `decode_row` leaves for the record of `c26_db`. -/
def c26_payload : sql_payload :=
  payload_after (decode_row (UNDARK_init c26_db 512 2) 520 1024 empty_payload
    DECODE_MODE_NORMAL 0)

/-- The settings for `c22_db` with `--blob-size-limit=5`. -/
def c22_inline_globals : globals := { UNDARK_init c22_db 512 2 with blob_size_limit := 5 }

/-- The text `dump_row` writes for the record of `c23_db`: the line `plength ...`,
then the row, whose text cell holds 90 bytes `A` of the home page and 381 bytes `B` of
page 3. -/
def c23_text : String :=
  "plength 478, total: 986\n1,x65,x65,\"" ++
    String.mk (List.replicate 90 'A' ++ List.replicate 381 'B') ++ "\"\n"

/-- The case labels of the `switch (payload->cells[t].t)` of `dump_row` (lines
1000-1057): 0 to 9, 12 and 13.  Every other type takes the `default` branch. -/
def rendered_type (t : Int) : Bool :=
  decide ((0 ≤ t ∧ t ≤ 9) ∨ t = 12 ∨ t = 13)

/-- A file of four pages, 2048 bytes.  The record of `c23_db` (length 478, row id 1,
the serial types 1, 1 and 955) starts at file offset 920, the page window ends in the
overflow page number 3, and page 3 holds the next page number 8388612 and 508 bytes
`B`.  Page 8388612 would start at byte `8388611 * 512 = 4294968832`, far behind the
file; the product taken in `uint32_t` is 1536, the start of page 4, whose next page
number is 0. -/
def c10_wrap_db : List Nat :=
  file_header 4 ++
    leaf_page leaf_header 400
      ([0x83, 0x5E, 1, 5, 1, 1, 0x87, 0x3B] ++ List.replicate 92 65) [0, 0, 0, 3] ++
    ([0, 0x80, 0, 4] ++ List.replicate 508 66) ++ List.replicate 512 0

/-- The descriptor `decode_row` leaves for the record of `c10_wrap_db`. -/
def c10_wrap_payload : sql_payload :=
  payload_after (decode_row (UNDARK_init c10_wrap_db 512 4) 920 1024 empty_payload
    DECODE_MODE_NORMAL 0)

/-- The text `dump_row` writes for the record of `c10_wrap_db`: the line `plength ...`,
then the row, whose text cell holds 90 bytes `A` of the home page and 381 bytes `B` of
page 3. -/
def c10_wrap_text : String :=
  "plength 478, total: 1494\n1,x65,x65,\"" ++
    String.mk (List.replicate 90 'A' ++ List.replicate 381 'B') ++ "\"\n"

/-- The file `c10_db` with the two links exchanged: the page window of the record ends
in the overflow page number 9, above the page count 3, and page 3 holds the next page
number 0. -/
def c11_first_db : List Nat :=
  file_header 3 ++ leaf_page leaf_header 0 long_record [0, 0, 0, 9] ++
    ([0, 0, 0, 0] ++ List.replicate 508 0)

/-! ## Lemmas: varint_decode -/

theorem varint_loop_length (l : List Nat) : ∀ (shift : Nat) (len : Int) (v : Nat) (v2 : Nat) (len2 : Int),
    varint_loop l shift len v = .ok (v2, len2) →
      len + 1 ≤ len2 ∧ len2 + (shift / 7 : Nat) ≤ len + 10 ∧ v2 < 18446744073709551616 := by
  induction l with
  | nil =>
    intro shift len v v2 len2 h
    simp only [varint_loop] at h
    split at h <;> simp at h
  | cons b rest ih =>
    intro shift len v v2 len2 h
    simp only [varint_loop] at h
    split at h
    · simp at h
    · split at h
      · simp only [Res.ok.injEq, Prod.mk.injEq] at h
        obtain ⟨h1, h2⟩ := h
        subst h1 h2
        refine ⟨le_refl _, by omega, ?_⟩
        apply Nat.or_lt_two_pow (n := 64)
        · exact Nat.mod_lt _ (by norm_num)
        · have : b % 256 &&& 127 ≤ 127 := Nat.and_le_right
          omega
      · have := ih _ _ _ _ _ h
        omega

theorem varint_decode_length {db : List Nat} {p v e : Nat} {len : Int}
    (h : varint_decode db p = .ok (v, len, e)) :
    1 ≤ len ∧ len ≤ 10 ∧ e = p + len.toNat ∧ v < 18446744073709551616 := by
  unfold varint_decode at h
  split at h
  · rename_i value length hl
    simp only [Res.ok.injEq, Prod.mk.injEq] at h
    obtain ⟨h1, h2, h3⟩ := h
    subst h1 h2 h3
    have := varint_loop_length _ _ _ _ _ _ hl
    omega
  · simp at h

/-! ## Lemmas: decode_row -/

theorem sum_sizes_succ (cells : Nat → cell) (n : Nat) :
    sum_sizes cells (n + 1) = sum_sizes cells n + (cells n).s := by
  simp [sum_sizes, List.range_succ]

theorem sum_sizes_congr (c1 c2 : Nat → cell) (n : Nat) (h : ∀ i, i < n → c1 i = c2 i) :
    sum_sizes c1 n = sum_sizes c2 n := by
  induction n with
  | zero => simp [sum_sizes]
  | succ n ih =>
    rw [sum_sizes_succ, sum_sizes_succ, ih (fun i hi => h i (by omega)), h n (by omega)]

theorem sum_sizes_upd (cells : Nat → cell) (t : Nat) (c : cell) :
    sum_sizes (upd cells t c) (t + 1) = sum_sizes cells t + c.s := by
  rw [sum_sizes_succ]
  have : sum_sizes (upd cells t c) t = sum_sizes cells t := by
    apply sum_sizes_congr
    intro i hi
    simp [upd]; omega
  rw [this]
  simp [upd]

theorem sum_sizes_upd_upd (cells : Nat → cell) (t : Nat) (c1 c2 : cell) :
    sum_sizes (upd (upd cells t c1) t c2) (t + 1) = sum_sizes cells t + c2.s := by
  rw [sum_sizes_upd]
  have : sum_sizes (upd cells t c1) t = sum_sizes cells t := by
    apply sum_sizes_congr
    intro i hi
    simp [upd]; omega
  rw [this]

theorem cell_loop_invariant (g : globals) (base plh_ep : Nat) :
    ∀ (fuel p t : Nat) (offset : Int) (payload : sql_payload) (p2 t2 : Nat) (offset2 : Int)
      (payload2 : sql_payload),
      cell_loop g base plh_ep fuel p t offset payload = .ok (some (p2, t2, offset2), payload2) →
      payload.cell_count = t → offset = sum_sizes payload.cells t →
      payload2.cell_count = t2 ∧ offset2 = sum_sizes payload2.cells (t2 + 1) ∧
      to_u64 offset2 ≤ payload2.length ∧ -2147483648 ≤ offset2 ∧ offset2 ≤ 2147483647 ∧
      payload2.length = payload.length ∧ payload2.header_size = payload.header_size ∧
      payload2.rowid = payload.rowid ∧ payload2.prefix_length = payload.prefix_length ∧
      payload2.overflow_pages = payload.overflow_pages ∧ t ≤ t2 ∧ plh_ep ≤ p2 := by
  intro fuel
  induction fuel with
  | zero => intro p t offset payload p2 t2 offset2 payload2 h; simp [cell_loop] at h
  | succ fuel ih =>
    intro p t offset payload p2 t2 offset2 payload2 h hcc hoff
    simp only [cell_loop] at h
    split at h
    · simp at h
    · rename_i s vil p1 hv
      split at h
      · simp at h
      split at h
      · simp at h
      split at h
      · simp at h
      split at h
      · simp at h
      split at h
      · simp at h
      rename_i hov hlen
      split at h
      · rename_i hp
        simp only [Res.ok.injEq, Prod.mk.injEq, Option.some.injEq] at h
        obtain ⟨⟨h1, h2, h3⟩, h4⟩ := h
        subst h1 h2 h3 h4
        refine ⟨hcc, ?_, ?_, ?_, ?_, ?_⟩
        · simp only
          rw [sum_sizes_upd_upd, hoff]
        · simpa using hlen
        · omega
        · omega
        · simp; exact hp
      split at h
      · simp at h
      · have := ih _ _ _ _ _ _ _ _ h (by simp [hcc]) (by
          simp only
          rw [sum_sizes_upd_upd, hoff])
        simp only at this
        obtain ⟨a1, a2, a3, a4, a5, a6, a7, a8, a9, a10, a11, a12⟩ := this
        exact ⟨a1, a2, a3, a4, a5, a6, a7, a8, a9, a10, by omega, a12⟩

theorem overflow_loop_fields (g : globals) :
    ∀ (fuel ovp ovpi : Nat) (payload : sql_payload) (out : List String) (payload2 : sql_payload)
      (out2 : List String),
      overflow_loop g fuel ovp ovpi payload out = .ok (payload2, out2) →
      payload2.length = payload.length ∧ payload2.header_size = payload.header_size ∧
      payload2.rowid = payload.rowid ∧ payload2.prefix_length = payload.prefix_length ∧
      payload2.cell_count = payload.cell_count ∧ payload2.cells = payload.cells := by
  intro fuel
  induction fuel with
  | zero => intro ovp ovpi payload out payload2 out2 h; simp [overflow_loop] at h
  | succ fuel ih =>
    intro ovp ovpi payload out payload2 out2 h
    simp only [overflow_loop] at h
    split at h
    · split at h
      · simp only [Res.ok.injEq, Prod.mk.injEq] at h
        obtain ⟨h1, -⟩ := h
        subst h1
        simp
      split at h
      · simp only [Res.ok.injEq, Prod.mk.injEq] at h
        obtain ⟨h1, -⟩ := h
        subst h1
        simp
      split at h
      · simp at h
      split at h
      · simp at h
      split at h
      · simp only [Res.ok.injEq, Prod.mk.injEq] at h
        obtain ⟨h1, -⟩ := h
        subst h1
        simp
      · have := ih _ _ _ _ _ _ h
        simpa using this
    · simp only [Res.ok.injEq, Prod.mk.injEq] at h
      obtain ⟨h1, -⟩ := h
      subst h1
      simp

theorem overflow_chain_fields (g : globals) (data_endpoint : Nat) (payload payload2 : sql_payload)
    (rej : Bool) (out2 : List String)
    (h : overflow_chain g data_endpoint payload = .ok (rej, payload2, out2)) :
    payload2.length = payload.length ∧ payload2.header_size = payload.header_size ∧
    payload2.rowid = payload.rowid ∧ payload2.prefix_length = payload.prefix_length ∧
    payload2.cell_count = payload.cell_count ∧ payload2.cells = payload.cells := by
  unfold overflow_chain at h
  split at h
  · simp at h
  split at h
  · simp at h
  simp only at h
  split at h
  · simp only [Res.ok.injEq, Prod.mk.injEq] at h
    obtain ⟨-, h1, -⟩ := h
    subst h1
    simp
  split at h
  · simp at h
  · rename_i pl o hl
    simp only [Res.ok.injEq, Prod.mk.injEq] at h
    obtain ⟨-, h1, -⟩ := h
    subst h1
    have := overflow_loop_fields _ _ _ _ _ _ _ _ hl
    simpa using this

theorem decode_head_normal (g : globals) (p : Nat) (payload : sql_payload)
    (forced_length : Nat) (payload2 : sql_payload) (plh_start p1 : Nat)
    (h : decode_head g p payload DECODE_MODE_NORMAL forced_length = .ok (.inr (payload2, plh_start, p1))) :
    payload2.length ≤ g.db_size ∧ 1 ≤ payload2.rowid ∧ payload2.header_size ≤ g.page_size ∧
    payload2.cell_count = 0 := by
  unfold decode_head at h
  have hm : ¬ (DECODE_MODE_NORMAL = DECODE_MODE_FREESPACE) := by decide
  simp only [hm, if_false] at h
  split at h
  · simp at h
  split at h
  · simp at h
  split at h
  · simp at h
  split at h
  · simp at h
  split at h
  · simp at h
  split at h
  · simp at h
  split at h
  · simp at h
  split at h
  · simp at h
  simp only [Res.ok.injEq, Sum.inr.injEq, Prod.mk.injEq] at h
  obtain ⟨h1, -, -⟩ := h
  subst h1
  exact ⟨by simp only; omega, by simp only; omega, by simp only; omega, rfl⟩


theorem decode_cells_accept_normal (g : globals) (base plh_start p : Nat) (payload : sql_payload)
    (out : List String) (d : decoded)
    (hps : g.page_size < 4294967296) (hlen : payload.length < 9223372036854775808)
    (hcc : payload.cell_count = 0)
    (h : decode_cells g base plh_start p payload out DECODE_MODE_NORMAL = .ok d)
    (hret : d.ret = 1) :
    (cell_size_sum d.payload + d.payload.header_size = d.payload.length) ∧
      d.payload.rowid = payload.rowid := by
  unfold decode_cells at h
  have hm : ¬ (DECODE_MODE_NORMAL = DECODE_MODE_FREESPACE) := by decide
  simp only [hm, if_false, false_and] at h
  split at h
  · simp at h; subst h; simp at hret
  rename_i hhs
  split at h
  · simp at h; subst h; simp at hret
  split at h
  · simp at h
  · simp at h; subst h; simp at hret
  · rename_i p2 t2 offset2 payload2 hl
    have inv := cell_loop_invariant _ _ _ _ _ _ _ _ _ _ _ _ hl (by simp [hcc]) (by simp [sum_sizes])
    obtain ⟨a1, a2, a3, a4, a5, a6, a7, a8, a9, a10, a11, a12⟩ := inv
    split at h
    · simp at h; subst h; simp at hret
    split at h
    · rename_i heq
      simp only [Res.ok.injEq] at h
      subst h
      simp only
      refine ⟨?_, a8⟩
      have e1 : cell_size_sum payload2 = offset2 := by
        unfold cell_size_sum
        rw [a1, a2]
        simp
      rw [e1]
      unfold to_u64 at heq a3
      omega
    · simp at h; subst h; simp at hret

theorem varint_loop_stops (k : Nat) : ∀ (l : List Nat) (shift : Nat) (len : Int) (v : Nat),
    shift + 7 * k < 64 →
    (∀ i, i < k → ∃ b, l[i]? = some b ∧ (b % 256) &&& 0x80 ≠ 0) →
    (∃ b, l[k]? = some b ∧ (b % 256) &&& 0x80 = 0) →
    ∃ v2, varint_loop l shift len v = .ok (v2, len + k + 1) := by
  induction k with
  | zero =>
    intro l shift len v hs _ hclr
    obtain ⟨b, hb, hc⟩ := hclr
    cases l with
    | nil => simp at hb
    | cons a rest =>
      simp only [List.getElem?_cons_zero, Option.some.injEq] at hb
      subst hb
      have : ¬ 64 ≤ shift := by omega
      simp [varint_loop, this, hc]
  | succ k ih =>
    intro l shift len v hs hset hclr
    cases l with
    | nil =>
      obtain ⟨b, hb, -⟩ := hclr
      simp at hb
    | cons a rest =>
      have h0 := hset 0 (by omega)
      obtain ⟨b, hb, hc⟩ := h0
      simp only [List.getElem?_cons_zero, Option.some.injEq] at hb
      subst hb
      have hns : ¬ 64 ≤ shift := by omega
      have ih2 := ih rest (shift + 7) (len + 1)
        (((v <<< shift) % 18446744073709551616) ||| ((a % 256) &&& 0x7f)) (by omega)
        (fun i hi => by simpa using hset (i + 1) (by omega))
        (by simpa using hclr)
      obtain ⟨v2, hv2⟩ := ih2
      refine ⟨v2, ?_⟩
      simp only [varint_loop, hns, if_false, hc]
      rw [hv2]
      congr 2
      push_cast
      ring

theorem byte_at_drop (db : List Nat) (p i : Nat) :
    byte_at db (p + i) = match (db.drop p)[i]? with
      | some b => some (b % 256)
      | none => none := by
  simp [byte_at, List.getElem?_drop]


/-! ## Lemmas: dump_row -/

theorem dump_size_loop_bad (g : globals) (payload : sql_payload) (i : Nat)
    (hi : i ≤ OVERFLOW_PAGES_MAX)
    (hnz : ∀ j, j ≤ i → payload.overflow_pages j ≠ 0)
    (hbad : (page_address g (payload.overflow_pages i) : Int) + 8 > g.db_end) :
    ∀ (n fuel ovpi : Nat) (msize : Int), ovpi + n = i → n < fuel →
      dump_size_loop g payload fuel ovpi msize = .ok none := by
  intro n
  induction n with
  | zero =>
    intro fuel ovpi msize h1 h2
    obtain ⟨f, rfl⟩ : ∃ f, fuel = f + 1 := ⟨fuel - 1, by omega⟩
    have e : ovpi = i := by omega
    subst e
    have h3 : ¬ ovpi > OVERFLOW_PAGES_MAX := by omega
    have h4 := hnz ovpi (le_refl _)
    have h5 : (page_address g (payload.overflow_pages ovpi) : Int) + 4 < 0 ∨
        (page_address g (payload.overflow_pages ovpi) : Int) + 4 + 4 > g.db_end := by
      right; omega
    simp only [dump_size_loop, h3, if_false, ne_eq, h4, not_false_eq_true, if_true, h5]
  | succ n ih =>
    intro fuel ovpi msize h1 h2
    obtain ⟨f, rfl⟩ : ∃ f, fuel = f + 1 := ⟨fuel - 1, by omega⟩
    have h3 : ¬ ovpi > OVERFLOW_PAGES_MAX := by omega
    have h4 := hnz ovpi (by omega)
    simp only [dump_size_loop, h3, if_false, ne_eq, h4, not_false_eq_true, if_true]
    split
    · rfl
    · exact ih _ _ _ (by omega) (by omega)

theorem dump_map_bad (g : globals) (base data_endpoint : Nat) (payload : sql_payload) (i : Nat)
    (hi : i ≤ OVERFLOW_PAGES_MAX)
    (hnz : ∀ j, j ≤ i → payload.overflow_pages j ≠ 0)
    (hbad : (page_address g (payload.overflow_pages i) : Int) + 8 > g.db_end) :
    dump_map g base data_endpoint payload = .ok (.inl (-1), "") := by
  unfold dump_map
  split
  · rfl
  · have h0 := hnz 0 (by omega)
    simp only [h0, if_false]
    rw [dump_size_loop_bad g payload i hi hnz hbad i _ 0 _ (by omega)
      (by unfold OVERFLOW_PAGES_MAX at *; omega)]

/-! ## Lemmas: the overflow chain -/

theorem overflow_loop_cap (g : globals) (c : Nat → Nat) :
    ∀ (n fuel ovpi j : Nat) (payload : sql_payload) (out : List String),
      ovpi + n = OVERFLOW_PAGES_MAX → n < fuel →
      (∀ i, i ≤ n → 0 < c (j + i) ∧ (page_address g (c (j + i)) : Int) ≤ g.db_end - 4 ∧
        read32be g.db (page_address g (c (j + i))) = .ok (c (j + i + 1))) →
      ∃ X, overflow_loop g fuel (c j) ovpi payload out =
          .ok ({ payload with overflow_pages := X },
               out ++ ["ERROR: No more space for overflow pages\n"]) ∧ X 0 = 0 := by
  intro n
  induction n with
  | zero =>
    intro fuel ovpi j payload out h1 h2 hc
    obtain ⟨f, rfl⟩ : ∃ f, fuel = f + 1 := ⟨fuel - 1, by omega⟩
    obtain ⟨c1, c2, c3⟩ := hc 0 (le_refl _)
    simp only [Nat.add_zero] at c1 c2 c3
    unfold page_address at c2 c3
    have e1 : ¬ (((c j - 1) * g.page_size % 4294967296 : Nat) : Int) > g.db_end - 4 := by omega
    have e2 : ¬ (((c j - 1) * g.page_size % 4294967296 : Nat) : Int) < 0 := by omega
    have e3 : ¬ ovpi > OVERFLOW_PAGES_MAX := by omega
    have e4 : ovpi + 1 > OVERFLOW_PAGES_MAX := by omega
    refine ⟨upd (upd payload.overflow_pages ovpi (c (j + 1))) 0 0, ?_, ?_⟩
    · simp only [overflow_loop, c1, if_true, e1, e2, if_false, c3, e3, e4]
    · simp [upd]
  | succ n ih =>
    intro fuel ovpi j payload out h1 h2 hc
    obtain ⟨f, rfl⟩ : ∃ f, fuel = f + 1 := ⟨fuel - 1, by omega⟩
    obtain ⟨c1, c2, c3⟩ := hc 0 (by omega)
    simp only [Nat.add_zero] at c1 c2 c3
    unfold page_address at c2 c3
    have e1 : ¬ (((c j - 1) * g.page_size % 4294967296 : Nat) : Int) > g.db_end - 4 := by omega
    have e2 : ¬ (((c j - 1) * g.page_size % 4294967296 : Nat) : Int) < 0 := by omega
    have e3 : ¬ ovpi > OVERFLOW_PAGES_MAX := by omega
    have e4 : ¬ ovpi + 1 > OVERFLOW_PAGES_MAX := by omega
    have := ih f (ovpi + 1) (j + 1)
      { payload with overflow_pages := upd (upd payload.overflow_pages ovpi (c (j + 1))) (ovpi + 1) 0 }
      out (by omega) (by omega)
      (fun i hi => by
        have := hc (i + 1) (by omega)
        have e : j + (i + 1) = j + 1 + i := by omega
        rw [e] at this
        exact this)
    obtain ⟨X, hX, hX0⟩ := this
    refine ⟨X, ?_, hX0⟩
    simp only [overflow_loop, c1, if_true, e1, e2, if_false, c3, e3, e4]
    exact hX

/-! ## Lemmas: a file that is extended at its end -/

theorem varint_loop_append (l2 : List Nat) : ∀ (l1 : List Nat) (shift : Nat) (len : Int) (v : Nat)
    (r : Nat × Int), varint_loop l1 shift len v = .ok r →
    varint_loop (l1 ++ l2) shift len v = .ok r := by
  intro l1
  induction l1 with
  | nil =>
    intro shift len v r h
    simp only [varint_loop] at h
    split at h <;> simp at h
  | cons b rest ih =>
    intro shift len v r h
    simp only [varint_loop, List.cons_append] at h ⊢
    split
    · rename_i h1; simp [h1] at h
    · rename_i h1
      simp only [h1, if_false] at h
      split
      · rename_i h2; simpa [h2] using h
      · rename_i h2
        simp only [h2, if_false] at h
        exact ih _ _ _ _ h

theorem varint_decode_append (db tail : List Nat) (p : Nat) (r : Nat × Int × Nat)
    (h : varint_decode db p = .ok r) : varint_decode (db ++ tail) p = .ok r := by
  unfold varint_decode at h ⊢
  split at h
  · rename_i value length hl
    have hp : p ≤ db.length := by
      by_contra hc
      rw [List.drop_eq_nil_of_le (by omega)] at hl
      simp only [varint_loop] at hl
      split at hl <;> simp at hl
    rw [List.drop_append_of_le_length hp, varint_loop_append tail _ _ _ _ _ hl]
    exact h
  · simp at h


theorem cell_loop_extend (g : globals) (tail : List Nat) (base plh_ep : Nat) :
    ∀ (fuel p t : Nat) (offset : Int) (payload : sql_payload)
      (r : Option (Nat × Nat × Int) × sql_payload),
      cell_loop g base plh_ep fuel p t offset payload = .ok r →
      cell_loop (extend g tail) base plh_ep fuel p t offset payload = .ok r := by
  intro fuel
  induction fuel with
  | zero => intro p t offset payload r h; simp [cell_loop] at h
  | succ fuel ih =>
    intro p t offset payload r h
    simp only [cell_loop] at h ⊢
    split at h
    · simp at h
    · rename_i s vil p1 hv
      have hv2 : varint_decode (extend g tail).db p = .ok (s, vil, p1) :=
        varint_decode_append _ _ _ _ hv
      rw [hv2]
      simp only
      have e : (extend g tail).cc_max = g.cc_max := rfl
      rw [e]
      split at h
      · rename_i c; rw [if_pos c]; exact h
      rename_i c1; rw [if_neg c1]
      split at h
      · simp at h
      rename_i c2; rw [if_neg c2]
      split at h
      · rename_i c; rw [if_pos c]; exact h
      rename_i c3; rw [if_neg c3]
      split at h
      · simp at h
      rename_i c4; rw [if_neg c4]
      split at h
      · rename_i c; rw [if_pos c]; exact h
      rename_i c5; rw [if_neg c5]
      split at h
      · rename_i c; rw [if_pos c]; exact h
      rename_i c6; rw [if_neg c6]
      split at h
      · rename_i c; rw [if_pos c]; exact h
      rename_i c7; rw [if_neg c7]
      exact ih _ _ _ _ _ h



theorem decode_cells_extend (g : globals) (tail : List Nat) (base plh_start p : Nat)
    (payload : sql_payload) (out : List String) (mode : Int) (d : decoded)
    (h : decode_cells g base plh_start p payload out mode = .ok d) :
    decode_cells (extend g tail) base plh_start p payload out mode = .ok d := by
  unfold decode_cells at h ⊢
  have e1 : (extend g tail).page_size = g.page_size := rfl
  have e2 : (extend g tail).cc_min = g.cc_min := rfl
  rw [e1, e2]
  split at h
  · rename_i c; rw [if_pos c]; exact h
  rename_i c1; rw [if_neg c1]
  split at h
  · rename_i c; rw [if_pos c]; exact h
  rename_i c2; rw [if_neg c2]
  simp only at h ⊢
  split at h
  · simp at h
  · rename_i pl hl
    rw [cell_loop_extend g tail _ _ _ _ _ _ _ _ hl]
    exact h
  · rename_i p2 t offset pl hl
    rw [cell_loop_extend g tail _ _ _ _ _ _ _ _ hl]
    exact h

theorem decode_head_extend (g : globals) (tail : List Nat) (p : Nat) (payload : sql_payload)
    (mode : Int) (forced_length : Nat) (r : sql_payload × Nat × Nat)
    (h : decode_head g p payload mode forced_length = .ok (.inr r)) :
    decode_head (extend g tail) p payload mode forced_length = .ok (.inr r) := by
  unfold decode_head at h ⊢
  have e1 : (extend g tail).page_size = g.page_size := rfl
  have e2 : (extend g tail).rs_min = g.rs_min := rfl
  have e3 : (extend g tail).rs_max = g.rs_max := rfl
  have e4 : (extend g tail).db_size = g.db_size + tail.length := by
    simp [extend, globals.db_size]
  have e5 : (extend g tail).db = g.db ++ tail := rfl
  rw [e1, e2, e3, e4, e5]
  simp only at h ⊢
  by_cases hm : mode = DECODE_MODE_FREESPACE
  · simp only [hm, if_true] at h ⊢
    split at h
    · simp at h
    rename_i c1
    rw [if_neg (by omega)]
    split at h
    · simp at h
    rename_i c2; rw [if_neg c2]
    split at h
    · simp at h
    rename_i c3; rw [if_neg c3]
    split at h
    · simp at h
    rename_i c4; rw [if_neg c4]
    split at h
    · simp at h
    · rename_i hs vil p1 hv
      rw [varint_decode_append _ tail _ _ hv]
      exact h
  · simp only [hm, if_false] at h ⊢
    split at h
    · simp at h
    rename_i s1 vil1 p1 hv1
    rw [varint_decode_append _ tail _ _ hv1]
    simp only at h ⊢
    split at h
    · simp at h
    rename_i c1
    rw [if_neg (by omega)]
    split at h
    · simp at h
    rename_i c2; rw [if_neg c2]
    split at h
    · simp at h
    rename_i c3; rw [if_neg c3]
    split at h
    · simp at h
    rename_i s2 vil2 p2 hv2
    rw [varint_decode_append _ tail _ _ hv2]
    simp only at h ⊢
    split at h
    · simp at h
    rename_i c4; rw [if_neg c4]
    split at h
    · simp at h
    · rename_i hs vil p3 hv
      rw [varint_decode_append _ tail _ _ hv]
      exact h

theorem decode_row_stages (g : globals) (p data_endpoint : Nat) (payload : sql_payload)
    (mode : Int) (forced_length : Nat) (payload1 : sql_payload) (plh_start p1 : Nat)
    (rejected : Bool) (payload2 : sql_payload) (out : List String)
    (h1 : decode_head g p payload mode forced_length = .ok (.inr (payload1, plh_start, p1)))
    (h2 : payload1.length > sub32 g.page_size 35)
    (h3 : overflow_chain g data_endpoint payload1 = .ok (rejected, payload2, out)) :
    decode_row g p data_endpoint payload mode forced_length =
      if rejected then .ok ⟨0, payload2, out⟩
      else decode_cells g p plh_start p1 payload2 out mode := by
  unfold decode_row
  rw [h1]
  simp only [h2, if_true, h3]

/-! ## Lemmas: the file `c9_db` -/

set_option maxRecDepth 100000

theorem gen_bytes_getElem (f : Nat → Nat) : ∀ (n a i : Nat), i < n →
    (gen_bytes f n a)[i]? = some (f (a + i)) := by
  intro n
  induction n with
  | zero => intro a i hi; omega
  | succ n ih =>
    intro a i hi
    cases i with
    | zero => simp [gen_bytes]
    | succ i =>
      simp only [gen_bytes, List.getElem?_cons_succ]
      rw [ih (a + 1) i (by omega)]
      congr 2
      omega

theorem gen_bytes_length (f : Nat → Nat) : ∀ (n a : Nat), (gen_bytes f n a).length = n := by
  intro n
  induction n with
  | zero => intro a; rfl
  | succ n ih => intro a; simp [gen_bytes, ih]

theorem c9_home_length : c9_home.length = 1024 := by decide

theorem c9_db_length : c9_db.length = 5121024 := by
  rw [c9_db.eq_1, List.length_append, c9_home_length, gen_bytes_length]

theorem byte_at_append_gen (home : List Nat) (f : Nat → Nat) (n a : Nat) (ha : a < n) :
    byte_at (home ++ gen_bytes f n 0) (home.length + a) = some (f a % 256) := by
  unfold byte_at
  rw [List.getElem?_append_right (by omega)]
  have e : home.length + a - home.length = a := by omega
  rw [e, gen_bytes_getElem _ _ _ _ ha]
  simp

theorem byte_at_append_left (home tail : List Nat) (a : Nat) (ha : a < home.length) :
    byte_at (home ++ tail) a = byte_at home a := by
  unfold byte_at
  rw [List.getElem?_append_left ha]

theorem c9_db_chain_byte (a : Nat) (ha : a < 5120000) :
    byte_at c9_db (1024 + a) = some (c9_chain_byte a) := by
  have h := byte_at_append_gen c9_home c9_chain_byte 5120000 a ha
  rw [c9_home_length] at h
  rw [c9_db.eq_1, h]
  have e : c9_chain_byte a % 256 = c9_chain_byte a := by
    unfold c9_chain_byte
    split
    · exact Nat.mod_eq_of_lt (Nat.mod_lt _ (by norm_num))
    · rfl
  rw [e]

theorem read32be_of_bytes (db : List Nat) (v a : Nat) (hn : v < 4294967296)
    (h0 : byte_at db a = some (v / 16777216 % 256))
    (h1 : byte_at db (a + 1) = some (v / 65536 % 256))
    (h2 : byte_at db (a + 2) = some (v / 256 % 256))
    (h3 : byte_at db (a + 3) = some (v % 256)) : read32be db a = .ok v := by
  unfold read32be
  rw [h0, h1, h2, h3]
  simp only [Res.ok.injEq]
  omega

theorem c9_chain_byte_value (j i : Nat) (hi : i < 4) :
    c9_chain_byte (512 * j + i) = c9_next j / 256 ^ (3 - i) % 256 := by
  have b : (512 * j + i) % 512 = i := by omega
  have d : (512 * j + i) / 512 = j := by omega
  unfold c9_chain_byte
  rw [b, d, if_pos hi]

theorem c9_db_next (j : Nat) (hj : j < 10000) :
    read32be c9_db (1024 + 512 * j) = .ok (c9_next j) := by
  have hn : c9_next j < 4294967296 := by unfold c9_next; split <;> omega
  apply read32be_of_bytes _ _ _ hn
  · exact (c9_db_chain_byte (512 * j) (by omega)).trans
      (congrArg some (c9_chain_byte_value j 0 (by omega)))
  · exact (c9_db_chain_byte (512 * j + 1) (by omega)).trans
      (congrArg some (c9_chain_byte_value j 1 (by omega)))
  · exact (c9_db_chain_byte (512 * j + 2) (by omega)).trans
      (congrArg some (c9_chain_byte_value j 2 (by omega)))
  · exact (c9_db_chain_byte (512 * j + 3) (by omega)).trans
      (congrArg some ((c9_chain_byte_value j 3 (by omega)).trans (by norm_num)))

theorem c9_globals : UNDARK_init c9_db 512 10002 =
    extend (UNDARK_init c9_home 512 10002) (gen_bytes c9_chain_byte 5120000 0) := by
  rw [c9_db.eq_1]
  rfl

theorem c9_head_home : decode_head (UNDARK_init c9_home 512 10002) 520 empty_payload
    DECODE_MODE_NORMAL 0 = .ok (.inr (c9_head, 523, 524)) := by
  rfl

theorem c9_db_home_byte (a : Nat) (ha : a < 1024) : byte_at c9_db a = byte_at c9_home a := by
  rw [c9_db.eq_1]
  exact byte_at_append_left _ _ _ (by rw [c9_home_length]; exact ha)

theorem c9_first_page : read32be c9_db 1020 = .ok 3 := by
  apply read32be_of_bytes _ _ _ (by norm_num)
  · exact (c9_db_home_byte 1020 (by omega)).trans (by decide)
  · exact (c9_db_home_byte (1020 + 1) (by omega)).trans (by decide)
  · exact (c9_db_home_byte (1020 + 2) (by omega)).trans (by decide)
  · exact (c9_db_home_byte (1020 + 3) (by omega)).trans (by decide)

theorem c9_cells_home (X : Nat → Nat) (out : List String) :
    ∃ d, decode_cells (UNDARK_init c9_home 512 10002) 520 523 524
      { c9_head with overflow_pages := X } out DECODE_MODE_NORMAL = .ok d ∧
      d.ret = 1 ∧ d.payload.overflow_pages = X ∧ d.payload.length = 478 ∧ d.out = out :=
  ⟨_, rfl, rfl, rfl, rfl, rfl⟩



theorem c9_chain_step (i : Nat) (hi : i ≤ 9999) :
    0 < c9_chain (0 + i) ∧
    (page_address (UNDARK_init c9_db 512 10002) (c9_chain (0 + i)) : Int) ≤
      (UNDARK_init c9_db 512 10002).db_end - 4 ∧
    read32be (UNDARK_init c9_db 512 10002).db
      (page_address (UNDARK_init c9_db 512 10002) (c9_chain (0 + i))) = .ok (c9_chain (0 + i + 1)) := by
  have e1 : c9_chain (0 + i) = i + 3 := by unfold c9_chain; rw [if_pos (by omega)]; omega
  have e2 : c9_chain (0 + i + 1) = c9_next i := by
    unfold c9_chain c9_next
    by_cases h : i + 1 < 10000
    · rw [if_pos (by omega), if_pos h]; omega
    · rw [if_neg (by omega), if_neg h]
  have e3 : page_address (UNDARK_init c9_db 512 10002) (i + 3) = 1024 + 512 * i := by
    show ((i + 3 - 1) * 512) % 4294967296 = 1024 + 512 * i
    omega
  have e4 : (UNDARK_init c9_db 512 10002).db_end = 5121023 := by
    show ((c9_db.length : Nat) : Int) - 1 = 5121023
    rw [c9_db_length]
    norm_num
  rw [e1, e2, e3, e4]
  refine ⟨by omega, by omega, ?_⟩
  exact c9_db_next i (by omega)

theorem overflow_chain_cap (g : globals) (data_endpoint : Nat) (payload : sql_payload)
    (c : Nat → Nat) (h4 : ¬ data_endpoint < 4)
    (hfirst : read32be g.db (data_endpoint - 4) = .ok (c 0))
    (hpc : ¬ c 0 > g.page_count)
    (hc : ∀ i, i ≤ 9999 → 0 < c (0 + i) ∧ (page_address g (c (0 + i)) : Int) ≤ g.db_end - 4 ∧
        read32be g.db (page_address g (c (0 + i))) = .ok (c (0 + i + 1))) :
    ∃ X, overflow_chain g data_endpoint payload =
      .ok (false, { payload with overflow_pages := X },
           ["ERROR: No more space for overflow pages\n"]) ∧ X 0 = 0 := by
  obtain ⟨X, hX, hX0⟩ := overflow_loop_cap g c 9999
    OVERFLOW_PAGES_MAX 1 0 { payload with overflow_pages := upd payload.overflow_pages 0 (c 0) } []
    (by decide) (by decide) hc
  refine ⟨X, ?_, hX0⟩
  unfold overflow_chain
  rw [if_neg h4, hfirst]
  simp only
  rw [if_neg hpc, hX]
  rfl

theorem c9_overflow_chain : ∃ X,
    overflow_chain (UNDARK_init c9_db 512 10002) 1024 c9_head =
      .ok (false, { c9_head with overflow_pages := X },
           ["ERROR: No more space for overflow pages\n"]) ∧ X 0 = 0 := by
  apply overflow_chain_cap (UNDARK_init c9_db 512 10002) 1024 c9_head c9_chain (by omega)
  · have e0 : ∀ db : List Nat, (UNDARK_init db 512 10002).db = db := fun _ => rfl
    have e1 : 1024 - 4 = 1020 := by norm_num
    have e3 : c9_chain 0 = 3 := by decide
    rw [e0, e1, e3]
    exact c9_first_page
  · have e2 : ∀ db : List Nat, (UNDARK_init db 512 10002).page_count = 10002 := fun _ => rfl
    have e3 : c9_chain 0 = 3 := by decide
    rw [e2, e3]
    omega
  · exact c9_chain_step



theorem decode_row_extend_cap (gh : globals) (tail : List Nat) (p data_endpoint : Nat)
    (payload : sql_payload) (mode : Int) (forced_length : Nat) (payload1 : sql_payload)
    (plh_start p1 : Nat) (X : Nat → Nat) (out : List String) (d : decoded)
    (h1 : decode_head gh p payload mode forced_length = .ok (.inr (payload1, plh_start, p1)))
    (h2 : payload1.length > sub32 gh.page_size 35)
    (h3 : overflow_chain (extend gh tail) data_endpoint payload1 =
      .ok (false, { payload1 with overflow_pages := X }, out))
    (h4 : decode_cells gh p plh_start p1 { payload1 with overflow_pages := X } out mode = .ok d) :
    decode_row (extend gh tail) p data_endpoint payload mode forced_length = .ok d := by
  rw [decode_row_stages (extend gh tail) p data_endpoint payload mode forced_length payload1
    plh_start p1 false _ out (decode_head_extend gh tail _ _ _ _ _ h1) h2 h3]
  exact decode_cells_extend gh tail _ _ _ _ _ _ _ h4

theorem c9_decode_row : ∃ d,
    decode_row (UNDARK_init c9_db 512 10002) 520 1024 empty_payload DECODE_MODE_NORMAL 0 = .ok d ∧
    d.ret = 1 ∧ d.payload.overflow_pages 0 = 0 ∧ d.payload.length = 478 ∧
    d.out = ["ERROR: No more space for overflow pages\n"] := by
  obtain ⟨X, hX, hX0⟩ := c9_overflow_chain
  rw [c9_globals] at hX
  obtain ⟨d, hd, d1, d2, d3, d4⟩ := c9_cells_home X ["ERROR: No more space for overflow pages\n"]
  refine ⟨d, ?_, d1, by rw [d2]; exact hX0, d3, d4⟩
  rw [c9_globals]
  exact decode_row_extend_cap _ _ _ _ _ _ _ _ _ _ X _ d c9_head_home (by decide) hX hd

theorem dump_map_no_chain (g : globals) (base data_endpoint : Nat) (payload : sql_payload)
    (h0 : payload.overflow_pages 0 = 0) (hl : ¬ payload.length > g.db_size) :
    (view_of (dump_map g base data_endpoint payload)).map (fun m => m.endpoint) =
      some ((data_endpoint : Int) - base) := by
  unfold dump_map
  rw [if_neg hl, if_pos h0]
  rfl

/-! ## Lemmas: the iteration budgets suffice -/

theorem varint_loop_no_fuel (l : List Nat) : ∀ (shift : Nat) (len : Int) (v : Nat),
    varint_loop l shift len v ≠ .fault .fuel := by
  induction l with
  | nil =>
    intro shift len v
    simp only [varint_loop]
    split <;> simp
  | cons b rest ih =>
    intro shift len v
    simp only [varint_loop]
    split
    · simp
    · split
      · simp
      · exact ih _ _ _

theorem varint_decode_no_fuel (db : List Nat) (p : Nat) : varint_decode db p ≠ .fault .fuel := by
  unfold varint_decode
  split
  · simp
  · rename_i f hf
    intro h
    simp only [Res.fault.injEq] at h
    subst h
    exact varint_loop_no_fuel _ _ _ _ hf

theorem read32be_no_fuel (db : List Nat) (a : Nat) : read32be db a ≠ .fault .fuel := by
  unfold read32be
  split <;> simp

theorem cell_loop_no_fuel (g : globals) (base plh_ep : Nat) :
    ∀ (fuel p t : Nat) (offset : Int) (payload : sql_payload), 1 ≤ fuel → plh_ep < p + fuel →
      cell_loop g base plh_ep fuel p t offset payload ≠ .fault .fuel := by
  intro fuel
  induction fuel with
  | zero => intro p t offset payload h; omega
  | succ fuel ih =>
    intro p t offset payload _ h2
    simp only [cell_loop]
    split
    · rename_i f hf
      intro h
      simp only [Res.fault.injEq] at h
      subst h
      exact varint_decode_no_fuel _ _ hf
    · rename_i s vil p1 hv
      have hl := varint_decode_length hv
      split
      · simp
      split
      · simp
      split
      · simp
      split
      · simp
      split
      · simp
      split
      · simp
      split
      · simp
      · rename_i hp _
        exact ih _ _ _ _ (by omega) (by omega)

theorem overflow_loop_no_fuel (g : globals) :
    ∀ (fuel ovp ovpi : Nat) (payload : sql_payload) (out : List String), 1 ≤ fuel →
      OVERFLOW_PAGES_MAX < ovpi + fuel →
      overflow_loop g fuel ovp ovpi payload out ≠ .fault .fuel := by
  intro fuel
  induction fuel with
  | zero => intro ovp ovpi payload out h; omega
  | succ fuel ih =>
    intro ovp ovpi payload out _ h2
    simp only [overflow_loop]
    split
    · split
      · simp
      split
      · simp
      split
      · rename_i f hf
        intro h
        simp only [Res.fault.injEq] at h
        subst h
        exact read32be_no_fuel _ _ hf
      · split
        · simp
        split
        · simp
        · exact ih _ _ _ _ (by omega) (by omega)
    · simp

theorem decode_head_cursor (g : globals) (p : Nat) (payload : sql_payload) (mode : Int)
    (forced_length : Nat) (payload1 : sql_payload) (plh_start p1 : Nat)
    (h : decode_head g p payload mode forced_length = .ok (.inr (payload1, plh_start, p1))) :
    plh_start < p1 := by
  unfold decode_head at h
  simp only at h
  split at h
  · simp at h
  split at h
  · simp at h
  split at h
  · simp at h
  split at h
  · simp at h
  split at h
  · simp at h
  split at h
  · simp at h
  split at h
  · simp at h
  rename_i hs vil p3 hv
  have hl := varint_decode_length hv
  split at h
  · simp at h
  split at h <;>
  · simp only [Res.ok.injEq, Sum.inr.injEq, Prod.mk.injEq] at h
    obtain ⟨-, h2, h3⟩ := h
    omega

theorem decode_head_no_fuel (g : globals) (p : Nat) (payload : sql_payload) (mode : Int)
    (forced_length : Nat) : decode_head g p payload mode forced_length ≠ .fault .fuel := by
  unfold decode_head
  simp only
  split
  · rename_i f hf
    split at hf
    · simp at hf
    · intro h
      simp only [Res.fault.injEq] at h
      subst h
      exact varint_decode_no_fuel _ _ hf
  split
  · simp
  split
  · simp
  split
  · simp
  split
  · rename_i f hf
    split at hf
    · simp at hf
    · intro h
      simp only [Res.fault.injEq] at h
      subst h
      exact varint_decode_no_fuel _ _ hf
  split
  · simp
  split
  · rename_i f hf
    intro h
    simp only [Res.fault.injEq] at h
    subst h
    exact varint_decode_no_fuel _ _ hf
  split
  · simp
  split <;> simp

theorem overflow_chain_no_fuel (g : globals) (data_endpoint : Nat) (payload : sql_payload) :
    overflow_chain g data_endpoint payload ≠ .fault .fuel := by
  unfold overflow_chain
  split
  · simp
  split
  · rename_i f hf
    intro h
    simp only [Res.fault.injEq] at h
    subst h
    exact read32be_no_fuel _ _ hf
  simp only
  split
  · simp
  split
  · rename_i f hf
    intro h
    simp only [Res.fault.injEq] at h
    subst h
    exact overflow_loop_no_fuel _ _ _ _ _ _ (by decide) (by omega) hf
  · simp

theorem decode_cells_no_fuel (g : globals) (base plh_start p : Nat) (payload : sql_payload)
    (out : List String) (mode : Int) (hp : plh_start < p) :
    decode_cells g base plh_start p payload out mode ≠ .fault .fuel := by
  unfold decode_cells
  split
  · simp
  split
  · simp
  simp only
  split
  · rename_i f hf
    intro h
    simp only [Res.fault.injEq] at h
    subst h
    exact cell_loop_no_fuel _ _ _ _ _ _ _ _ (by omega) (by omega) hf
  · simp
  · split
    · simp
    split
    · simp
    split <;> simp

/-- The iteration budgets of the embedding of `decode_row` are never used up: no run
ends in `Fault.fuel`. -/
theorem decode_row_no_fuel (g : globals) (p data_endpoint : Nat) (payload : sql_payload)
    (mode : Int) (forced_length : Nat) :
    decode_row g p data_endpoint payload mode forced_length ≠ .fault .fuel := by
  unfold decode_row
  split
  · rename_i f hf
    intro h
    simp only [Res.fault.injEq] at h
    subst h
    exact decode_head_no_fuel _ _ _ _ _ hf
  · simp
  · rename_i payload1 plh_start p1 hh
    have hc := decode_head_cursor _ _ _ _ _ _ _ _ hh
    split
    · rename_i f hf
      split at hf
      · intro h
        simp only [Res.fault.injEq] at h
        subst h
        exact overflow_chain_no_fuel _ _ _ hf
      · simp at hf
    · split
      · simp
      · exact decode_cells_no_fuel _ _ _ _ _ _ _ hc

theorem dump_size_loop_no_fuel (g : globals) (payload : sql_payload) :
    ∀ (fuel ovpi : Nat) (msize : Int), 1 ≤ fuel → OVERFLOW_PAGES_MAX + 1 < ovpi + fuel →
      dump_size_loop g payload fuel ovpi msize ≠ .fault .fuel := by
  intro fuel
  induction fuel with
  | zero => intro ovpi msize h; omega
  | succ fuel ih =>
    intro ovpi msize _ h2
    simp only [dump_size_loop]
    split
    · simp
    split
    · split
      · simp
      · exact ih _ _ (by omega) (by omega)
    · simp

theorem read_bytes_no_fuel (db : List Nat) (a n : Nat) : read_bytes db a n ≠ .fault .fuel := by
  unfold read_bytes
  split <;> simp

theorem buf_write_no_fuel (buf : List (Option Nat)) (pos : Int) (bs : List Nat) :
    buf_write buf pos bs ≠ .fault .fuel := by
  unfold buf_write
  split <;> simp

theorem dump_copy_loop_no_fuel (g : globals) (payload : sql_payload) :
    ∀ (fuel ovpi : Nat) (buf : List (Option Nat)) (endpoint : Int), 1 ≤ fuel →
      OVERFLOW_PAGES_MAX + 1 < ovpi + fuel →
      dump_copy_loop g payload fuel ovpi buf endpoint ≠ .fault .fuel := by
  intro fuel
  induction fuel with
  | zero => intro ovpi buf endpoint h; omega
  | succ fuel ih =>
    intro ovpi buf endpoint _ h2
    simp only [dump_copy_loop]
    split
    · simp
    split
    · split
      · simp
      split
      · rename_i f hf
        intro h
        simp only [Res.fault.injEq] at h
        subst h
        exact read_bytes_no_fuel _ _ _ hf
      split
      · rename_i f hf
        intro h
        simp only [Res.fault.injEq] at h
        subst h
        exact buf_write_no_fuel _ _ _ hf
      · exact ih _ _ _ (by omega) (by omega)
    · simp

theorem dump_map_no_fuel (g : globals) (base data_endpoint : Nat) (payload : sql_payload) :
    dump_map g base data_endpoint payload ≠ .fault .fuel := by
  unfold dump_map
  split
  · simp
  split
  · simp
  split
  · rename_i f hf
    intro h
    simp only [Res.fault.injEq] at h
    subst h
    exact dump_size_loop_no_fuel _ _ _ _ _ (by omega) (by omega) hf
  · simp
  · simp only
    split
    · simp
    split
    · simp
    split
    · simp
    split
    · rename_i f hf
      intro h
      simp only [Res.fault.injEq] at h
      subst h
      exact read_bytes_no_fuel _ _ _ hf
    split
    · rename_i f hf
      intro h
      simp only [Res.fault.injEq] at h
      subst h
      exact buf_write_no_fuel _ _ _ hf
    split
    · rename_i f hf
      intro h
      simp only [Res.fault.injEq] at h
      subst h
      exact dump_copy_loop_no_fuel _ _ _ _ _ _ (by omega) (by omega) hf
    · simp
    · simp

theorem view_bytes_no_fuel (m : mapped) (o : Int) (n : Nat) : view_bytes m o n ≠ .fault .fuel := by
  unfold view_bytes
  simp only
  split
  · simp
  split
  · split <;> simp
  · simp

theorem with_view_no_fuel (m : mapped) (o : Int) (n : Nat) (k : List Nat → dump_state) :
    with_view m o n k ≠ .fault .fuel := by
  unfold with_view
  split
  · rename_i f hf
    intro hh
    simp only [Res.fault.injEq] at hh
    subst hh
    exact view_bytes_no_fuel _ _ _ hf
  · simp

theorem ite_no_fuel {α : Type} {c : Prop} [Decidable c] {a b : Res α}
    (ha : a ≠ .fault .fuel) (hb : b ≠ .fault .fuel) :
    (if c then a else b) ≠ .fault .fuel := by
  split <;> assumption

theorem ok_no_fuel {α : Type} (x : α) : Res.ok x ≠ .fault .fuel :=
  fun hh => Res.noConfusion hh

theorem dump_cell_no_fuel (g : globals) (h : host) (m : mapped) (t : Nat) (c : cell)
    (st : dump_state) : dump_cell g h m t c st ≠ .fault .fuel := by
  unfold dump_cell
  repeat' first
    | exact with_view_no_fuel _ _ _ _
    | exact ok_no_fuel _
    | apply ite_no_fuel

theorem dump_cells_no_fuel (g : globals) (h : host) (m : mapped) (payload : sql_payload) :
    ∀ (ts : List Nat) (st : dump_state), dump_cells g h m payload ts st ≠ .fault .fuel := by
  intro ts
  induction ts with
  | nil => intro st; simp [dump_cells]
  | cons t rest ih =>
    intro st
    simp only [dump_cells]
    split
    · simp
    split
    · rename_i f hf
      intro hh
      simp only [Res.fault.injEq] at hh
      subst hh
      exact dump_cell_no_fuel _ _ _ _ _ _ hf
    · simp
    · exact ih _

/-- The iteration budgets of the embedding of `dump_row` are never used up: no run
ends in `Fault.fuel`. -/
theorem dump_row_no_fuel (g : globals) (h : host) (base data_endpoint : Nat)
    (payload : sql_payload) (mode : Int) :
    dump_row g h base data_endpoint payload mode ≠ .fault .fuel := by
  unfold dump_row
  split
  · rename_i f hf
    intro hh
    simp only [Res.fault.injEq] at hh
    subst hh
    exact dump_map_no_fuel _ _ _ _ hf
  · simp
  · simp only
    split
    · rename_i f hf
      intro hh
      simp only [Res.fault.injEq] at hh
      subst hh
      exact dump_cells_no_fuel _ _ _ _ _ _ hf
    · simp
    · simp

/-! ## Lemmas: the serial type table -/

theorem serial_switch_small (n : Nat) (h : n ≤ 9) :
    serial_switch n = ((n : Int), [0, 1, 2, 3, 4, 6, 8, 8, 0, 0].getD n 0) := by
  interval_cases n <;> rfl

theorem serial_switch_large (n : Nat) (h : 12 ≤ n) :
    serial_switch n =
      if n &&& 0x01 = 0 then (12, (n - 12) / 2)
      else if n ≥ 13 ∧ n &&& 0x01 = 1 then (13, (n - 13) / 2)
      else (to_int32 n, n) := by
  unfold serial_switch
  have small : ∀ k, k ≤ 9 → ¬ n = k := fun k hk => by omega
  simp only [small 0 (by omega), small 1 (by omega), small 2 (by omega), small 3 (by omega),
    small 4 (by omega), small 5 (by omega), small 6 (by omega), small 7 (by omega),
    small 8 (by omega), small 9 (by omega), or_self, if_false, h, ge_iff_le, true_and]

theorem serial_switch_blob (n : Nat) (h : 12 ≤ n) (he : n % 2 = 0) :
    serial_switch n = (12, (n - 12) / 2) := by
  have h1 : n &&& 0x01 = 0 := by rw [Nat.and_one_is_mod]; exact he
  rw [serial_switch_large n h, if_pos h1]

theorem serial_switch_text (n : Nat) (h : 13 ≤ n) (ho : n % 2 = 1) :
    serial_switch n = (13, (n - 13) / 2) := by
  have h1 : n &&& 0x01 = 1 := by rw [Nat.and_one_is_mod]; exact ho
  have h2 : ¬ n &&& 0x01 = 0 := by rw [h1]; decide
  rw [serial_switch_large n (by omega), if_neg h2, if_pos ⟨h, h1⟩]

theorem to_int32_small (n : Nat) (h : n < 2147483648) : to_int32 (n : Int) = n := by
  unfold to_int32
  omega

/-! ## Lemmas: the text written by `dump_row` -/

theorem with_view_out (s0 : String) (m : mapped) (o : Int) (n : Nat)
    (k : List Nat → dump_state) (hk : ∀ bs, ∃ s, (k bs).out = s0 ++ s) :
    out_grows s0 (with_view m o n k) := by
  intro b st hh
  unfold with_view at hh
  split at hh
  · simp at hh
  · simp only [Res.ok.injEq, Prod.mk.injEq] at hh
    obtain ⟨-, h2⟩ := hh
    subst h2
    exact hk _

theorem ite_out {c : Prop} [Decidable c] {s0 : String} {a b : Res (Bool × dump_state)}
    (ha : out_grows s0 a) (hb : out_grows s0 b) : out_grows s0 (if c then a else b) := by
  split <;> assumption

theorem ok_out (s0 : String) (b : Bool) (st : dump_state) (hs : ∃ s, st.out = s0 ++ s) :
    out_grows s0 (.ok (b, st)) := by
  intro b2 st2 hh
  simp only [Res.ok.injEq, Prod.mk.injEq] at hh
  obtain ⟨-, h2⟩ := hh
  subst h2
  exact hs

theorem dump_cell_out (g : globals) (h : host) (m : mapped) (t : Nat) (c : cell)
    (st : dump_state) : out_grows st.out (dump_cell g h m t c st) := by
  unfold dump_cell
  repeat' first
    | exact with_view_out _ _ _ _ _ (fun _ => ⟨_, rfl⟩)
    | exact with_view_out _ _ _ _ _ (fun _ => ⟨"", (String.append_empty _).symm⟩)
    | exact ok_out _ _ _ ⟨_, rfl⟩
    | exact ok_out _ _ _ ⟨"", (String.append_empty _).symm⟩
    | apply ite_out

theorem dump_cells_out (g : globals) (h : host) (m : mapped) (payload : sql_payload) :
    ∀ (ts : List Nat) (st : dump_state) (b : Bool) (st2 : dump_state),
      dump_cells g h m payload ts st = .ok (b, st2) →
      (∃ s, st2.out = st.out ++ s) ∧ (ts ≠ [] → ∃ s, st2.out = st.out ++ "," ++ s) := by
  intro ts
  induction ts with
  | nil =>
    intro st b st2 hh
    simp only [dump_cells, Res.ok.injEq, Prod.mk.injEq] at hh
    obtain ⟨-, h2⟩ := hh
    subst h2
    exact ⟨⟨"", (String.append_empty _).symm⟩, fun hne => absurd rfl hne⟩
  | cons t rest ih =>
    intro st b st2 hh
    simp only [dump_cells] at hh
    have key : ∃ s, st2.out = st.out ++ "," ++ s := by
      split at hh
      · simp at hh
      split at hh
      · simp at hh
      · rename_i st1 hc
        simp only [Res.ok.injEq, Prod.mk.injEq] at hh
        obtain ⟨-, h2⟩ := hh
        subst h2
        exact dump_cell_out _ _ _ _ _ _ _ _ hc
      · rename_i st1 hc
        obtain ⟨s1, hs1⟩ := dump_cell_out _ _ _ _ _ _ _ _ hc
        obtain ⟨⟨s2, hs2⟩, -⟩ := ih _ _ _ hh
        refine ⟨s1 ++ s2, ?_⟩
        rw [hs2, hs1]
        simp only [String.append_assoc]
    refine ⟨?_, fun _ => key⟩
    obtain ⟨s, hs⟩ := key
    exact ⟨"," ++ s, by rw [hs, String.append_assoc]⟩

theorem dump_row_freespace_out (g : globals) (h : host) (base data_endpoint : Nat)
    (payload : sql_payload) (r : dumped)
    (hd : dump_row g h base data_endpoint payload DECODE_MODE_FREESPACE = .ok r)
    (h0 : payload.overflow_pages 0 = 0) (hr : r.ret = 0) (hcc : 0 ≤ payload.cell_count) :
    ∃ s, r.out = "-1," ++ s := by
  unfold dump_row dump_map at hd
  by_cases hl : payload.length > g.db_size
  · rw [if_pos hl] at hd
    simp only [Res.ok.injEq] at hd
    subst hd
    simp at hr
  · rw [if_neg hl, if_pos h0] at hd
    simp only [if_true] at hd
    obtain ⟨n, hn⟩ : ∃ n, (payload.cell_count + 1).toNat = n + 1 :=
      ⟨payload.cell_count.toNat, by omega⟩
    have hne : List.range (payload.cell_count + 1).toNat ≠ [] := by
      rw [hn, List.range_succ]
      simp
    split at hd
    · simp at hd
    · rename_i st hc
      simp only [Res.ok.injEq] at hd
      subst hd
      obtain ⟨s, hs⟩ := (dump_cells_out _ _ _ _ _ _ _ _ hc).2 hne
      refine ⟨s, ?_⟩
      simp only [hs]
      rfl
    · rename_i st hc
      simp only [Res.ok.injEq] at hd
      subst hd
      obtain ⟨s, hs⟩ := (dump_cells_out _ _ _ _ _ _ _ _ hc).2 hne
      refine ⟨s ++ "\n", ?_⟩
      simp only [hs, String.append_assoc]
      rfl

/-! ## Lemmas: what an accepted record looks like, in either mode -/

theorem decode_head_result (g : globals) (p : Nat) (payload : sql_payload) (mode : Int)
    (forced_length : Nat) :
    (∀ d, decode_head g p payload mode forced_length = .ok (.inl d) → d.ret = 0) ∧
    (∀ payload2 plh_start p1,
      decode_head g p payload mode forced_length = .ok (.inr (payload2, plh_start, p1)) →
      payload2.cell_count = 0) := by
  constructor
  · intro d h
    unfold decode_head at h
    by_cases hm : mode = DECODE_MODE_FREESPACE
    · simp only [hm, if_true] at h
      repeat' first
        | (simp at h; done)
        | (simp only [Res.ok.injEq, Sum.inl.injEq] at h; subst h; rfl)
        | split at h
    · simp only [hm, if_false] at h
      repeat' first
        | (simp at h; done)
        | (simp only [Res.ok.injEq, Sum.inl.injEq] at h; subst h; rfl)
        | split at h
  · intro payload2 plh_start p1 h
    unfold decode_head at h
    by_cases hm : mode = DECODE_MODE_FREESPACE
    · simp only [hm, if_true] at h
      repeat' first
        | (simp at h; done)
        | (simp only [Res.ok.injEq, Sum.inr.injEq, Prod.mk.injEq] at h
           obtain ⟨h1, -, -⟩ := h
           subst h1
           rfl)
        | split at h
    · simp only [hm, if_false] at h
      repeat' first
        | (simp at h; done)
        | (simp only [Res.ok.injEq, Sum.inr.injEq, Prod.mk.injEq] at h
           obtain ⟨h1, -, -⟩ := h
           subst h1
           rfl)
        | split at h

theorem decode_cells_cell_count (g : globals) (base plh_start p : Nat) (payload : sql_payload)
    (out : List String) (mode : Int) (d : decoded)
    (h : decode_cells g base plh_start p payload out mode = .ok d) (hret : d.ret ≠ 0)
    (hcc : payload.cell_count = 0) : 0 ≤ d.payload.cell_count := by
  unfold decode_cells at h
  split at h
  · simp at h; subst h; simp at hret
  split at h
  · simp at h; subst h; simp at hret
  dsimp only at h
  split at h
  · simp at h
  · simp at h; subst h; simp at hret
  · rename_i p2 t2 offset2 payload2 hl
    have inv := cell_loop_invariant _ _ _ _ _ _ _ _ _ _ _ _ hl (by simp [hcc]) (by simp [sum_sizes])
    have hc2 : payload2.cell_count = t2 := inv.1
    split at h
    · simp at h; subst h; simp at hret
    split at h
    · simp only [Res.ok.injEq] at h
      subst h
      simp only [hc2]
      omega
    split at h
    · simp only [Res.ok.injEq] at h
      subst h
      simp only [hc2]
      omega
    · simp at h; subst h; simp at hret

theorem decode_row_cell_count (g : globals) (p data_endpoint : Nat) (payload : sql_payload)
    (mode : Int) (forced_length : Nat) (d : decoded)
    (h : decode_row g p data_endpoint payload mode forced_length = .ok d) (hret : d.ret ≠ 0) :
    0 ≤ d.payload.cell_count := by
  unfold decode_row at h
  split at h
  · simp at h
  · rename_i d2 hh
    simp only [Res.ok.injEq] at h
    subst h
    exact absurd ((decode_head_result _ _ _ _ _).1 _ hh) hret
  · rename_i payload1 plh_start p1 hh
    have hc1 : payload1.cell_count = 0 := (decode_head_result _ _ _ _ _).2 _ _ _ hh
    split at h
    · simp at h
    · rename_i rejected payload2 out hov
      have hc2 : payload2.cell_count = 0 := by
        split at hov
        · rw [(overflow_chain_fields _ _ _ _ _ _ hov).2.2.2.2.1]
          exact hc1
        · simp only [Res.ok.injEq, Prod.mk.injEq] at hov
          obtain ⟨-, h2, -⟩ := hov
          subst h2
          exact hc1
      split at h
      · simp at h; subst h; simp at hret
      · exact decode_cells_cell_count _ _ _ _ _ _ _ _ h hret hc2

/-! ## Lemmas: the text written by `find_next_row` -/

theorem c12_chain_step :
    0 < 3 ∧ (page_address (UNDARK_init c12_db 512 3) 3 : Int) ≤
        (UNDARK_init c12_db 512 3).db_end - 4 ∧
      read32be (UNDARK_init c12_db 512 3).db (page_address (UNDARK_init c12_db 512 3) 3) =
        .ok 3 := by
  decide

theorem c12_cells (X : Nat → Nat) (out : List String) :
    ∃ d, decode_cells (UNDARK_init c12_db 512 3) 520 523 524
      { c9_head with overflow_pages := X } out DECODE_MODE_NORMAL = .ok d ∧
      d.ret = 1 ∧ d.out = out :=
  ⟨_, rfl, rfl, rfl⟩

theorem c12_head : decode_head (UNDARK_init c12_db 512 3) 520 empty_payload
    DECODE_MODE_NORMAL 0 = .ok (.inr (c9_head, 523, 524)) := by
  rfl

theorem decode_row_at_cap (g : globals) (p data_endpoint : Nat) (payload : sql_payload)
    (mode : Int) (forced_length : Nat) (payload1 : sql_payload) (plh_start p1 : Nat)
    (X : Nat → Nat) (out : List String) (d : decoded)
    (h1 : decode_head g p payload mode forced_length = .ok (.inr (payload1, plh_start, p1)))
    (h2 : payload1.length > sub32 g.page_size 35)
    (h3 : overflow_chain g data_endpoint payload1 =
      .ok (false, { payload1 with overflow_pages := X }, out))
    (h4 : decode_cells g p plh_start p1 { payload1 with overflow_pages := X } out mode = .ok d) :
    decode_row g p data_endpoint payload mode forced_length = .ok d := by
  rw [decode_row_stages g p data_endpoint payload mode forced_length payload1 plh_start p1
    false _ out h1 h2 h3]
  exact h4

/-! ## Lemmas: the first link of an overflow chain -/

theorem overflow_loop_first (g : globals) :
    ∀ (fuel ovp ovpi : Nat) (payload : sql_payload) (out : List String) (payload2 : sql_payload)
      (out2 : List String),
      overflow_loop g fuel ovp ovpi payload out = .ok (payload2, out2) → 1 ≤ ovpi →
      payload2.overflow_pages 0 = payload.overflow_pages 0 ∨ payload2.overflow_pages 0 = 0 := by
  intro fuel
  induction fuel with
  | zero => intro ovp ovpi payload out payload2 out2 h; simp [overflow_loop] at h
  | succ fuel ih =>
    intro ovp ovpi payload out payload2 out2 h hi
    simp only [overflow_loop] at h
    split at h
    · split at h
      · simp only [Res.ok.injEq, Prod.mk.injEq] at h
        obtain ⟨h1, -⟩ := h
        subst h1
        exact Or.inl rfl
      split at h
      · simp only [Res.ok.injEq, Prod.mk.injEq] at h
        obtain ⟨h1, -⟩ := h
        subst h1
        exact Or.inl rfl
      split at h
      · simp at h
      split at h
      · simp at h
      split at h
      · simp only [Res.ok.injEq, Prod.mk.injEq] at h
        obtain ⟨h1, -⟩ := h
        subst h1
        right
        simp [upd]
      · have := ih _ _ _ _ _ _ h (by omega)
        have e1 : ¬ (0 = ovpi + 1) := by omega
        have e2 : ¬ (0 = ovpi) := by omega
        simpa [upd, e1, e2] using this
    · simp only [Res.ok.injEq, Prod.mk.injEq] at h
      obtain ⟨h1, -⟩ := h
      subst h1
      exact Or.inl rfl

theorem overflow_chain_first (g : globals) (data_endpoint : Nat) (payload payload2 : sql_payload)
    (out2 : List String)
    (h : overflow_chain g data_endpoint payload = .ok (false, payload2, out2)) :
    payload2.overflow_pages 0 ≤ g.page_count := by
  unfold overflow_chain at h
  split at h
  · simp at h
  split at h
  · simp at h
  rename_i tmp htmp
  simp only at h
  split at h
  · simp at h
  rename_i hpc
  split at h
  · simp at h
  rename_i payload3 out3 hloop
  simp only [Res.ok.injEq, Prod.mk.injEq, true_and] at h
  obtain ⟨h1, -⟩ := h
  subst h1
  rcases overflow_loop_first g _ _ _ _ _ _ _ hloop (le_refl 1) with h0 | h0
  · rw [h0]
    simp only [upd, if_true]
    omega
  · rw [h0]
    omega

theorem decode_head_first (g : globals) (p : Nat) (payload : sql_payload) (mode : Int)
    (forced_length : Nat) (payload2 : sql_payload) (plh_start p1 : Nat)
    (h : decode_head g p payload mode forced_length = .ok (.inr (payload2, plh_start, p1))) :
    payload2.overflow_pages 0 = 0 := by
  unfold decode_head at h
  by_cases hm : mode = DECODE_MODE_FREESPACE
  · simp only [hm, if_true] at h
    repeat' first
      | (simp at h; done)
      | (simp only [Res.ok.injEq, Sum.inr.injEq, Prod.mk.injEq] at h
         obtain ⟨h1, -, -⟩ := h
         subst h1
         rfl)
      | split at h
  · simp only [hm, if_false] at h
    repeat' first
      | (simp at h; done)
      | (simp only [Res.ok.injEq, Sum.inr.injEq, Prod.mk.injEq] at h
         obtain ⟨h1, -, -⟩ := h
         subst h1
         rfl)
      | split at h

theorem decode_cells_pages (g : globals) (base plh_start p : Nat) (payload : sql_payload)
    (out : List String) (mode : Int) (d : decoded)
    (h : decode_cells g base plh_start p payload out mode = .ok d) (hret : d.ret ≠ 0)
    (hcc : payload.cell_count = 0) : d.payload.overflow_pages = payload.overflow_pages := by
  unfold decode_cells at h
  split at h
  · simp at h; subst h; simp at hret
  split at h
  · simp at h; subst h; simp at hret
  dsimp only at h
  split at h
  · simp at h
  · simp at h; subst h; simp at hret
  · rename_i p2 t2 offset2 payload2 hl
    have inv := cell_loop_invariant _ _ _ _ _ _ _ _ _ _ _ _ hl (by simp [hcc]) (by simp [sum_sizes])
    have hp : payload2.overflow_pages = payload.overflow_pages := inv.2.2.2.2.2.2.2.2.2.1
    split at h
    · simp at h; subst h; simp at hret
    split at h
    · simp only [Res.ok.injEq] at h
      subst h
      exact hp
    split at h
    · simp only [Res.ok.injEq] at h
      subst h
      exact hp
    · simp at h; subst h; simp at hret

theorem decode_row_first_link (g : globals) (p data_endpoint : Nat) (payload : sql_payload)
    (mode : Int) (forced_length : Nat) (d : decoded)
    (h : decode_row g p data_endpoint payload mode forced_length = .ok d) (hret : d.ret ≠ 0) :
    d.payload.overflow_pages 0 ≤ g.page_count := by
  unfold decode_row at h
  split at h
  · simp at h
  · rename_i d2 hh
    simp only [Res.ok.injEq] at h
    subst h
    exact absurd ((decode_head_result _ _ _ _ _).1 _ hh) hret
  · rename_i payload1 plh_start p1 hh
    have hc1 : payload1.cell_count = 0 := (decode_head_result _ _ _ _ _).2 _ _ _ hh
    have hp1 : payload1.overflow_pages 0 = 0 := decode_head_first _ _ _ _ _ _ _ _ hh
    split at h
    · simp at h
    · rename_i rejected payload2 out hov
      split at h
      · simp at h; subst h; simp at hret
      · rename_i hrej
        have hrej2 : rejected = false := by simpa using hrej
        subst hrej2
        have hc2 : payload2.cell_count = 0 ∧ payload2.overflow_pages 0 ≤ g.page_count := by
          split at hov
          · exact ⟨by rw [(overflow_chain_fields _ _ _ _ _ _ hov).2.2.2.2.1]; exact hc1,
              overflow_chain_first _ _ _ _ _ hov⟩
          · simp only [Res.ok.injEq, Prod.mk.injEq] at hov
            obtain ⟨-, h2, -⟩ := hov
            subst h2
            exact ⟨hc1, by rw [hp1]; omega⟩
        rw [decode_cells_pages _ _ _ _ _ _ _ _ h hret hc2.1]
        exact hc2.2

/-! ## Lemmas: the page size bytes -/

theorem int_or_small (b16 b17 : Nat) (h16 : b16 < 128) (h17 : b17 < 128) :
    (int_or (char_value b17) (char_value b16 * 256) % 4294967296).toNat = b16 * 256 + b17 := by
  have e1 : char_value b17 = (b17 : Int) := by
    unfold char_value
    rw [if_neg (by omega)]
    omega
  have e2 : char_value b16 = (b16 : Int) := by
    unfold char_value
    rw [if_neg (by omega)]
    omega
  have e3 : (((b17 : Int) % 4294967296).toNat) = b17 := by omega
  have e4 : (((b16 : Int) * 256 % 4294967296).toNat) = 2 ^ 8 * b16 := by omega
  have e5 : 2 ^ 8 * b16 ||| b17 = 2 ^ 8 * b16 + b17 :=
    (Nat.mul_add_lt_is_or (by omega : b17 < 2 ^ 8) b16).symm
  unfold int_or to_int32
  rw [e1, e2, e3, e4, Nat.lor_comm, e5]
  omega

theorem byte_at_inside (db : List Nat) (a : Nat) (h : a < db.length) :
    ∃ b, byte_at db a = some b := by
  unfold byte_at
  rw [List.getElem?_eq_getElem h]
  exact ⟨_, rfl⟩

theorem read32be_inside (db : List Nat) (a : Nat) (h : a + 4 ≤ db.length) :
    ∃ v, read32be db a = .ok v := by
  obtain ⟨b0, h0⟩ := byte_at_inside db a (by omega)
  obtain ⟨b1, h1⟩ := byte_at_inside db (a + 1) (by omega)
  obtain ⟨b2, h2⟩ := byte_at_inside db (a + 2) (by omega)
  obtain ⟨b3, h3⟩ := byte_at_inside db (a + 3) (by omega)
  unfold read32be
  rw [h0, h1, h2, h3]
  exact ⟨_, rfl⟩

/-! ## Lemmas: the cursors `find_next_row` attempts -/

theorem find_next_row_dump_attempts (g : globals) (h : host) (end_point : Nat) (mode : Int)
    (p : Nat) (sql : sql_payload) (st : scan_state) :
    (find_next_row_dump g h end_point mode p sql st).attempts = st.attempts := by
  unfold find_next_row_dump
  split
  · rfl
  · split <;> rfl

theorem find_next_row_body_attempts (g : globals) (h : host) (end_point : Nat) (mode : Int)
    (p forced_length : Nat) (sql : sql_payload) (st : scan_state) :
    (find_next_row_body g h end_point mode p forced_length sql st).1.attempts =
      st.attempts ++ [p] := by
  unfold find_next_row_body
  dsimp only
  split
  · rfl
  · rename_i d hd
    have hdump := find_next_row_dump_attempts g h end_point mode p d.payload
      { out := st.out ++ String.join d.out, calls := st.calls, attempts := st.attempts ++ [p],
        dumps := st.dumps, files := st.files, blob_count := st.blob_count, fault := st.fault }
    repeat' split
    all_goals first
      | rfl
      | exact hdump

theorem find_next_row_loop_attempts (g : globals) (h : host) (end_point : Nat) (mode : Int) :
    ∀ (fuel p forced_length : Nat) (sql : sql_payload) (st : scan_state),
      ∃ rest, (find_next_row_loop g h end_point mode fuel p forced_length sql st).attempts =
        st.attempts ++ rest := by
  intro fuel
  induction fuel with
  | zero =>
    intro p forced_length sql st
    exact ⟨[], (List.append_nil _).symm⟩
  | succ fuel ih =>
    intro p forced_length sql st
    simp only [find_next_row_loop]
    have hb := find_next_row_body_attempts g h end_point mode p forced_length sql st
    split
    · rename_i st2 sql2 hbody
      rw [hbody] at hb
      exact ⟨[p], hb⟩
    · rename_i st2 sql2 p2 fl2 hbody
      rw [hbody] at hb
      split
      · obtain ⟨rest, hrest⟩ := ih p2 fl2 sql2 st2
        exact ⟨[p] ++ rest, by rw [hrest, hb, List.append_assoc]⟩
      · exact ⟨[p], hb⟩

theorem find_next_row_first_attempt (g : globals) (h : host) (s end_point : Nat) (mode : Int)
    (forced_length : Nat) (sql : sql_payload) (st : scan_state) :
    ∃ rest, (find_next_row g h s end_point mode forced_length sql st).attempts =
      st.attempts ++ s :: rest := by
  unfold find_next_row
  simp only [find_next_row_loop]
  have hb := find_next_row_body_attempts g h end_point mode s forced_length sql
    { st with calls := st.calls ++ [(s, end_point, mode, forced_length)] }
  split
  · rename_i st2 sql2 hbody
    rw [hbody] at hb
    exact ⟨[], hb⟩
  · rename_i st2 sql2 p2 fl2 hbody
    rw [hbody] at hb
    split
    · obtain ⟨rest, hrest⟩ := find_next_row_loop_attempts g h end_point mode (end_point - s)
        p2 fl2 sql2 st2
      exact ⟨rest, by rw [hrest, hb, List.append_assoc]; rfl⟩
    · exact ⟨[], hb⟩

/-! ## Lemmas: bytes 0xFF under the cursor -/

theorem varint_loop_ff (post : List Nat) : ∀ (k shift : Nat) (len : Int) (v : Nat),
    64 ≤ shift + 7 * k →
    varint_loop (List.replicate k 255 ++ post) shift len v = .fault .shift_range := by
  intro k
  induction k with
  | zero =>
    intro shift len v hk
    have hs : 64 ≤ shift := by omega
    cases post with
    | nil => simp [varint_loop, hs]
    | cons b rest => simp [varint_loop, hs]
  | succ k ih =>
    intro shift len v hk
    rw [List.replicate_succ, List.cons_append]
    by_cases hs : 64 ≤ shift
    · simp [varint_loop, hs]
    · have hbit : ¬ ((255 % 256) &&& 0x80 = 0) := by decide
      simp only [varint_loop, if_neg hs, if_neg hbit]
      exact ih _ _ _ (by omega)

theorem varint_decode_ff (pre post : List Nat) (n : Nat) (hn : 10 ≤ n) :
    varint_decode (pre ++ List.replicate n 255 ++ post) pre.length = .fault .shift_range := by
  unfold varint_decode
  rw [List.append_assoc, List.drop_left, varint_loop_ff post n 0 0 0 (by omega)]

theorem decode_row_ff (g : globals) (pre post : List Nat) (n data_endpoint : Nat)
    (payload : sql_payload) (forced_length : Nat)
    (hdb : g.db = pre ++ List.replicate n 255 ++ post) (hn : 10 ≤ n) :
    decode_row g pre.length data_endpoint payload DECODE_MODE_NORMAL forced_length =
      .fault .shift_range := by
  unfold decode_row decode_head
  have hm : ¬ (DECODE_MODE_NORMAL = DECODE_MODE_FREESPACE) := by decide
  simp only [hm, if_false]
  rw [hdb, varint_decode_ff pre post n hn]

/-! ## Lemmas: the calls of `find_next_row` made by `main` -/

theorem find_next_row_dump_calls (g : globals) (h : host) (end_point : Nat) (mode : Int)
    (p : Nat) (sql : sql_payload) (st : scan_state) :
    (find_next_row_dump g h end_point mode p sql st).calls = st.calls := by
  unfold find_next_row_dump
  split
  · rfl
  · split <;> rfl

theorem find_next_row_body_calls (g : globals) (h : host) (end_point : Nat) (mode : Int)
    (p forced_length : Nat) (sql : sql_payload) (st : scan_state) :
    (find_next_row_body g h end_point mode p forced_length sql st).1.calls = st.calls := by
  unfold find_next_row_body
  dsimp only
  split
  · rfl
  · rename_i d hd
    have hdump := find_next_row_dump_calls g h end_point mode p d.payload
      { out := st.out ++ String.join d.out, calls := st.calls, attempts := st.attempts ++ [p],
        dumps := st.dumps, files := st.files, blob_count := st.blob_count, fault := st.fault }
    repeat' split
    all_goals first
      | rfl
      | exact hdump

theorem find_next_row_loop_calls (g : globals) (h : host) (end_point : Nat) (mode : Int) :
    ∀ (fuel p forced_length : Nat) (sql : sql_payload) (st : scan_state),
      (find_next_row_loop g h end_point mode fuel p forced_length sql st).calls = st.calls := by
  intro fuel
  induction fuel with
  | zero =>
    intro p forced_length sql st
    rfl
  | succ fuel ih =>
    intro p forced_length sql st
    simp only [find_next_row_loop]
    have hb := find_next_row_body_calls g h end_point mode p forced_length sql st
    split
    · rename_i st2 sql2 hbody
      rw [hbody] at hb
      exact hb
    · rename_i st2 sql2 p2 fl2 hbody
      rw [hbody] at hb
      split
      · rw [ih p2 fl2 sql2 st2]
        exact hb
      · exact hb

theorem find_next_row_calls (g : globals) (h : host) (s end_point : Nat) (mode : Int)
    (forced_length : Nat) (sql : sql_payload) (st : scan_state) :
    (find_next_row g h s end_point mode forced_length sql st).calls =
      st.calls ++ [(s, end_point, mode, forced_length)] := by
  unfold find_next_row
  rw [find_next_row_loop_calls]

theorem main_page_calls (g : globals) (h : host) (sql : sql_payload) (db_cpp : Nat)
    (st : scan_state) (hst : 0 ∉ st.calls.map (fun c => c.1)) :
    0 ∉ (main_page g h sql db_cpp st).1.calls.map (fun c => c.1) := by
  unfold main_page
  dsimp only
  split
  · exact hst
  · split
    · exact hst
    · rename_i mode fo fs cfp hleaf
      split
      · rename_i hrow
        rw [find_next_row_calls, List.map_append, List.mem_append]
        intro hmem
        rcases hmem with hmem | hmem
        · exact hst hmem
        · simp only [List.map_cons, List.map_nil, List.mem_singleton] at hmem
          omega
      · exact hst

theorem main_loop_calls (g : globals) (h : host) (sql : sql_payload) :
    ∀ (fuel db_cfp db_cpp page_number : Nat) (st : scan_state),
      0 ∉ st.calls.map (fun c => c.1) →
      0 ∉ (main_loop g h sql fuel db_cfp db_cpp page_number st).calls.map (fun c => c.1) := by
  intro fuel
  induction fuel with
  | zero =>
    intro db_cfp db_cpp page_number st hst
    exact hst
  | succ fuel ih =>
    intro db_cfp db_cpp page_number st hst
    simp only [main_loop]
    have hp := main_page_calls g h sql db_cpp st hst
    split
    · split
      · exact hp
      · split
        · exact hp
        · exact ih _ _ _ _ hp
    · exact hst

theorem main_calls (g : globals) (h : host) (sql : sql_payload) :
    0 ∉ (main g h sql).calls.map (fun c => c.1) := by
  unfold main
  split
  · simp [scan_start]
  · exact main_loop_calls _ h sql _ _ _ _ _ (by simp [scan_start])

/-! ## Lemmas: the sign conversions -/

theorem to_signed_byte_value (b : Nat) :
    to_signed_byte (b % 256) =
      if b % 256 < 128 then ((b % 256 : Nat) : Int) else ((b % 256 : Nat) : Int) - 256 := by
  unfold to_signed_byte or_high_bits
  simp only [Nat.shiftRight_eq_div_pow]
  split <;> split <;> omega

theorem to_signed_int_value (v : Nat) :
    to_signed_int (v % 65536) =
      if v % 65536 < 32768 then ((v % 65536 : Nat) : Int) else ((v % 65536 : Nat) : Int) - 65536 := by
  unfold to_signed_int or_high_bits to_int32
  simp only [Nat.shiftRight_eq_div_pow]
  split <;> split <;> omega

theorem to_signed_long_value (v : Nat) :
    to_signed_long (v % 4294967296) =
      if v % 4294967296 < 2147483648 then ((v % 4294967296 : Nat) : Int)
      else ((v % 4294967296 : Nat) : Int) - 4294967296 := by
  unfold to_signed_long or_high_bits to_int64
  simp only [Nat.shiftRight_eq_div_pow]
  split <;> split <;> omega

/-! ## Lemmas: the fixed arrays of the descriptor -/

theorem overflow_loop_no_bounds (g : globals) :
    ∀ (fuel ovp ovpi : Nat) (payload : sql_payload) (out : List String),
      ovpi ≤ OVERFLOW_PAGES_MAX →
      overflow_loop g fuel ovp ovpi payload out ≠ .fault .array_bounds := by
  intro fuel
  induction fuel with
  | zero => intro ovp ovpi payload out _; simp [overflow_loop]
  | succ fuel ih =>
    intro ovp ovpi payload out hi
    simp only [overflow_loop]
    split
    · split
      · simp
      split
      · simp
      split
      · rename_i f hf
        intro hh
        simp only [Res.fault.injEq] at hh
        subst hh
        unfold read32be at hf
        split at hf <;> simp at hf
      · rw [if_neg (by omega)]
        split
        · simp
        · rename_i hnext
          exact ih _ _ _ _ (by omega)
    · simp

theorem overflow_chain_no_bounds (g : globals) (data_endpoint : Nat) (payload : sql_payload) :
    overflow_chain g data_endpoint payload ≠ .fault .array_bounds := by
  unfold overflow_chain
  split
  · simp
  split
  · rename_i f hf
    intro hh
    simp only [Res.fault.injEq] at hh
    subst hh
    unfold read32be at hf
    split at hf <;> simp at hf
  · dsimp only
    split
    · simp
    · split
      · rename_i f hf
        intro hh
        simp only [Res.fault.injEq] at hh
        subst hh
        exact overflow_loop_no_bounds g _ _ _ _ _ (by decide) hf
      · simp

theorem varint_loop_no_bounds (l : List Nat) : ∀ (shift : Nat) (len : Int) (v : Nat),
    varint_loop l shift len v ≠ .fault .array_bounds := by
  induction l with
  | nil =>
    intro shift len v
    simp only [varint_loop]
    split <;> simp
  | cons b rest ih =>
    intro shift len v
    simp only [varint_loop]
    split
    · simp
    · split
      · simp
      · exact ih _ _ _

theorem varint_decode_no_bounds (db : List Nat) (p : Nat) :
    varint_decode db p ≠ .fault .array_bounds := by
  unfold varint_decode
  split
  · simp
  · rename_i f hf
    intro hh
    simp only [Res.fault.injEq] at hh
    subst hh
    exact varint_loop_no_bounds _ _ _ _ hf

theorem cell_loop_no_bounds (g : globals) (base plh_ep : Nat) (hcc : g.cc_max ≤ 1000) :
    ∀ (fuel p t : Nat) (offset : Int) (payload : sql_payload), t ≤ PAYLOAD_CELLS_MAX →
      cell_loop g base plh_ep fuel p t offset payload ≠ .fault .array_bounds := by
  intro fuel
  induction fuel with
  | zero => intro p t offset payload _; simp [cell_loop]
  | succ fuel ih =>
    intro p t offset payload ht
    simp only [cell_loop]
    split
    · rename_i f hf
      intro hh
      simp only [Res.fault.injEq] at hh
      subst hh
      exact varint_decode_no_bounds _ _ hf
    · split
      · simp
      rw [if_neg (by omega)]
      split
      · simp
      split
      · simp
      split
      · simp
      split
      · simp
      split
      · simp
      · rename_i hmax
        have : t + 1 ≤ PAYLOAD_CELLS_MAX := by
          have e : PAYLOAD_CELLS_MAX = 1000 := rfl
          rw [e]
          push_cast at hmax
          omega
        exact ih _ _ _ _ this

theorem decode_head_no_bounds (g : globals) (p : Nat) (payload : sql_payload) (mode : Int)
    (forced_length : Nat) : decode_head g p payload mode forced_length ≠ .fault .array_bounds := by
  intro hh
  unfold decode_head at hh
  by_cases hm : mode = DECODE_MODE_FREESPACE
  · simp only [hm, if_true] at hh
    repeat' first
      | (simp at hh; done)
      | (rename_i f hf; simp only [Res.fault.injEq] at hh; subst hh
         exact varint_decode_no_bounds _ _ hf)
      | split at hh
  · simp only [hm, if_false] at hh
    repeat' first
      | (simp at hh; done)
      | (rename_i f hf; simp only [Res.fault.injEq] at hh; subst hh
         exact varint_decode_no_bounds _ _ hf)
      | split at hh

theorem decode_cells_no_bounds (g : globals) (base plh_start p : Nat) (payload : sql_payload)
    (out : List String) (mode : Int) (hcc : g.cc_max ≤ 1000) :
    decode_cells g base plh_start p payload out mode ≠ .fault .array_bounds := by
  unfold decode_cells
  split
  · simp
  split
  · simp
  dsimp only
  split
  · rename_i f hf
    intro hh
    simp only [Res.fault.injEq] at hh
    subst hh
    exact cell_loop_no_bounds g _ _ hcc _ _ _ _ _ (by decide) hf
  · simp
  · split
    · simp
    split
    · simp
    split <;> simp

theorem decode_row_no_bounds (g : globals) (p data_endpoint : Nat) (payload : sql_payload)
    (mode : Int) (forced_length : Nat) (hcc : g.cc_max ≤ 1000) :
    decode_row g p data_endpoint payload mode forced_length ≠ .fault .array_bounds := by
  unfold decode_row
  split
  · rename_i f hf
    intro hh
    simp only [Res.fault.injEq] at hh
    subst hh
    exact decode_head_no_bounds _ _ _ _ _ hf
  · simp
  · split
    · rename_i f hf
      intro hh
      simp only [Res.fault.injEq] at hh
      subst hh
      split at hf
      · exact overflow_chain_no_bounds _ _ _ hf
      · simp at hf
    · split
      · simp
      · exact decode_cells_no_bounds _ _ _ _ _ _ _ hcc

/-! ## Lemmas: a free block that names itself -/

theorem freeblock_walk_self (db : List Nat) (db_cfp off sz : Nat) (hoff : off ≠ 0)
    (h1 : read16be db (db_cfp + off) = .ok off)
    (h2 : read16be db (db_cfp + off + 2) = .ok sz) :
    ∀ fuel, freeblock_walk db db_cfp fuel off = .fault .nontermination := by
  intro fuel
  induction fuel with
  | zero => rfl
  | succ fuel ih =>
    simp only [freeblock_walk, h1, h2, if_pos hoff]
    exact ih

/-! ## Lemmas: the offsets and the cursor of the cell loop -/

theorem to_int32_add_left (a b : Int) : to_int32 (to_int32 a + b) = to_int32 (a + b) := by
  unfold to_int32
  omega

theorem cell_loop_offsets (g : globals) (base plh_ep : Nat) :
    ∀ (fuel p t : Nat) (offset : Int) (payload : sql_payload) (p2 t2 : Nat) (offset2 : Int)
      (payload2 : sql_payload),
      cell_loop g base plh_ep fuel p t offset payload = .ok (some (p2, t2, offset2), payload2) →
      offset = sum_sizes payload.cells t →
      (∀ i, i < t → (payload.cells i).o =
        to_int32 ((plh_ep : Int) + sum_sizes payload.cells i - base)) →
      (∀ i, i ≤ t → to_u64 (sum_sizes payload.cells i) ≤ payload.length ∧
        -2147483648 ≤ sum_sizes payload.cells i ∧ sum_sizes payload.cells i ≤ 2147483647) →
      (∀ i, i ≤ t2 → (payload2.cells i).o =
        to_int32 ((plh_ep : Int) + sum_sizes payload2.cells i - base)) ∧
      (∀ i, i ≤ t2 + 1 → to_u64 (sum_sizes payload2.cells i) ≤ payload2.length ∧
        -2147483648 ≤ sum_sizes payload2.cells i ∧ sum_sizes payload2.cells i ≤ 2147483647) := by
  intro fuel
  induction fuel with
  | zero => intro p t offset payload p2 t2 offset2 payload2 h; simp [cell_loop] at h
  | succ fuel ih =>
    intro p t offset payload p2 t2 offset2 payload2 h hoff ho hs
    simp only [cell_loop] at h
    split at h
    · simp at h
    · rename_i s vil p1 hv
      split at h
      · simp at h
      split at h
      · simp at h
      split at h
      · simp at h
      split at h
      · simp at h
      split at h
      · simp at h
      rename_i hov hlen
      -- the cells after the two assignments of this pass
      have hsame : ∀ (c1 c2 : cell) (i : Nat), i ≤ t →
          sum_sizes (upd (upd payload.cells t c1) t c2) i = sum_sizes payload.cells i := by
        intro c1 c2 i hi
        apply sum_sizes_congr
        intro j hj
        have : ¬ (j = t) := by omega
        simp [upd, this]
      have hcell : ∀ (c1 c2 : cell) (i : Nat), i < t →
          (upd (upd payload.cells t c1) t c2) i = payload.cells i := by
        intro c1 c2 i hi
        have : ¬ (i = t) := by omega
        simp [upd, this]
      have hnew_o : ∀ (c1 c2 : cell),
          c2.o = to_int32 ((plh_ep : Int) + offset - base) →
          ∀ i, i ≤ t → ((upd (upd payload.cells t c1) t c2) i).o =
            to_int32 ((plh_ep : Int) + sum_sizes (upd (upd payload.cells t c1) t c2) i - base) := by
        intro c1 c2 hc2 i hi
        rw [hsame c1 c2 i hi]
        by_cases hit : i = t
        · subst hit
          simp only [upd, if_true]
          rw [hc2, hoff]
        · rw [hcell c1 c2 i (by omega)]
          exact ho i (by omega)
      have hnew_s : ∀ (c1 c2 : cell),
          to_u64 (offset + c2.s) ≤ payload.length →
          ¬ (offset + c2.s < -2147483648 ∨ offset + c2.s > 2147483647) →
          ∀ i, i ≤ t + 1 → to_u64 (sum_sizes (upd (upd payload.cells t c1) t c2) i) ≤
            payload.length ∧
            -2147483648 ≤ sum_sizes (upd (upd payload.cells t c1) t c2) i ∧
            sum_sizes (upd (upd payload.cells t c1) t c2) i ≤ 2147483647 := by
        intro c1 c2 hc2 hrange i hi
        by_cases hit : i = t + 1
        · subst hit
          rw [sum_sizes_upd_upd, ← hoff]
          exact ⟨hc2, by omega, by omega⟩
        · rw [hsame c1 c2 i (by omega)]
          exact hs i (by omega)
      have hlen2 : to_u64 (offset + to_int32 ↑(serial_switch s).2) ≤ payload.length := by
        simpa using hlen
      split at h
      · simp only [Res.ok.injEq, Prod.mk.injEq, Option.some.injEq] at h
        obtain ⟨⟨h1, h2, h3⟩, h4⟩ := h
        subst h1 h2 h3 h4
        exact ⟨hnew_o _ _ rfl, hnew_s _ _ hlen2 hov⟩
      split at h
      · simp at h
      · apply ih _ _ _ _ _ _ _ _ h
        · simp only
          rw [sum_sizes_upd_upd, hoff]
        · intro i hi
          refine hnew_o _ _ ?_ i (Nat.le_of_lt_succ hi)
          rfl
        · intro i hi
          refine hnew_s _ _ ?_ ?_ i hi
          · exact hlen2
          · exact hov

theorem cell_loop_cursor (g : globals) (base plh_ep : Nat) :
    ∀ (fuel p t : Nat) (offset : Int) (payload : sql_payload) (p2 t2 : Nat) (offset2 : Int)
      (payload2 : sql_payload),
      cell_loop g base plh_ep fuel p t offset payload = .ok (some (p2, t2, offset2), payload2) →
      plh_ep ≤ p2 ∧ (p < plh_ep → p2 < plh_ep + 8) := by
  intro fuel
  induction fuel with
  | zero => intro p t offset payload p2 t2 offset2 payload2 h; simp [cell_loop] at h
  | succ fuel ih =>
    intro p t offset payload p2 t2 offset2 payload2 h
    simp only [cell_loop] at h
    split at h
    · simp at h
    · rename_i s vil p1 hv
      have hvl := varint_decode_length hv
      split at h
      · simp at h
      rename_i hvil
      split at h
      · simp at h
      split at h
      · simp at h
      split at h
      · simp at h
      split at h
      · simp at h
      split at h
      · rename_i hp
        simp only [Res.ok.injEq, Prod.mk.injEq, Option.some.injEq] at h
        obtain ⟨⟨h1, h2, h3⟩, h4⟩ := h
        subst h1
        exact ⟨hp, fun hlt => by omega⟩
      rename_i hp
      split at h
      · simp at h
      · obtain ⟨a1, a2⟩ := ih _ _ _ _ _ _ _ _ h
        exact ⟨a1, fun _ => a2 (by omega)⟩

theorem decode_head_prefix (g : globals) (p : Nat) (payload : sql_payload) (mode : Int)
    (forced_length : Nat) (payload1 : sql_payload) (plh_start p1 : Nat)
    (h : decode_head g p payload mode forced_length = .ok (.inr (payload1, plh_start, p1))) :
    p ≤ plh_start ∧ payload1.prefix_length = plh_start - p := by
  unfold decode_head at h
  by_cases hm : mode = DECODE_MODE_FREESPACE
  · simp only [hm, if_true] at h
    repeat' first
      | (simp at h; done)
      | (simp only [Res.ok.injEq, Sum.inr.injEq, Prod.mk.injEq] at h
         obtain ⟨h1, h2, -⟩ := h
         subst h1 h2
         exact ⟨le_refl _, rfl⟩)
      | split at h
  · simp only [hm, if_false] at h
    split at h
    · simp at h
    rename_i len l1 q1 hv1
    have e1 := varint_decode_length hv1
    repeat' first
      | (simp at h; done)
      | (rename_i q2 hv2 _ _ _ _ _ _ _
         have e2 := varint_decode_length hv2
         simp only [Res.ok.injEq, Sum.inr.injEq, Prod.mk.injEq] at h
         obtain ⟨h1, h2, -⟩ := h
         subst h1 h2
         exact ⟨by omega, rfl⟩)
      | split at h

theorem decode_cells_offsets (g : globals) (base plh_start p : Nat) (payload : sql_payload)
    (out : List String) (mode : Int) (d : decoded)
    (h : decode_cells g base plh_start p payload out mode = .ok d) (hret : d.ret ≠ 0)
    (hcc : payload.cell_count = 0) :
    ∃ t2 : Nat, d.payload.cell_count = t2 ∧ d.payload.header_size = payload.header_size ∧
      d.payload.prefix_length = payload.prefix_length ∧
      (∀ i, i ≤ t2 → (d.payload.cells i).o =
        to_int32 (((plh_start + payload.header_size : Nat) : Int) +
          sum_sizes d.payload.cells i - base)) ∧
      (∀ i, i ≤ t2 + 1 → to_u64 (sum_sizes d.payload.cells i) ≤ d.payload.length ∧
        -2147483648 ≤ sum_sizes d.payload.cells i ∧ sum_sizes d.payload.cells i ≤ 2147483647) := by
  unfold decode_cells at h
  split at h
  · simp at h; subst h; simp at hret
  split at h
  · simp at h; subst h; simp at hret
  dsimp only at h
  split at h
  · simp at h
  · simp at h; subst h; simp at hret
  · rename_i p2 t2 offset2 payload2 hl
    have inv := cell_loop_invariant _ _ _ _ _ _ _ _ _ _ _ _ hl (by simp [hcc]) (by simp [sum_sizes])
    have off := cell_loop_offsets _ _ _ _ _ _ _ _ _ _ _ _ hl (by simp [sum_sizes])
      (fun i hi => absurd hi (Nat.not_lt_zero i))
      (fun i hi => by
        have : i = 0 := by omega
        subst this
        simp [sum_sizes, to_u64])
    have key : ∃ t3 : Nat, payload2.cell_count = t3 ∧ payload2.header_size = payload.header_size ∧
        payload2.prefix_length = payload.prefix_length ∧
        (∀ i, i ≤ t3 → (payload2.cells i).o =
          to_int32 (((plh_start + payload.header_size : Nat) : Int) +
            sum_sizes payload2.cells i - base)) ∧
        (∀ i, i ≤ t3 + 1 → to_u64 (sum_sizes payload2.cells i) ≤ payload2.length ∧
          -2147483648 ≤ sum_sizes payload2.cells i ∧ sum_sizes payload2.cells i ≤ 2147483647) :=
      ⟨t2, inv.1, inv.2.2.2.2.2.2.1, inv.2.2.2.2.2.2.2.2.1, off.1, off.2⟩
    split at h
    · simp at h; subst h; simp at hret
    split at h
    · simp only [Res.ok.injEq] at h
      subst h
      exact key
    split at h
    · simp only [Res.ok.injEq] at h
      subst h
      exact key
    · simp at h; subst h; simp at hret

theorem decode_row_offsets (g : globals) (p data_endpoint : Nat) (payload : sql_payload)
    (mode : Int) (forced_length : Nat) (d : decoded)
    (h : decode_row g p data_endpoint payload mode forced_length = .ok d) (hret : d.ret ≠ 0) :
    ∃ t2 : Nat, d.payload.cell_count = t2 ∧
      (∀ i, i ≤ t2 → (d.payload.cells i).o =
        to_int32 ((d.payload.prefix_length : Int) + d.payload.header_size +
          sum_sizes d.payload.cells i)) ∧
      (∀ i, i ≤ t2 + 1 → to_u64 (sum_sizes d.payload.cells i) ≤ d.payload.length ∧
        -2147483648 ≤ sum_sizes d.payload.cells i ∧ sum_sizes d.payload.cells i ≤ 2147483647) := by
  unfold decode_row at h
  split at h
  · simp at h
  · rename_i d2 hh
    simp only [Res.ok.injEq] at h
    subst h
    exact absurd ((decode_head_result _ _ _ _ _).1 _ hh) hret
  · rename_i payload1 plh_start p1 hh
    have hc1 : payload1.cell_count = 0 := (decode_head_result _ _ _ _ _).2 _ _ _ hh
    obtain ⟨hle, hpre⟩ := decode_head_prefix _ _ _ _ _ _ _ _ hh
    split at h
    · simp at h
    · rename_i rejected payload2 out hov
      split at h
      · simp at h; subst h; simp at hret
      · have hc2 : payload2.cell_count = 0 ∧ payload2.prefix_length = payload1.prefix_length := by
          split at hov
          · have := overflow_chain_fields _ _ _ _ _ _ hov
            exact ⟨by rw [this.2.2.2.2.1]; exact hc1, this.2.2.2.1⟩
          · simp only [Res.ok.injEq, Prod.mk.injEq] at hov
            obtain ⟨-, h2, -⟩ := hov
            subst h2
            exact ⟨hc1, rfl⟩
        obtain ⟨t2, a1, a2, a3, a4, a5⟩ := decode_cells_offsets _ _ _ _ _ _ _ _ h hret hc2.1
        refine ⟨t2, a1, ?_, a5⟩
        intro i hi
        rw [a4 i hi, a3, a2, hc2.2, hpre]
        congr 1
        push_cast
        omega

/-! ## Lemmas: the value `decode_row` returns -/

theorem decode_cells_ret (g : globals) (base plh_start p : Nat) (payload : sql_payload)
    (out : List String) (mode : Int) (d : decoded)
    (h : decode_cells g base plh_start p payload out mode = .ok d) (hret : d.ret ≠ 0)
    (hcc : payload.cell_count = 0) (hps : g.page_size < 4294967296) :
    -2147483648 ≤ d.ret ∧ (mode ≠ DECODE_MODE_FREESPACE → d.ret = 1 ∧ 2 ≤ d.payload.length) := by
  unfold decode_cells at h
  split at h
  · simp at h; subst h; simp at hret
  rename_i hhs1
  split at h
  · simp at h; subst h; simp at hret
  rename_i hhs2
  dsimp only at h
  split at h
  · simp at h
  · simp at h; subst h; simp at hret
  · rename_i p2 t2 offset2 payload2 hl
    have inv := cell_loop_invariant _ _ _ _ _ _ _ _ _ _ _ _ hl (by simp [hcc]) (by simp [sum_sizes])
    obtain ⟨-, -, i3, -, -, -, i7, -⟩ := inv
    split at h
    · simp at h; subst h; simp at hret
    split at h
    · rename_i hfree
      simp only [Res.ok.injEq] at h
      subst h
      refine ⟨?_, fun hm => absurd hfree.1 hm⟩
      simp only [to_int32]
      omega
    split at h
    · rename_i heq
      simp only [Res.ok.injEq] at h
      subst h
      refine ⟨by simp, fun _ => ⟨rfl, ?_⟩⟩
      simp only
      have hb : to_u64 offset2 < 18446744073709551616 := by
        unfold to_u64
        omega
      rw [i7] at heq
      omega
    · simp at h; subst h; simp at hret

theorem decode_head_freespace_length (g : globals) (p : Nat) (payload : sql_payload)
    (forced_length : Nat) (payload1 : sql_payload) (plh_start p1 : Nat)
    (h : decode_head g p payload DECODE_MODE_FREESPACE forced_length =
      .ok (.inr (payload1, plh_start, p1))) :
    sub64 forced_length 4 ≤ g.db_size := by
  unfold decode_head at h
  simp only [if_true] at h
  split at h
  · simp at h
  · rename_i hlen
    have : ¬ (sub64 forced_length 4 > g.db_size) := hlen
    omega

theorem decode_row_ret (g : globals) (p data_endpoint : Nat) (payload : sql_payload)
    (mode : Int) (forced_length : Nat) (d : decoded)
    (h : decode_row g p data_endpoint payload mode forced_length = .ok d) (hret : d.ret ≠ 0)
    (hps : g.page_size < 4294967296) :
    -2147483648 ≤ d.ret ∧ (mode ≠ DECODE_MODE_FREESPACE → d.ret = 1 ∧ 2 ≤ d.payload.length) ∧
      (mode = DECODE_MODE_FREESPACE → sub64 forced_length 4 ≤ g.db_size) := by
  unfold decode_row at h
  split at h
  · simp at h
  · rename_i d2 hh
    simp only [Res.ok.injEq] at h
    subst h
    exact absurd ((decode_head_result _ _ _ _ _).1 _ hh) hret
  · rename_i payload1 plh_start p1 hh
    have hc1 : payload1.cell_count = 0 := (decode_head_result _ _ _ _ _).2 _ _ _ hh
    have hfree : mode = DECODE_MODE_FREESPACE → sub64 forced_length 4 ≤ g.db_size := by
      intro hm
      subst hm
      exact decode_head_freespace_length _ _ _ _ _ _ _ hh
    split at h
    · simp at h
    · rename_i rejected payload2 out hov
      split at h
      · simp at h; subst h; simp at hret
      · have hc2 : payload2.cell_count = 0 := by
          split at hov
          · rw [(overflow_chain_fields _ _ _ _ _ _ hov).2.2.2.2.1]
            exact hc1
          · simp only [Res.ok.injEq, Prod.mk.injEq] at hov
            obtain ⟨-, h2, -⟩ := hov
            subst h2
            exact hc1
        obtain ⟨a1, a2⟩ := decode_cells_ret _ _ _ _ _ _ _ _ h hret hc2 hps
        exact ⟨a1, a2, hfree⟩

theorem sub64_lt (a b : Nat) : sub64 a b < 18446744073709551616 := by
  unfold sub64
  dsimp only
  split <;> omega

/-! ## Lemmas: the progress of `find_next_row` -/

theorem find_next_row_dump_step (g : globals) (h : host) (end_point : Nat) (mode : Int)
    (p : Nat) (sql : sql_payload) (st : scan_state) :
    (find_next_row_dump g h end_point mode p sql st).attempts = st.attempts ∧
    ((find_next_row_dump g h end_point mode p sql st).dumps = st.dumps ∨
      ∃ r, (find_next_row_dump g h end_point mode p sql st).dumps = st.dumps ++ [(p, r)]) ∧
    ((find_next_row_dump g h end_point mode p sql st).fault = some .fuel →
      st.fault = some .fuel) := by
  unfold find_next_row_dump
  split
  · exact ⟨rfl, Or.inl rfl, fun hh => hh⟩
  · split
    · rename_i f hf
      refine ⟨rfl, Or.inl rfl, ?_⟩
      intro hh
      simp only [Option.some.injEq] at hh
      subst hh
      exact absurd hf (dump_row_no_fuel _ _ _ _ _ _)
    · exact ⟨rfl, Or.inr ⟨_, rfl⟩, fun hh => hh⟩

theorem find_next_row_body_step (g : globals) (h : host) (end_point : Nat) (mode : Int)
    (p forced_length : Nat) (sql : sql_payload) (st : scan_state)
    (hps : g.page_size < 4294967296) (hdb : g.db_size < 9223372036854775808)
    (hfl : forced_length < 18446744073709551616) :
    (find_next_row_body g h end_point mode p forced_length sql st).1.attempts =
      st.attempts ++ [p] ∧
    ((find_next_row_body g h end_point mode p forced_length sql st).1.dumps = st.dumps ∨
      ∃ r, (find_next_row_body g h end_point mode p forced_length sql st).1.dumps =
        st.dumps ++ [(p, r)]) ∧
    ((find_next_row_body g h end_point mode p forced_length sql st).1.fault = some .fuel →
      st.fault = some .fuel) ∧
    (∀ p2 fl2, (find_next_row_body g h end_point mode p forced_length sql st).2.2 =
      some (p2, fl2) → p < p2 ∧ fl2 < 18446744073709551616) := by
  unfold find_next_row_body
  dsimp only
  split
  · rename_i f hf
    refine ⟨rfl, Or.inl rfl, ?_, fun p2 fl2 hh => by simp at hh⟩
    intro hh
    simp only [Option.some.injEq] at hh
    subst hh
    exact absurd hf (decode_row_no_fuel _ _ _ _ _ _)
  · rename_i d hd
    obtain ⟨b1, b2, b3⟩ := find_next_row_dump_step g h end_point mode p d.payload
      { out := st.out ++ String.join d.out, calls := st.calls, attempts := st.attempts ++ [p],
        dumps := st.dumps, files := st.files, blob_count := st.blob_count, fault := st.fault }
    split
    · rename_i hret
      obtain ⟨r1, r2, r3⟩ := decode_row_ret g p end_point sql mode forced_length d hd hret hps
      split
      · refine ⟨rfl, Or.inl rfl, fun hh => hh, fun p2 fl2 hh => ?_⟩
        simp only [Option.some.injEq, Prod.mk.injEq] at hh
        omega
      · split
        · refine ⟨b1, b2, b3, fun p2 fl2 hh => by simp at hh⟩
        · split
          · rename_i hmode
            have hm : mode ≠ DECODE_MODE_FREESPACE := by
              rw [hmode]
              decide
            split
            · refine ⟨b1, b2, b3, fun p2 fl2 hh => ?_⟩
              simp only [Option.some.injEq, Prod.mk.injEq] at hh
              omega
            · refine ⟨b1, b2, b3, fun p2 fl2 hh => ?_⟩
              simp only [Option.some.injEq, Prod.mk.injEq] at hh
              have := (r2 hm).2
              omega
          · split
            · refine ⟨b1, b2, b3, fun p2 fl2 hh => by simp at hh⟩
            · rename_i hrow
              split
              · refine ⟨b1, b2, ?_, fun p2 fl2 hh => by simp at hh⟩
                intro hh
                simp at hh
              · rename_i hneg
                refine ⟨b1, b2, b3, fun p2 fl2 hh => ?_⟩
                simp only [Option.some.injEq, Prod.mk.injEq] at hh
                obtain ⟨hh1, hh2⟩ := hh
                refine ⟨?_, by rw [← hh2]; exact sub64_lt _ _⟩
                have hpos : 0 < d.ret := by
                  by_cases hm : mode = DECODE_MODE_FREESPACE
                  · have hlen := r3 hm
                    unfold sub64 at hlen
                    dsimp only at hlen
                    unfold to_u64 at hrow
                    split at hlen <;> omega
                  · have := (r2 hm).1
                    omega
                omega
    · refine ⟨rfl, Or.inl rfl, fun hh => hh, fun p2 fl2 hh => ?_⟩
      simp only [Option.some.injEq, Prod.mk.injEq] at hh
      omega

theorem find_next_row_loop_step (g : globals) (h : host) (end_point : Nat) (mode : Int)
    (hps : g.page_size < 4294967296) (hdb : g.db_size < 9223372036854775808) :
    ∀ (fuel p forced_length : Nat) (sql : sql_payload) (st : scan_state),
      forced_length < 18446744073709551616 → end_point - p < fuel →
      ∃ (new : List Nat) (newd : List (Nat × Int)),
        (find_next_row_loop g h end_point mode fuel p forced_length sql st).attempts =
          st.attempts ++ new ∧
        (find_next_row_loop g h end_point mode fuel p forced_length sql st).dumps =
          st.dumps ++ newd ∧
        (∀ a, a ∈ new → p ≤ a) ∧ new.Pairwise (fun a b => a < b) ∧
        (newd.map (fun x => x.1)).Sublist new ∧ new.length ≤ fuel ∧
        ((find_next_row_loop g h end_point mode fuel p forced_length sql st).fault =
          some .fuel → st.fault = some .fuel) := by
  intro fuel
  induction fuel with
  | zero =>
    intro p forced_length sql st _ hlt
    omega
  | succ fuel ih =>
    intro p forced_length sql st hfl hlt
    obtain ⟨s1, s2, s3, s4⟩ := find_next_row_body_step g h end_point mode p forced_length sql st
      hps hdb hfl
    have hsub : ∀ (ds : List (Nat × Int)) (rest : List Nat),
        (ds = [] ∨ ∃ r, ds = [(p, r)]) → (ds.map (fun x => x.1)).Sublist (p :: rest) := by
      intro ds rest hds
      rcases hds with hds | ⟨r, hds⟩
      · subst hds
        simp
      · subst hds
        simp
    have hds : ∃ ds : List (Nat × Int),
        (find_next_row_body g h end_point mode p forced_length sql st).1.dumps = st.dumps ++ ds ∧
        (ds = [] ∨ ∃ r, ds = [(p, r)]) := by
      rcases s2 with s2 | ⟨r, s2⟩
      · exact ⟨[], by rw [s2]; simp, Or.inl rfl⟩
      · exact ⟨[(p, r)], s2, Or.inr ⟨r, rfl⟩⟩
    obtain ⟨ds, hds1, hds2⟩ := hds
    simp only [find_next_row_loop]
    split
    · rename_i st2 sql2 hbody
      rw [hbody] at s1 hds1 s3
      refine ⟨[p], ds, s1, hds1, ?_, by simp, hsub ds [] hds2, by simp, s3⟩
      intro a ha
      simp only [List.mem_singleton] at ha
      omega
    · rename_i st2 sql2 p2 fl2 hbody
      rw [hbody] at s1 hds1 s3 s4
      obtain ⟨hp2, hfl2⟩ := s4 p2 fl2 rfl
      split
      · rename_i hcont
        have hcont2 : (p2 : Int) < (end_point : Int) - 10 := hcont
        obtain ⟨new, newd, a1, a2, a3, a4, a5, a6, a7⟩ := ih p2 fl2 sql2 st2 hfl2 (by omega)
        refine ⟨p :: new, ds ++ newd, ?_, ?_, ?_, ?_, ?_, ?_, ?_⟩
        · rw [a1, s1, List.append_assoc]
          rfl
        · rw [a2, hds1, List.append_assoc]
        · intro a ha
          simp only [List.mem_cons] at ha
          rcases ha with ha | ha
          · omega
          · have := a3 a ha
            omega
        · rw [List.pairwise_cons]
          refine ⟨?_, a4⟩
          intro a ha
          have := a3 a ha
          omega
        · rw [List.map_append]
          rcases hds2 with hd0 | ⟨r, hd0⟩
          · subst hd0
            simp only [List.map_nil, List.nil_append]
            exact a5.trans (List.sublist_cons_self p new)
          · subst hd0
            simp only [List.map_cons, List.map_nil, List.singleton_append]
            exact a5.cons₂ p
        · simp only [List.length_cons]
          omega
        · intro hh
          exact s3 (a7 hh)
      · refine ⟨[p], ds, s1, hds1, ?_, by simp, hsub ds [] hds2, by simp, s3⟩
        intro a ha
        simp only [List.mem_singleton] at ha
        omega
theorem and_small : ∀ x, x < 128 → (x &&& 0x80 = 0 ∧ x &&& 0x7f = x) := by decide

theorem byte_at_lt (db : List Nat) (p b : Nat) (hb : byte_at db p = some b) :
    p < db.length ∧ b < 256 ∧ db[p]? = some (db.getD p 0) ∧ b = db.getD p 0 % 256 := by
  unfold byte_at at hb
  split at hb
  · rename_i a ha
    simp only [Option.some.injEq] at hb
    have hl : p < db.length := by
      by_contra hc
      rw [List.getElem?_eq_none (by omega)] at ha
      simp at ha
    refine ⟨hl, by omega, ?_, ?_⟩
    · simp [List.getD, ha]
    · simp [List.getD, ha]
      omega
  · simp at hb

theorem varint_decode_one (db : List Nat) (p b : Nat) (hb : byte_at db p = some b)
    (hlt : b < 128) : varint_decode db p = .ok (b, 1, p + 1) := by
  obtain ⟨hl, -, -, -⟩ := byte_at_lt db p b hb
  unfold byte_at at hb
  rw [List.getElem?_eq_getElem hl] at hb
  simp only [Option.some.injEq] at hb
  have hd : db.drop p = db[p] :: db.drop (p + 1) := List.drop_eq_getElem_cons hl
  obtain ⟨a1, a2⟩ := and_small b hlt
  unfold varint_decode
  rw [hd]
  simp [varint_loop, hb, a1, a2]


theorem decode_row_single_int8 (g : globals) (p data_endpoint r forced_length : Nat)
    (sql : sql_payload)
    (h0 : byte_at g.db p = some 3) (h1 : byte_at g.db (p + 1) = some r)
    (h2 : byte_at g.db (p + 2) = some 2) (h3 : byte_at g.db (p + 3) = some 1)
    (hr1 : 1 ≤ r) (hr2 : r < 128) (hrs : g.rs_min ≤ 3) (hrx : 3 ≤ g.rs_max)
    (hcm : g.cc_min ≤ 0) (hps : 38 ≤ g.page_size) (hps2 : g.page_size < 4294967296) :
    ∃ d, decode_row g p data_endpoint sql DECODE_MODE_NORMAL forced_length = .ok d ∧
      d.ret = 1 ∧ d.out = [] ∧ d.payload.rowid = r ∧ d.payload.cell_count = 0 ∧
      d.payload.length = 3 ∧ d.payload.overflow_pages 0 = 0 ∧
      d.payload.cells 0 = { t := 1, s := 1, o := 4 } := by
  have v0 := varint_decode_one g.db p 3 h0 (by omega)
  have v1 := varint_decode_one g.db (p + 1) r h1 hr2
  have v2 := varint_decode_one g.db (p + 1 + 1) 2 h2 (by omega)
  have v3 := varint_decode_one g.db (p + 1 + 1 + 1) 1 h3 (by omega)
  have hdb : 3 ≤ g.db_size := by
    have := (byte_at_lt g.db (p + 3) 1 h3).1
    unfold globals.db_size
    omega
  have hm : ¬ (DECODE_MODE_NORMAL = DECODE_MODE_FREESPACE) := by decide
  have hsub : sub32 g.page_size 35 = g.page_size - 35 := by
    unfold sub32
    simp only
    rw [Nat.mod_eq_of_lt hps2]
    have : (35 : Nat) % 4294967296 = 35 := by decide
    rw [this, if_pos (by omega)]
  have hhead : decode_head g p sql DECODE_MODE_NORMAL forced_length =
      .ok (.inr ({ sql with overflow_pages := upd sql.overflow_pages 0 0, cell_count := 0,
                            length := 3, rowid := r, prefix_length := p + 1 + 1 - p,
                            header_size := 2 }, p + 1 + 1, p + 1 + 1 + 1)) := by
    unfold decode_head
    simp only [hm, if_false, v0, v1, v2]
    rw [if_neg (by omega), if_neg (by omega), if_neg (by omega), if_neg (by omega),
      if_neg (by omega)]
  unfold decode_row
  rw [hhead]
  simp only
  rw [if_neg (by rw [hsub]; omega)]
  simp only [Bool.false_eq_true, if_false]
  unfold decode_cells
  simp only
  rw [if_neg (by omega), if_neg (by omega)]
  have hloop : ∀ fuel, cell_loop g p (p + 1 + 1 + 2) (fuel + 1) (p + 1 + 1 + 1) 0 0
      { sql with overflow_pages := upd sql.overflow_pages 0 0, cell_count := 0,
                 length := 3, rowid := r, prefix_length := p + 1 + 1 - p, header_size := 2 } =
      .ok (some (p + 1 + 1 + 1 + 1, 0, 0 + to_int32 ((serial_switch 1).2 : Nat)),
        { sql with overflow_pages := upd sql.overflow_pages 0 0, cell_count := 0,
                   length := 3, rowid := r, prefix_length := p + 1 + 1 - p, header_size := 2,
                   cells := upd (upd sql.cells 0 { sql.cells 0 with t := to_int32 (1 : Nat) }) 0
                     { t := (serial_switch 1).1, s := to_int32 ((serial_switch 1).2 : Nat),
                       o := to_int32 (((p + 1 + 1 + 2 : Nat) : Int) + 0 - p) } }) := by
    intro fuel
    simp only [cell_loop, v3]
    rw [if_neg (by decide), if_neg (by decide), if_neg (by decide), if_neg (by decide),
      if_neg (by decide), if_pos (by omega)]
  have hl1 := hloop 1
  simp only [Nat.reduceAdd] at hl1
  rw [hl1]
  simp only
  have hcc : ¬ (((0 : Nat) : Int) < g.cc_min) := by
    simp only [Nat.cast_zero]
    omega
  have hacc :
      (to_u64 (0 + to_int32 ((serial_switch 1).2 : Nat)) + 2) % 18446744073709551616 = 3 := by
    decide
  rw [if_neg hcc, if_neg (fun hh => hm hh.1), if_pos hacc]
  refine ⟨_, rfl, rfl, rfl, rfl, rfl, rfl, by simp [upd], ?_⟩
  have ho : ((p + 1 + 1 + 2 : Nat) : Int) + 0 - p = 4 := by
    push_cast
    ring
  simp only [upd, if_true, ho]
  rfl

theorem view_bytes_one (db : List Nat) (base o b : Nat) (e : Int)
    (hb : byte_at db (base + o) = some b) :
    view_bytes { data := db.map (fun x => some (x % 256)), origin := base, endpoint := e }
      (o : Int) 1 = .ok [b] := by
  obtain ⟨hl, -, -, -⟩ := byte_at_lt db (base + o) b hb
  unfold byte_at at hb
  rw [List.getElem?_eq_getElem hl] at hb
  simp only [Option.some.injEq] at hb
  have hl2 : base + o < (db.map (fun x => some (x % 256))).length := by
    rw [List.length_map]
    exact hl
  unfold view_bytes
  simp only
  have ha : ¬ ((base : Int) + (o : Int) < 0) := by omega
  have hn : ((base : Int) + (o : Int)).toNat = base + o := by omega
  rw [if_neg ha, hn, if_pos (by omega), List.drop_eq_getElem_cons hl2]
  simp [hb]

theorem dump_row_single_int8 (g : globals) (h : host) (p data_endpoint b : Nat)
    (payload : sql_payload) (hb : byte_at g.db (p + 4) = some b)
    (hlen : payload.length = 3) (hov : payload.overflow_pages 0 = 0)
    (hcc : payload.cell_count = 0) (hc : payload.cells 0 = { t := 1, s := 1, o := 4 }) :
    dump_row g h p data_endpoint payload DECODE_MODE_NORMAL =
      .ok ⟨0, "" ++ toString (to_int64 payload.rowid) ++ "," ++
            ("x" ++ toString (to_signed_byte b)) ++ "\n", [], g.blob_count⟩ := by
  have hdb : ¬ (payload.length > g.db_size) := by
    have := (byte_at_lt g.db (p + 4) b hb).1
    unfold globals.db_size
    omega
  have hm : ¬ (DECODE_MODE_NORMAL = DECODE_MODE_FREESPACE) := by decide
  have hv := view_bytes_one g.db p 4 b ((data_endpoint : Int) - p) hb
  unfold dump_row dump_map
  rw [if_neg hdb, if_pos hov]
  simp only [hcc, hm, if_false]
  have hr : List.range ((0 : Int) + 1).toNat = [0] := by decide
  rw [hr, if_pos (by decide)]
  simp only [dump_cells, hc]
  rw [if_neg (by decide)]
  unfold dump_cell
  simp only
  rw [if_pos trivial]
  have hbe : be_value [b] = b := by simp [be_value]
  have hw : ∀ k : List Nat → dump_state,
      with_view
        { data := g.db.map (fun x => some (x % 256)), origin := p,
          endpoint := (data_endpoint : Int) - p } 4 1 k = .ok (false, k [b]) := by
    intro k
    simp only [Nat.cast_ofNat] at hv
    unfold with_view
    rw [hv]
  rw [hw]
  simp only [hbe]
  rw [if_neg (by decide)]

/-! ## Lemmas: rendering single cells -/

theorem view_bytes_none (m : mapped) (o : Int) (h0 : 0 ≤ (m.origin : Int) + o)
    (h1 : ((m.origin : Int) + o).toNat ≤ m.data.length) : view_bytes m o 0 = .ok [] := by
  unfold view_bytes
  simp only
  rw [if_neg (by omega), if_pos (by omega)]
  simp

theorem dump_cells_step (g : globals) (h : host) (m : mapped) (payload : sql_payload)
    (t : Nat) (rest : List Nat) (st st2 : dump_state) (ht : t ≤ PAYLOAD_CELLS_MAX)
    (hc : dump_cell g h m t (payload.cells t) { st with out := st.out ++ "," } =
      .ok (false, st2)) :
    dump_cells g h m payload (t :: rest) st = dump_cells g h m payload rest st2 := by
  simp only [dump_cells]
  rw [if_neg (by omega), hc]

theorem dump_cell_int8 (g : globals) (h : host) (m : mapped) (t : Nat) (c : cell)
    (st : dump_state) (b : Nat) (hc : c.t = 1) (hv : view_bytes m c.o 1 = .ok [b]) :
    dump_cell g h m t c st =
      .ok (false, { st with out := st.out ++ ("x" ++ toString (to_signed_byte b)) }) := by
  have hbe : be_value [b] = b := by simp [be_value]
  unfold dump_cell
  simp only
  rw [if_neg (by rw [hc]; decide), if_pos hc]
  unfold with_view
  simp only [hv, hbe]

theorem dump_cell_text (g : globals) (h : host) (m : mapped) (t : Nat) (c : cell)
    (st : dump_state) (bs : List Nat) (hc : c.t = 13)
    (hv : view_bytes m c.o (c.s % 65536).toNat = .ok bs) :
    dump_cell g h m t c st = .ok (false, { st with out := st.out ++ sqltdump bs }) := by
  unfold dump_cell
  simp only
  repeat rw [if_neg (by rw [hc]; decide)]
  rw [if_pos hc]
  unfold with_view
  simp only [hv]

/-! ## Lemmas: the file `c21_head ++ body` -/

theorem c21_head_length : c21_head.length = 532 := by decide

theorem c21_byte (body : List Nat) (a : Nat) (ha : a < 532) :
    byte_at (c21_globals body).db a = byte_at c21_head a :=
  byte_at_append_left _ _ _ (by show a < c21_head.length; rw [c21_head_length]; exact ha)

theorem c21_decode_head (body : List Nat) (hb : body.length = 65536) :
    decode_head (c21_globals body) 520 empty_payload DECODE_MODE_NORMAL 0 =
      .ok (.inr (c21_payload, 524, 525)) := by
  have v0 : varint_decode (c21_globals body).db 520 = .ok (65544, 3, 523) :=
    varint_decode_append c21_head body 520 _ (by decide)
  have v1 : varint_decode (c21_globals body).db 523 = .ok (1, 1, 524) :=
    varint_decode_append c21_head body 523 _ (by decide)
  have v2 : varint_decode (c21_globals body).db 524 = .ok (6, 1, 525) :=
    varint_decode_append c21_head body 524 _ (by decide)
  have hsz : (c21_globals body).db_size = 66068 := by
    show (c21_head ++ body).length = 66068
    rw [List.length_append, c21_head_length, hb]
  have e1 : (c21_globals body).rs_min = 10 := rfl
  have e2 : (c21_globals body).rs_max = SIZE_MAX := rfl
  have e3 : (c21_globals body).page_size = 131072 := rfl
  have hm : ¬ (DECODE_MODE_NORMAL = DECODE_MODE_FREESPACE) := by decide
  unfold decode_head
  simp only [hm, if_false, v0, v1, v2, hsz, e1, e2, e3]
  repeat rw [if_neg (by decide)]
  rfl

theorem c21_cells : ∃ d,
    decode_cells (UNDARK_init c21_head 131072 2) 520 524 525 c21_payload []
      DECODE_MODE_NORMAL = .ok d ∧
    d.ret = 1 ∧ d.out = [] ∧ d.payload.rowid = 1 ∧ d.payload.length = 65544 ∧
    d.payload.overflow_pages 0 = 0 ∧ d.payload.cell_count = 2 ∧
    d.payload.cells 0 = { t := 1, s := 1, o := 10 } ∧
    d.payload.cells 1 = { t := 1, s := 1, o := 11 } ∧
    d.payload.cells 2 = { t := 13, s := 65536, o := 12 } :=
  ⟨_, rfl, rfl, rfl, rfl, rfl, rfl, rfl, rfl, rfl, rfl⟩

theorem c21_decode_row (body : List Nat) (hb : body.length = 65536) (data_endpoint : Nat) :
    ∃ d, decode_row (c21_globals body) 520 data_endpoint empty_payload DECODE_MODE_NORMAL 0 =
      .ok d ∧
    d.ret = 1 ∧ d.out = [] ∧ d.payload.rowid = 1 ∧ d.payload.length = 65544 ∧
    d.payload.overflow_pages 0 = 0 ∧ d.payload.cell_count = 2 ∧
    d.payload.cells 0 = { t := 1, s := 1, o := 10 } ∧
    d.payload.cells 1 = { t := 1, s := 1, o := 11 } ∧
    d.payload.cells 2 = { t := 13, s := 65536, o := 12 } := by
  obtain ⟨d, hd, rest⟩ := c21_cells
  refine ⟨d, ?_, rest⟩
  unfold decode_row
  rw [c21_decode_head body hb]
  simp only
  have e3 : (c21_globals body).page_size = 131072 := rfl
  have hno : ¬ (c21_payload.length > sub32 (c21_globals body).page_size 35) := by
    rw [e3]
    decide
  rw [if_neg hno]
  simp only [Bool.false_eq_true, if_false]
  exact decode_cells_extend _ body _ _ _ _ _ _ _ hd

theorem c21_dump_row (body : List Nat) (hb : body.length = 65536) (h : host)
    (data_endpoint : Nat) (payload : sql_payload)
    (hr : payload.rowid = 1) (hlen : payload.length = 65544)
    (hov : payload.overflow_pages 0 = 0) (hcc : payload.cell_count = 2)
    (hc0 : payload.cells 0 = { t := 1, s := 1, o := 10 })
    (hc1 : payload.cells 1 = { t := 1, s := 1, o := 11 })
    (hc2 : payload.cells 2 = { t := 13, s := 65536, o := 12 }) :
    dump_row (c21_globals body) h 520 data_endpoint payload DECODE_MODE_NORMAL =
      .ok ⟨0, "1,x7,x8,\"\"\n", [], 0⟩ := by
  have hsz : (c21_globals body).db_size = 66068 := by
    show (c21_head ++ body).length = 66068
    rw [List.length_append, c21_head_length, hb]
  have hm : ¬ (DECODE_MODE_NORMAL = DECODE_MODE_FREESPACE) := by decide
  have b0 : byte_at (c21_globals body).db (520 + 10) = some 7 :=
    (c21_byte body _ (by omega)).trans (by decide)
  have b1 : byte_at (c21_globals body).db (520 + 11) = some 8 :=
    (c21_byte body _ (by omega)).trans (by decide)
  have w0 := view_bytes_one (c21_globals body).db 520 10 7 ((data_endpoint : Int) - 520) b0
  have w1 := view_bytes_one (c21_globals body).db 520 11 8 ((data_endpoint : Int) - 520) b1
  have w2 : view_bytes
      { data := (c21_globals body).db.map (fun x => some (x % 256)), origin := 520,
        endpoint := (data_endpoint : Int) - 520 } 12 0 = .ok [] := by
    have hlen2 : (c21_globals body).db.length = 66068 := hsz
    apply view_bytes_none
    · show (0 : Int) ≤ ((520 : Nat) : Int) + 12
      decide
    · show (((520 : Nat) : Int) + 12).toNat ≤
        ((c21_globals body).db.map (fun x => some (x % 256))).length
      rw [List.length_map, hlen2]
      decide
  simp only [Nat.cast_ofNat] at w0 w1
  have hrange : List.range ((2 : Int) + 1).toNat = [0, 1, 2] := by decide
  unfold dump_row dump_map
  rw [if_neg (by rw [hlen, hsz]; decide), if_pos hov]
  simp only [hcc, hm, if_false, hrange]
  rw [if_pos (by decide)]
  rw [dump_cells_step _ _ _ _ 0 _ _ _ (by decide)
    (dump_cell_int8 _ _ _ _ _ _ 7 (by rw [hc0]) (by rw [hc0]; exact w0))]
  rw [dump_cells_step _ _ _ _ 1 _ _ _ (by decide)
    (dump_cell_int8 _ _ _ _ _ _ 8 (by rw [hc1]) (by rw [hc1]; exact w1))]
  rw [dump_cells_step _ _ _ _ 2 _ _ _ (by decide)
    (dump_cell_text _ _ _ _ _ _ [] (by rw [hc2]) (by rw [hc2]; exact w2))]
  simp only [dump_cells, hr]
  rfl

/-! ## Lemmas: where the cell loop stops -/

theorem decode_cells_cursor (g : globals) (base plh_start p : Nat) (payload : sql_payload)
    (out : List String) (mode : Int) (d : decoded)
    (h : decode_cells g base plh_start p payload out mode = .ok d) (hret : d.ret ≠ 0) :
    ∃ (p2 t2 : Nat) (offset2 : Int),
      cell_loop g base (plh_start + payload.header_size) payload.header_size p 0 0 payload =
        .ok (some (p2, t2, offset2), d.payload) ∧
      plh_start + payload.header_size ≤ p2 ∧
      (p < plh_start + payload.header_size → p2 < plh_start + payload.header_size + 8) := by
  unfold decode_cells at h
  split at h
  · simp at h; subst h; simp at hret
  split at h
  · simp at h; subst h; simp at hret
  dsimp only at h
  split at h
  · simp at h
  · simp at h; subst h; simp at hret
  · rename_i p2 t2 offset2 payload2 hl
    have hcur := cell_loop_cursor _ _ _ _ _ _ _ _ _ _ _ _ hl
    have key : ∃ (p3 t3 : Nat) (offset3 : Int),
        cell_loop g base (plh_start + payload.header_size) payload.header_size p 0 0 payload =
          .ok (some (p3, t3, offset3), payload2) ∧
        plh_start + payload.header_size ≤ p3 ∧
        (p < plh_start + payload.header_size → p3 < plh_start + payload.header_size + 8) :=
      ⟨p2, t2, offset2, hl, hcur.1, hcur.2⟩
    split at h
    · simp at h; subst h; simp at hret
    split at h
    · simp only [Res.ok.injEq] at h
      subst h
      exact key
    split at h
    · simp only [Res.ok.injEq] at h
      subst h
      exact key
    · simp at h; subst h; simp at hret

theorem decode_row_cursor (g : globals) (p data_endpoint : Nat) (payload : sql_payload)
    (mode : Int) (forced_length : Nat) (d : decoded)
    (h : decode_row g p data_endpoint payload mode forced_length = .ok d) (hret : d.ret ≠ 0) :
    ∃ (payload1 : sql_payload) (plh_start p1 : Nat) (payload2 : sql_payload) (p2 t2 : Nat)
        (offset2 : Int),
      decode_head g p payload mode forced_length = .ok (.inr (payload1, plh_start, p1)) ∧
      payload2.header_size = payload1.header_size ∧
      cell_loop g p (plh_start + payload1.header_size) payload1.header_size p1 0 0 payload2 =
        .ok (some (p2, t2, offset2), d.payload) ∧
      plh_start + payload1.header_size ≤ p2 ∧
      (p1 < plh_start + payload1.header_size → p2 < plh_start + payload1.header_size + 8) := by
  unfold decode_row at h
  split at h
  · simp at h
  · rename_i d2 hh
    simp only [Res.ok.injEq] at h
    subst h
    exact absurd ((decode_head_result _ _ _ _ _).1 _ hh) hret
  · rename_i payload1 plh_start p1 hh
    split at h
    · simp at h
    · rename_i rejected payload2 out hov
      split at h
      · simp at h; subst h; simp at hret
      · have hhs : payload2.header_size = payload1.header_size := by
          split at hov
          · exact (overflow_chain_fields _ _ _ _ _ _ hov).2.1
          · simp only [Res.ok.injEq, Prod.mk.injEq] at hov
            obtain ⟨-, h2, -⟩ := hov
            subst h2
            rfl
        obtain ⟨p2, t2, offset2, c1, c2, c3⟩ := decode_cells_cursor _ _ _ _ _ _ _ _ h hret
        rw [hhs] at c1 c2 c3
        exact ⟨payload1, plh_start, p1, payload2, p2, t2, offset2, hh, hhs, c1, c2, c3⟩

/-! ## Lemmas: the offsets of the cells -/

theorem decode_row_offsets_step (g : globals) (p data_endpoint : Nat) (payload : sql_payload)
    (mode : Int) (forced_length : Nat) (d : decoded)
    (h : decode_row g p data_endpoint payload mode forced_length = .ok d) (hret : d.ret ≠ 0) :
    (d.payload.cells 0).o =
      to_int32 ((d.payload.prefix_length : Int) + d.payload.header_size) ∧
    (∀ i : Nat, (i : Int) < d.payload.cell_count →
      (d.payload.cells (i + 1)).o =
        to_int32 ((d.payload.cells i).o + (d.payload.cells i).s)) ∧
    (d.payload.prefix_length + d.payload.header_size + d.payload.length < 2147483648 →
      (d.payload.cells 0).o = (d.payload.prefix_length : Int) + d.payload.header_size ∧
      ∀ i : Nat, (i : Int) < d.payload.cell_count →
        (d.payload.cells (i + 1)).o = (d.payload.cells i).o + (d.payload.cells i).s) := by
  obtain ⟨t2, hcc, hoff, hsum⟩ := decode_row_offsets g p data_endpoint payload mode
    forced_length d h hret
  have h0 : sum_sizes d.payload.cells 0 = 0 := by simp [sum_sizes]
  have o0 := hoff 0 (by omega)
  rw [h0, add_zero] at o0
  have ostep : ∀ i : Nat, (i : Int) < d.payload.cell_count →
      (d.payload.cells (i + 1)).o =
        to_int32 ((d.payload.cells i).o + (d.payload.cells i).s) := by
    intro i hi
    rw [hcc] at hi
    have hi2 : i + 1 ≤ t2 := by omega
    rw [hoff (i + 1) hi2, hoff i (by omega), sum_sizes_succ, to_int32_add_left]
    congr 1
    ring
  refine ⟨o0, ostep, ?_⟩
  intro hsmall
  have hpos : ∀ j, j ≤ t2 + 1 → 0 ≤ sum_sizes d.payload.cells j ∧
      sum_sizes d.payload.cells j ≤ d.payload.length := by
    intro j hj
    obtain ⟨s1, s2, s3⟩ := hsum j hj
    unfold to_u64 at s1
    omega
  have hexact : ∀ j, j ≤ t2 → (d.payload.cells j).o =
      (d.payload.prefix_length : Int) + d.payload.header_size + sum_sizes d.payload.cells j := by
    intro j hj
    rw [hoff j hj]
    obtain ⟨q1, q2⟩ := hpos j (by omega)
    unfold to_int32
    omega
  constructor
  · have := hexact 0 (by omega)
    rw [h0, add_zero] at this
    exact this
  · intro i hi
    rw [hcc] at hi
    rw [hexact (i + 1) (by omega), hexact i (by omega), sum_sizes_succ]
    ring

/-! ## Lemmas: a free-block walk that does not end -/

theorem main_leaf_walk_fault (g : globals) (db_cfp off : Nat) (f : Fault)
    (h1 : read16be g.db (db_cfp + 1) = .ok off) (hoff : off > 0)
    (hw : freeblock_walk g.db db_cfp 65536 off = .fault f) : main_leaf g db_cfp = .fault f := by
  unfold main_leaf
  rw [h1]
  simp only
  rw [if_pos hoff, hw]

theorem main_page_leaf_fault (g : globals) (h : host) (sql : sql_payload) (db_cpp : Nat)
    (st : scan_state) (f : Fault) (hb : byte_at g.db db_cpp = some 13)
    (hl : main_leaf g db_cpp = .fault f) :
    (main_page g h sql db_cpp st).1.fault = some f := by
  unfold main_page
  simp only [hb]
  rw [if_pos (by decide), hl]

theorem c29_walk : ∀ fuel,
    freeblock_walk (UNDARK_init c29_db 512 2).db 512 fuel 8 = .fault .nontermination :=
  freeblock_walk_self (UNDARK_init c29_db 512 2).db 512 8 14 (by decide) (by decide)
    (by decide)

theorem c29_main_leaf : main_leaf (UNDARK_init c29_db 512 2) 512 = .fault .nontermination :=
  main_leaf_walk_fault (UNDARK_init c29_db 512 2) 512 8 .nontermination (by decide)
    (by decide) (c29_walk 65536)

/-! ## Lemmas: a page on which every decode attempt fails early -/

theorem serial_switch_type (s : Nat) (h10 : ¬ (s = 10 ∨ s = 11)) :
    rendered_type (serial_switch s).1 = true := by
  by_cases h9 : s ≤ 9
  · rw [serial_switch_small s h9]
    interval_cases s <;> decide
  · by_cases he : s % 2 = 0
    · rw [serial_switch_blob s (by omega) he]
      rfl
    · rw [serial_switch_text s (by omega) (by omega)]
      rfl

theorem cell_loop_types (g : globals) (base plh_ep : Nat) :
    ∀ (fuel p t : Nat) (offset : Int) (payload : sql_payload) (p2 t2 : Nat) (offset2 : Int)
      (payload2 : sql_payload),
      cell_loop g base plh_ep fuel p t offset payload = .ok (some (p2, t2, offset2), payload2) →
      (∀ i, i < t → rendered_type (payload.cells i).t = true) →
      ∀ i, i ≤ t2 → rendered_type (payload2.cells i).t = true := by
  intro fuel
  induction fuel with
  | zero => intro p t offset payload p2 t2 offset2 payload2 h; simp [cell_loop] at h
  | succ fuel ih =>
    intro p t offset payload p2 t2 offset2 payload2 h hty
    simp only [cell_loop] at h
    split at h
    · simp at h
    · rename_i s vil p1 hv
      split at h
      · simp at h
      split at h
      · simp at h
      split at h
      · simp at h
      rename_i h10
      have hnew : ∀ (c0 c : cell), c.t = (serial_switch s).1 →
          ∀ i, i < t + 1 → rendered_type ((upd (upd payload.cells t c0) t c) i).t = true := by
        intro c0 c hc i hi
        by_cases hit : i = t
        · subst hit
          simp only [upd, if_true]
          rw [hc]
          exact serial_switch_type s h10
        · simp only [upd, if_neg hit]
          exact hty i (by omega)
      split at h
      · simp at h
      split at h
      · simp at h
      split at h
      · simp only [Res.ok.injEq, Prod.mk.injEq, Option.some.injEq] at h
        obtain ⟨⟨h1, h2, h3⟩, h4⟩ := h
        subst h1 h2 h3 h4
        intro i hi
        exact hnew _ _ rfl i (by omega)
      split at h
      · simp at h
      · exact ih _ _ _ _ _ _ _ _ h (fun i hi => hnew _ _ rfl i hi)

theorem decode_cells_types (g : globals) (base plh_start p : Nat) (payload : sql_payload)
    (out : List String) (mode : Int) (d : decoded)
    (h : decode_cells g base plh_start p payload out mode = .ok d) (hret : d.ret ≠ 0)
    (hcc : payload.cell_count = 0) :
    0 ≤ d.payload.cell_count ∧
    ∀ i : Nat, (i : Int) ≤ d.payload.cell_count →
      rendered_type (d.payload.cells i).t = true := by
  unfold decode_cells at h
  split at h
  · simp at h; subst h; simp at hret
  split at h
  · simp at h; subst h; simp at hret
  dsimp only at h
  split at h
  · simp at h
  · simp at h; subst h; simp at hret
  · rename_i p2 t2 offset2 payload2 hl
    have inv := cell_loop_invariant _ _ _ _ _ _ _ _ _ _ _ _ hl (by simp [hcc]) (by simp [sum_sizes])
    have hc2 : payload2.cell_count = t2 := inv.1
    have hty := cell_loop_types _ _ _ _ _ _ _ _ _ _ _ _ hl (fun i hi => absurd hi (by omega))
    have key : 0 ≤ payload2.cell_count ∧
        ∀ i : Nat, (i : Int) ≤ payload2.cell_count →
          rendered_type (payload2.cells i).t = true := by
      rw [hc2]
      exact ⟨by omega, fun i hi => hty i (by omega)⟩
    split at h
    · simp at h; subst h; simp at hret
    split at h
    · simp only [Res.ok.injEq] at h
      subst h
      exact key
    split at h
    · simp only [Res.ok.injEq] at h
      subst h
      exact key
    · simp at h; subst h; simp at hret

theorem decode_row_types (g : globals) (p data_endpoint : Nat) (payload : sql_payload)
    (mode : Int) (forced_length : Nat) (d : decoded)
    (h : decode_row g p data_endpoint payload mode forced_length = .ok d) (hret : d.ret ≠ 0) :
    0 ≤ d.payload.cell_count ∧
    ∀ i : Nat, (i : Int) ≤ d.payload.cell_count →
      rendered_type (d.payload.cells i).t = true := by
  unfold decode_row at h
  split at h
  · simp at h
  · rename_i d2 hh
    simp only [Res.ok.injEq] at h
    subst h
    exact absurd ((decode_head_result _ _ _ _ _).1 _ hh) hret
  · rename_i payload1 plh_start p1 hh
    have hc1 : payload1.cell_count = 0 := (decode_head_result _ _ _ _ _).2 _ _ _ hh
    split at h
    · simp at h
    · rename_i rejected payload2 out hov
      have hc2 : payload2.cell_count = 0 := by
        split at hov
        · rw [(overflow_chain_fields _ _ _ _ _ _ hov).2.2.2.2.1]
          exact hc1
        · simp only [Res.ok.injEq, Prod.mk.injEq] at hov
          obtain ⟨-, h2, -⟩ := hov
          subst h2
          exact hc1
      split at h
      · simp at h; subst h; simp at hret
      · exact decode_cells_types _ _ _ _ _ _ _ _ h hret hc2

/-! ## Lemmas: `dump_row` on cells of the rendered types -/

theorem with_view_flag (m : mapped) (o : Int) (n : Nat) (k : List Nat → dump_state)
    (st2 : dump_state) : with_view m o n k ≠ .ok (true, st2) := by
  unfold with_view
  split
  · simp
  · simp

theorem ok_flag (st st2 : dump_state) :
    (Res.ok (false, st) : Res (Bool × dump_state)) ≠ .ok (true, st2) := by
  simp

theorem dump_cell_flag (g : globals) (h : host) (m : mapped) (t : Nat) (c : cell)
    (st st2 : dump_state) (hc : rendered_type c.t = true) :
    dump_cell g h m t c st ≠ .ok (true, st2) := by
  unfold rendered_type at hc
  simp only [decide_eq_true_eq] at hc
  unfold dump_cell
  dsimp only
  by_cases h0 : c.t = 0
  · rw [if_pos h0]
    exact ok_flag _ _
  rw [if_neg h0]
  by_cases h1 : c.t = 1
  · rw [if_pos h1]
    exact with_view_flag _ _ _ _ _
  rw [if_neg h1]
  by_cases h2 : c.t = 2
  · rw [if_pos h2]
    exact with_view_flag _ _ _ _ _
  rw [if_neg h2]
  by_cases h3 : c.t = 3
  · rw [if_pos h3]
    exact with_view_flag _ _ _ _ _
  rw [if_neg h3]
  by_cases h4 : c.t = 4
  · rw [if_pos h4]
    exact with_view_flag _ _ _ _ _
  rw [if_neg h4]
  by_cases h5 : c.t = 5 ∨ c.t = 6
  · rw [if_pos h5]
    exact with_view_flag _ _ _ _ _
  rw [if_neg h5]
  by_cases h7 : c.t = 7
  · rw [if_pos h7]
    exact with_view_flag _ _ _ _ _
  rw [if_neg h7]
  by_cases h8 : c.t = 8
  · rw [if_pos h8]
    exact ok_flag _ _
  rw [if_neg h8]
  by_cases h9 : c.t = 9
  · rw [if_pos h9]
    exact ok_flag _ _
  rw [if_neg h9]
  by_cases h12 : c.t = 12
  · rw [if_pos h12]
    by_cases hb : g.report_blobs ≠ 0
    · rw [if_pos hb]
      by_cases hl : to_u64 c.s < g.blob_size_limit
      · rw [if_pos hl]
        exact with_view_flag _ _ _ _ _
      · rw [if_neg hl]
        exact with_view_flag _ _ _ _ _
    · rw [if_neg hb]
      exact ok_flag _ _
  rw [if_neg h12]
  by_cases h13 : c.t = 13
  · rw [if_pos h13]
    exact with_view_flag _ _ _ _ _
  · omega

theorem dump_cells_flag (g : globals) (h : host) (m : mapped) (payload : sql_payload) :
    ∀ (ts : List Nat) (st st2 : dump_state),
      (∀ t ∈ ts, rendered_type (payload.cells t).t = true) →
      dump_cells g h m payload ts st ≠ .ok (true, st2) := by
  intro ts
  induction ts with
  | nil =>
    intro st st2 _
    simp [dump_cells]
  | cons t rest ih =>
    intro st st2 hty
    simp only [dump_cells]
    split
    · simp
    · split
      · simp
      · rename_i st3 hc
        exact absurd hc (dump_cell_flag _ _ _ _ _ _ _ (hty t (List.mem_cons_self _ _)))
      · exact ih _ _ (fun u hu => hty u (List.mem_cons_of_mem _ hu))

theorem dump_map_early (g : globals) (base data_endpoint : Nat) (payload : sql_payload)
    (r : Int) (out : String) (hm : dump_map g base data_endpoint payload = .ok (.inl r, out)) :
    r = -1 := by
  unfold dump_map at hm
  split at hm
  · simp only [Res.ok.injEq, Prod.mk.injEq, Sum.inl.injEq] at hm
    exact hm.1.symm
  split at hm
  · simp at hm
  split at hm
  · simp at hm
  · simp only [Res.ok.injEq, Prod.mk.injEq, Sum.inl.injEq] at hm
    exact hm.1.symm
  · dsimp only at hm
    split at hm
    · simp only [Res.ok.injEq, Prod.mk.injEq, Sum.inl.injEq] at hm
      exact hm.1.symm
    split at hm
    · simp at hm
    split at hm
    · simp at hm
    split at hm
    · simp at hm
    split at hm
    · simp at hm
    split at hm
    · simp at hm
    · simp only [Res.ok.injEq, Prod.mk.injEq, Sum.inl.injEq] at hm
      exact hm.1.symm
    · simp at hm

theorem dump_row_newline (g : globals) (h : host) (base data_endpoint : Nat)
    (payload : sql_payload) (mode : Int) (r : dumped)
    (hty : ∀ i : Nat, (i : Int) ≤ payload.cell_count →
      rendered_type (payload.cells i).t = true)
    (hr : dump_row g h base data_endpoint payload mode = .ok r) (h0 : r.ret = 0) :
    ∃ s, r.out = s ++ "\n" := by
  unfold dump_row at hr
  split at hr
  · simp at hr
  · rename_i r1 out hm
    simp only [Res.ok.injEq] at hr
    subst hr
    have := dump_map_early _ _ _ _ _ _ hm
    simp only at h0
    omega
  · rename_i m out hm
    dsimp only at hr
    split at hr
    · simp at hr
    · rename_i st hc
      refine absurd hc (dump_cells_flag _ _ _ _ _ _ _ ?_)
      intro t ht
      rw [List.mem_range] at ht
      exact hty t (by omega)
    · rename_i st hc
      simp only [Res.ok.injEq] at hr
      subst hr
      exact ⟨_, rfl⟩

/-! ## Lemmas: varints of one and two bytes -/

theorem spec_varint_one (v : Nat) (hv : v < 128) :
    spec_varint_len v = 1 ∧ spec_varint_encode v = [v] := by
  have hl : spec_varint_len v = 1 := by
    unfold spec_varint_len
    rw [if_pos (by omega)]
  refine ⟨hl, ?_⟩
  unfold spec_varint_encode
  rw [hl]
  simp [List.range_succ]
  omega

theorem spec_varint_two (v : Nat) (h1 : 128 ≤ v) (h2 : v < 16384) :
    spec_varint_len v = 2 ∧ spec_varint_encode v = [v / 128 + 128, v % 128] := by
  have hl : spec_varint_len v = 2 := by
    unfold spec_varint_len
    rw [if_neg (by omega), if_pos (by omega)]
  refine ⟨hl, ?_⟩
  unfold spec_varint_encode
  rw [hl]
  have hq : v / 128 < 128 := by omega
  simp [List.range_succ]
  omega

theorem and_high : ∀ a, a < 128 →
    (((a + 128) % 256) &&& 0x80 ≠ 0 ∧ ((a + 128) % 256) &&& 0x7f = a) := by
  decide

theorem shift_or_small (a b : Nat) (ha : a < 128) (hb : b < 128) :
    ((a <<< 7) % 18446744073709551616) ||| b = a * 128 + b := by
  have e1 : a <<< 7 = 2 ^ 7 * a := by rw [Nat.shiftLeft_eq, Nat.mul_comm]
  have e2 : (2 ^ 7 * a) % 18446744073709551616 = 2 ^ 7 * a := Nat.mod_eq_of_lt (by omega)
  rw [e1, e2, ← Nat.mul_add_lt_is_or (by omega : b < 2 ^ 7) a]
  omega

theorem varint_loop_one_byte (b : Nat) (rest : List Nat) (hb : b < 128) :
    varint_loop (b :: rest) 0 0 0 = .ok (b, 1) := by
  obtain ⟨a1, a2⟩ := and_small b hb
  have hm : b % 256 = b := Nat.mod_eq_of_lt (by omega)
  simp [varint_loop, hm, a1, a2]

theorem varint_loop_two_bytes (a b : Nat) (rest : List Nat) (ha : a < 128) (hb : b < 128) :
    varint_loop ((a + 128) :: b :: rest) 0 0 0 = .ok (a * 128 + b, 2) := by
  obtain ⟨a1, a2⟩ := and_high a ha
  obtain ⟨b1, b2⟩ := and_small b hb
  have hm : b % 256 = b := Nat.mod_eq_of_lt (by omega)
  have hs := shift_or_small a b ha hb
  simp only [varint_loop]
  rw [if_neg (by decide), if_neg a1, if_neg (by decide), hm, if_pos b1, a2, b2]
  simp only [Nat.zero_shiftLeft, Nat.zero_mod, Nat.zero_or, hs]
  rfl

theorem varint_decode_at (pre bytes tail : List Nat) (v : Nat) (len : Int)
    (h : varint_loop (bytes ++ tail) 0 0 0 = .ok (v, len)) :
    varint_decode (pre ++ bytes ++ tail) pre.length = .ok (v, len, pre.length + len.toNat) := by
  unfold varint_decode
  rw [List.append_assoc, List.drop_left, h]

/-! ## Lemmas: varints in the format's encoding -/

set_option maxRecDepth 100000

/-- C1: when `decode_row` in Normal mode returns 1, the sizes recorded for the cells
`0 .. cell_count` plus `header_size` add up to the decoded `length`, and the decoded
row id is at least 1.  The two side conditions are the ranges of the C types:
`page_size` is a `uint32_t`, and a mapped file is shorter than `2 ^ 63` bytes. -/
theorem decode_row_normal_accept (g : globals) (p data_endpoint : Nat) (payload : sql_payload)
    (forced_length : Nat)
    (hps : g.page_size < 4294967296) (hdb : g.db_size < 9223372036854775808)
    (h : ret_of (decode_row g p data_endpoint payload DECODE_MODE_NORMAL forced_length) = some 1) :
    ∃ d, decode_row g p data_endpoint payload DECODE_MODE_NORMAL forced_length = .ok d ∧
      cell_size_sum d.payload + d.payload.header_size = d.payload.length ∧
      1 ≤ d.payload.rowid := by
  cases hd : decode_row g p data_endpoint payload DECODE_MODE_NORMAL forced_length with
  | fault f => rw [hd] at h; simp [ret_of] at h
  | ok d =>
    rw [hd] at h
    simp only [ret_of, Option.some.injEq] at h
    refine ⟨d, rfl, ?_⟩
    unfold decode_row at hd
    split at hd
    · simp at hd
    · simp only [Res.ok.injEq] at hd
      rename_i d2 hh
      subst hd
      exfalso
      unfold decode_head at hh
      have hm : ¬ (DECODE_MODE_NORMAL = DECODE_MODE_FREESPACE) := by decide
      simp only [hm, if_false] at hh
      repeat' split at hh
      all_goals simp at hh
      all_goals (subst hh; simp at h)
    · rename_i payload1 plh_start p1 hh
      have hhead := decode_head_normal _ _ _ _ _ _ _ hh
      split at hd
      · simp at hd
      · rename_i rejected payload2 out hov
        split at hd
        · simp at hd; subst hd; simp at h
        · have hf : payload2.length = payload1.length ∧ payload2.rowid = payload1.rowid ∧
              payload2.cell_count = payload1.cell_count := by
            split at hov
            · have := overflow_chain_fields _ _ _ _ _ _ hov
              exact ⟨this.1, this.2.2.1, this.2.2.2.2.1⟩
            · simp only [Res.ok.injEq, Prod.mk.injEq] at hov
              obtain ⟨-, h2, -⟩ := hov
              subst h2
              exact ⟨rfl, rfl, rfl⟩
          have hacc := decode_cells_accept_normal g p plh_start p1 payload2 out d hps
            (by unfold globals.db_size at *; omega) (by omega) hd h
          refine ⟨hacc.1, ?_⟩
          omega

/-- The invariant of C1 on the record of `c1_db`, which `decode_row` accepts. -/
theorem decode_row_normal_accept_witness :
    ret_of (decode_row (UNDARK_init c1_db 512 2) 520 1024 empty_payload DECODE_MODE_NORMAL 0) = some 1 ∧
    ∃ d, decode_row (UNDARK_init c1_db 512 2) 520 1024 empty_payload DECODE_MODE_NORMAL 0 = .ok d ∧
      cell_size_sum d.payload + d.payload.header_size = d.payload.length ∧
      1 ≤ d.payload.rowid :=
  ⟨by decide, decode_row_normal_accept (UNDARK_init c1_db 512 2) 520 1024 empty_payload 0
    (by decide) (by decide) (by decide)⟩

/-- C2: on the three bytes 0x81 0x80 0x00 (first byte with a clear high bit at index 2)
`varint_decode` returns length 3 and end cursor 3, but the value 2097152, while the
fold `value := (value << 7) | (b & 0x7F)` over the three bytes gives 16384: the code
shifts the accumulated value by 0, 7, 14, ... bits instead of 7 bits per byte. -/
theorem varint_decode_shift_accumulates :
    varint_decode [0x81, 0x80, 0x00] 0 = .ok (2097152, 3, 3) ∧
    spec_varint_value [0x81, 0x80, 0x00] = 16384 := by
  decide

/-- C3: the round trip fails at `v = 16384`, whose encoding is 0x81 0x80 0x00:
`varint_decode` returns the length 3 of the encoding but the value 2097152. -/
theorem varint_round_trip_fails_at_16384 :
    spec_varint_encode 16384 = [0x81, 0x80, 0x00] ∧
    varint_decode (spec_varint_encode 16384) 0 = .ok (2097152, 3, 3) := by
  decide

/-- C4 (counterexample): on nine bytes with the high bit set followed by 0x7f,
`varint_decode` reports no failure; it returns a value and the consumed length 10. -/
theorem varint_decode_consumes_ten_bytes :
    varint_decode c4_bytes 0 = .ok (9223372036854775935, 10, 10) := by
  decide

/-- C4 (amended): `varint_decode` has no cap of 9 bytes and no failure result.  On every
input whose first byte with a clear high bit is at index `k`, for `k` up to 9, it
returns the consumed length `k + 1` and the end cursor `start + k + 1`; so it consumes
10 bytes when the first 9 bytes all have the high bit set and the tenth has not. -/
theorem varint_decode_stops_at_first_clear (db : List Nat) (p k : Nat) (hk : k ≤ 9)
    (hset : ∀ i, i < k → ∃ b, byte_at db (p + i) = some b ∧ b &&& 0x80 ≠ 0)
    (hclr : ∃ b, byte_at db (p + k) = some b ∧ b &&& 0x80 = 0) :
    ∃ value, varint_decode db p = .ok (value, (k : Int) + 1, p + k + 1) := by
  have h1 : ∀ i, i < k → ∃ b, (db.drop p)[i]? = some b ∧ (b % 256) &&& 0x80 ≠ 0 := by
    intro i hi
    obtain ⟨b, hb, hc⟩ := hset i hi
    rw [byte_at_drop] at hb
    split at hb
    · rename_i b0 hb0
      simp only [Option.some.injEq] at hb
      subst hb
      exact ⟨b0, hb0, hc⟩
    · simp at hb
  have h2 : ∃ b, (db.drop p)[k]? = some b ∧ (b % 256) &&& 0x80 = 0 := by
    obtain ⟨b, hb, hc⟩ := hclr
    rw [byte_at_drop] at hb
    split at hb
    · rename_i b0 hb0
      simp only [Option.some.injEq] at hb
      subst hb
      exact ⟨b0, hb0, hc⟩
    · simp at hb
  obtain ⟨v2, hv2⟩ := varint_loop_stops k (db.drop p) 0 0 0 (by omega) h1 h2
  refine ⟨v2, ?_⟩
  unfold varint_decode
  rw [hv2]
  simp
  omega

/-- The amended C4 on `c4_bytes`, where the first byte with a clear high bit has
index 9. -/
theorem varint_decode_stops_at_first_clear_witness :
    ∃ value, varint_decode c4_bytes 0 = .ok (value, ((9 : Nat) : Int) + 1, 0 + 9 + 1) :=
  varint_decode_stops_at_first_clear c4_bytes 0 9 (by decide)
    (fun i hi => by
      interval_cases i <;> exact ⟨255, by decide, by decide⟩)
    ⟨127, by decide, by decide⟩

/-- C5: a record `decode_row` accepts whose first serial type is `N = 2 ^ 42 + 12`, an
even code above 12.  The recorded type is 12, but the recorded size is 0 and not
`(N - 12) / 2 = 2 ^ 41`: the size is stored in an `int`. -/
theorem decode_row_serial_size_truncated :
    varint_decode c5_db 523 = .ok (4398046511116, 4, 527) ∧
    (4398046511116 - 12) / 2 = 2199023255552 ∧
    ret_of (decode_row (UNDARK_init c5_db 512 2) 520 1024 empty_payload DECODE_MODE_NORMAL 0) = some 1 ∧
    (payload_of (decode_row (UNDARK_init c5_db 512 2) 520 1024 empty_payload DECODE_MODE_NORMAL 0)).map
      (fun payload => payload.cells 0) = some { t := 12, o := 9, s := 0 } := by
  decide

/-- C6: a record with exactly two serial types whose length fields are consistent is
rejected under the default limits (2 and 1000), and accepted, with `cell_count = 1`,
once `cc_min` is 1: the limits are compared with the index of the last cell, which is
one less than the number of serial types. -/
theorem decode_row_two_cells_rejected :
    ret_of (decode_row (UNDARK_init c6_db 512 2) 520 1024 empty_payload DECODE_MODE_NORMAL 0) = some 0 ∧
    ret_of (decode_row { UNDARK_init c6_db 512 2 with cc_min := 1 } 520 1024 empty_payload
      DECODE_MODE_NORMAL 0) = some 1 ∧
    (payload_of (decode_row { UNDARK_init c6_db 512 2 with cc_min := 1 } 520 1024 empty_payload
      DECODE_MODE_NORMAL 0)).map
      (fun payload => (payload.cell_count, payload.header_size, cell_size_sum payload, payload.length))
      = some (1, 3, 8, 11) := by
  decide

/-- C7: in FreeBlock mode with forced length 14, `decode_row` accepts (returns 25) a
record with `header_size = 11` and ten cells of size 1: the sum of the cell sizes is
10, the expected body length `14 - 4 - 11` is negative, and the code has wrapped it
to `2 ^ 64 - 1`. -/
theorem decode_row_freeblock_length_wraps :
    ret_of (decode_row (UNDARK_init c7_db 512 2) 524 1024 empty_payload DECODE_MODE_FREESPACE 14)
      = some 25 ∧
    (payload_of (decode_row (UNDARK_init c7_db 512 2) 524 1024 empty_payload
      DECODE_MODE_FREESPACE 14)).map
      (fun payload => (cell_size_sum payload, payload.header_size, payload.length))
      = some (10, 11, 18446744073709551615) ∧
    ¬ ((10 : Int) ≤ 14 - 4 - 11) := by
  decide

/-- C8: `decode_row` accepts a record, without overflow chain, that starts 14 bytes
before the end of the last page and whose last cell has offset 8 and size 10, which
add up to 18.  The
payload view of `dump_row` is the page window of 14 bytes, and rendering the row reads
beyond the end of the mapped file. -/
theorem decode_row_cell_outside_view :
    ret_of (decode_row (UNDARK_init c8_db 512 2) 1010 1024 empty_payload DECODE_MODE_NORMAL 0) = some 1 ∧
    (payload_of (decode_row (UNDARK_init c8_db 512 2) 1010 1024 empty_payload DECODE_MODE_NORMAL 0)).map
      (fun payload => (payload.overflow_pages 0, payload.cell_count, payload.cells 2))
      = some (0, 2, { t := 13, o := 8, s := 10 }) ∧
    (payload_of (decode_row (UNDARK_init c8_db 512 2) 1010 1024 empty_payload DECODE_MODE_NORMAL 0)).bind
      (fun payload => (view_of (dump_map (UNDARK_init c8_db 512 2) 1010 1024 payload)).map
        (fun m => m.endpoint)) = some 14 ∧
    (payload_of (decode_row (UNDARK_init c8_db 512 2) 1010 1024 empty_payload DECODE_MODE_NORMAL 0)).bind
      (fun payload => fault_of (dump_row (UNDARK_init c8_db 512 2) host0 1010 1024 payload
        DECODE_MODE_NORMAL)) = some Fault.oob_read := by
  decide

/-- C9: the file `c9_db` holds a record whose overflow chain consists of exactly 10000
pages lying inside the file (page `j + 3` points to page `j + 4`, the last one to 0).
`decode_row` accepts the record but records no chain: it writes `ERROR: No more space
for overflow pages` and leaves `overflow_pages[0] = 0`, so the payload view of
`dump_row` is the page window of 504 bytes and not a payload of
`500 + 10000 * 508` bytes. -/
theorem decode_row_discards_chain_of_10000 :
    read32be c9_db 1020 = .ok 3 ∧
    (∀ j, j < 10000 →
      page_address (UNDARK_init c9_db 512 10002) (j + 3) + 512 ≤ c9_db.length ∧
      read32be c9_db (page_address (UNDARK_init c9_db 512 10002) (j + 3)) = .ok (c9_next j)) ∧
    ∃ d, decode_row (UNDARK_init c9_db 512 10002) 520 1024 empty_payload DECODE_MODE_NORMAL 0
        = .ok d ∧
      d.ret = 1 ∧ d.payload.overflow_pages 0 = 0 ∧
      d.out = ["ERROR: No more space for overflow pages\n"] ∧
      (view_of (dump_map (UNDARK_init c9_db 512 10002) 520 1024 d.payload)).map
        (fun m => m.endpoint) = some 504 := by
  refine ⟨c9_first_page, ?_, ?_⟩
  · intro j hj
    have e3 : page_address (UNDARK_init c9_db 512 10002) (j + 3) = 1024 + 512 * j := by
      show ((j + 3 - 1) * 512) % 4294967296 = 1024 + 512 * j
      omega
    rw [e3, c9_db_length]
    exact ⟨by omega, c9_db_next j hj⟩
  · obtain ⟨d, hd, d1, d2, d3, d4⟩ := c9_decode_row
    refine ⟨d, hd, d1, d2, d4, ?_⟩
    have e : ∀ db : List Nat, (UNDARK_init db 512 10002).db_size = db.length := fun _ => rfl
    rw [dump_map_no_chain _ _ _ _ d2 (by rw [d3, e, c9_db_length]; omega)]
    norm_num

/-- C10: the record of `c10_wrap_db` has the overflow chain 3, 8388612.  Page 8388612
lies outside the file of 2048 bytes: it starts at byte 4294968832.  The address the
code computes for it, `(page - 1) * page_size` in `uint32_t`, is 1536, inside the
file, so neither `decode_row` nor `dump_row` notices: `decode_row` accepts the record
with both links recorded, and `dump_row` returns 0 and writes the row. -/
theorem dump_row_wrapped_link_printed :
    (UNDARK_init c10_wrap_db 512 4).db_size = 2048 ∧
    ret_of (decode_row (UNDARK_init c10_wrap_db 512 4) 920 1024 empty_payload
      DECODE_MODE_NORMAL 0) = some 1 ∧
    (c10_wrap_payload.overflow_pages 0, c10_wrap_payload.overflow_pages 1,
      c10_wrap_payload.overflow_pages 2) = (3, 8388612, 0) ∧
    (8388612 - 1) * (UNDARK_init c10_wrap_db 512 4).page_size = 4294968832 ∧
    page_address (UNDARK_init c10_wrap_db 512 4) 8388612 = 1536 ∧
    dump_result (dump_row (UNDARK_init c10_wrap_db 512 4) host0 920 1024 c10_wrap_payload
      DECODE_MODE_NORMAL) = some (0, c10_wrap_text) :=
  ⟨by decide!, by decide!, by decide!, by decide, by decide, by decide!⟩

/-- C11: `decode_row` compares only the first link of an overflow chain with the page
count.  The record of `c10_db` has the chain 3, 9 in a file of three pages:
`decode_row` returns 1 for it and leaves both page numbers, 3 and 9, in
`overflow_pages`.  The same record with 9 as its first link, in `c11_first_db`, is
rejected: there `decode_row` returns 0. -/
theorem decode_row_records_link_above_page_count :
    (UNDARK_init c10_db 512 3).page_count = 3 ∧
    ret_of (decode_row (UNDARK_init c10_db 512 3) 520 1024 empty_payload
      DECODE_MODE_NORMAL 0) = some 1 ∧
    (payload_of (decode_row (UNDARK_init c10_db 512 3) 520 1024 empty_payload
      DECODE_MODE_NORMAL 0)).map (fun q => (q.overflow_pages 0, q.overflow_pages 1)) =
      some (3, 9) ∧
    ret_of (decode_row (UNDARK_init c11_first_db 512 3) 520 1024 empty_payload
      DECODE_MODE_NORMAL 0) = some 0 := by
  decide

/-- C12 (counterexample): the chain of the record of `c12_db` never ends,
and `decode_row` returns 1 for it, after writing the error line. -/
theorem decode_row_accepts_endless_chain :
    ∃ d, decode_row (UNDARK_init c12_db 512 3) 520 1024 empty_payload DECODE_MODE_NORMAL 0
        = .ok d ∧
      d.ret = 1 ∧ d.out = ["ERROR: No more space for overflow pages\n"] := by
  obtain ⟨X, hX, -⟩ := overflow_chain_cap (UNDARK_init c12_db 512 3) 1024 c9_head
    (fun _ => 3) (by decide) (by decide) (by decide) (fun _ _ => c12_chain_step)
  obtain ⟨d, hd, d1, d2⟩ := c12_cells X ["ERROR: No more space for overflow pages\n"]
  exact ⟨d, decode_row_at_cap _ _ _ _ _ _ _ _ _ X _ d c12_head (by decide) hX hd, d1, d2⟩

/-- C12 (amended): when the walk of the overflow chain reads 10000 pages `c 0`, `c 1`,
..., each inside the file, `decode_row` does not return 0 on that account: it writes
the error line, clears `overflow_pages[0]` and goes on with the serial types, so that
its result is the one of the cell decoding for the descriptor without chain. -/
theorem decode_row_chain_cap_continues (g : globals) (p data_endpoint : Nat)
    (payload : sql_payload) (mode : Int) (forced_length : Nat) (payload1 : sql_payload)
    (plh_start p1 : Nat) (c : Nat → Nat)
    (h1 : decode_head g p payload mode forced_length = .ok (.inr (payload1, plh_start, p1)))
    (h2 : payload1.length > sub32 g.page_size 35)
    (h4 : 4 ≤ data_endpoint)
    (hfirst : read32be g.db (data_endpoint - 4) = .ok (c 0))
    (hpc : c 0 ≤ g.page_count)
    (hc : ∀ i, i ≤ 9999 → 0 < c i ∧ (page_address g (c i) : Int) ≤ g.db_end - 4 ∧
        read32be g.db (page_address g (c i)) = .ok (c (i + 1))) :
    ∃ X, X 0 = 0 ∧
      decode_row g p data_endpoint payload mode forced_length =
        decode_cells g p plh_start p1 { payload1 with overflow_pages := X }
          ["ERROR: No more space for overflow pages\n"] mode := by
  obtain ⟨X, hX, hX0⟩ := overflow_chain_cap g data_endpoint payload1 c (by omega) hfirst
    (by omega) (fun i hi => by simpa using hc i hi)
  refine ⟨X, hX0, ?_⟩
  rw [decode_row_stages g p data_endpoint payload mode forced_length payload1 plh_start p1
    false _ _ h1 h2 hX]
  rfl

theorem decode_row_chain_cap_continues_witness :
    ∃ X, X 0 = 0 ∧
      decode_row (UNDARK_init c12_db 512 3) 520 1024 empty_payload DECODE_MODE_NORMAL 0 =
        decode_cells (UNDARK_init c12_db 512 3) 520 523 524
          { c9_head with overflow_pages := X }
          ["ERROR: No more space for overflow pages\n"] DECODE_MODE_NORMAL :=
  decode_row_chain_cap_continues (UNDARK_init c12_db 512 3) 520 1024 empty_payload
    DECODE_MODE_NORMAL 0 c9_head 523 524 (fun _ => 3) c12_head (by decide) (by decide)
    (by decide) (by decide) (fun _ _ => c12_chain_step)

/-- C13: a decode attempt of `find_next_row` in Normal mode at the start of a run of at
least ten bytes 0xFF leaves defined behaviour: `varint_decode` has no bound on the
bytes it takes, reads ten bytes 0xFF and then shifts a 64-bit value by 70 bits.  The
scan ends there, with no row printed, and nothing is promised for what the program
does from there on. -/
theorem find_next_row_ff_window_faults (g : globals) (h : host) (pre post : List Nat)
    (n end_point forced_length : Nat) (sql : sql_payload) (st : scan_state)
    (hdb : g.db = pre ++ List.replicate n 255 ++ post) (hn : 10 ≤ n) :
    (find_next_row g h pre.length end_point DECODE_MODE_NORMAL forced_length sql st).fault =
      some Fault.shift_range ∧
    (find_next_row g h pre.length end_point DECODE_MODE_NORMAL forced_length sql st).attempts =
      st.attempts ++ [pre.length] ∧
    (find_next_row g h pre.length end_point DECODE_MODE_NORMAL forced_length sql st).dumps =
      st.dumps ∧
    (find_next_row g h pre.length end_point DECODE_MODE_NORMAL forced_length sql st).out =
      st.out := by
  have hbody : ∀ st0 : scan_state,
      find_next_row_body g h end_point DECODE_MODE_NORMAL pre.length forced_length sql st0 =
        ({ st0 with attempts := st0.attempts ++ [pre.length], fault := some .shift_range },
          sql, none) := by
    intro st0
    unfold find_next_row_body
    dsimp only
    rw [decode_row_ff g pre post n end_point sql forced_length hdb hn]
  unfold find_next_row
  simp only [find_next_row_loop, hbody]
  exact ⟨trivial, trivial, trivial, trivial⟩

theorem find_next_row_ff_window_faults_witness :
    ((find_next_row (UNDARK_init c13_db 512 2) host0 (file_header 2).length 1024
        DECODE_MODE_NORMAL 0 empty_payload scan_start).fault = some Fault.shift_range ∧
      (find_next_row (UNDARK_init c13_db 512 2) host0 (file_header 2).length 1024
        DECODE_MODE_NORMAL 0 empty_payload scan_start).attempts =
        scan_start.attempts ++ [(file_header 2).length] ∧
      (find_next_row (UNDARK_init c13_db 512 2) host0 (file_header 2).length 1024
        DECODE_MODE_NORMAL 0 empty_payload scan_start).dumps = scan_start.dumps ∧
      (find_next_row (UNDARK_init c13_db 512 2) host0 (file_header 2).length 1024
        DECODE_MODE_NORMAL 0 empty_payload scan_start).out = scan_start.out) ∧
    (file_header 2).length = 512 ∧
    (main (plain_run c13_db) host0 empty_payload).calls = [(512, 1024, DECODE_MODE_NORMAL, 0)] ∧
    (main (plain_run c13_db) host0 empty_payload).fault = some Fault.shift_range :=
  ⟨find_next_row_ff_window_faults (UNDARK_init c13_db 512 2) host0 (file_header 2) [] 512 1024
      0 empty_payload scan_start (List.append_nil _).symm (by decide),
    by decide, by decide!, by decide!⟩

/-- C14 (counterexample): the stored value 1 gives the page size 1, not
65536; and the stored value 0x8000 gives 4294934528, the two bytes being read as
signed `char`. -/
theorem main_page_size_one_and_sign :
    (value_of (main_setup (plain_run (c14_header 0 1)))).map globals.page_size = some 1 ∧
    (value_of (main_setup (plain_run (c14_header 128 0)))).map globals.page_size =
      some 4294934528 := by
  decide!

/-- C14 (amended): when the page size is not overridden and the bytes 16 and 17 of the
header are both below 0x80, the page size `main` scans with is the 16-bit big-endian
value of the two bytes, for every file that holds the 40 header bytes `main` reads.
There is no exception for the stored value 1. -/
theorem main_page_size_small_bytes (g : globals) (b16 b17 : Nat)
    (h0 : g.page_size = 0) (hlen : 40 ≤ g.db.length)
    (h16 : byte_at g.db 16 = some b16) (h17 : byte_at g.db 17 = some b17)
    (hs16 : b16 < 128) (hs17 : b17 < 128) :
    (value_of (main_setup g)).map globals.page_size = some (b16 * 256 + b17) := by
  obtain ⟨v1, e1⟩ := read32be_inside g.db 28 (by omega)
  obtain ⟨v2, e2⟩ := read32be_inside g.db 32 (by omega)
  obtain ⟨v3, e3⟩ := read32be_inside g.db 36 (by omega)
  unfold main_setup header_page_size
  rw [if_pos h0, h16, h17, e1, e2, e3]
  simp only [value_of, Option.map_some', int_or_small b16 b17 hs16 hs17]

theorem main_page_size_small_bytes_witness :
    (value_of (main_setup (plain_run c1_db))).map globals.page_size = some (2 * 256 + 0) :=
  main_page_size_small_bytes (plain_run c1_db) 2 0 (by decide) (by decide) (by decide)
    (by decide) (by decide) (by decide)

/-- C15: no run of `main` calls `find_next_row` with the start cursor 0, the origin of
page 1: the test `row > g->db_origin` keeps the page that starts at the origin out of
the search.  The file `c15_db` has one page with a record at offset 500 that
`decode_row` accepts and `dump_row` prints, and the run of `main` on it makes no call
of `find_next_row` and writes nothing. -/
theorem main_skips_first_page :
    (∀ (g : globals) (h : host) (sql : sql_payload),
      0 ∉ (main g h sql).calls.map (fun c => c.1)) ∧
    (main (plain_run c15_db) host0 empty_payload).calls = [] ∧
    (main (plain_run c15_db) host0 empty_payload).out = "" ∧
    (main (plain_run c15_db) host0 empty_payload).fault = none ∧
    ret_of (decode_row (UNDARK_init c15_db 512 1) 500 512 empty_payload
      DECODE_MODE_NORMAL 0) = some 1 ∧
    dump_result (dump_row (UNDARK_init c15_db 512 1) host0 500 512
      (payload_after (decode_row (UNDARK_init c15_db 512 1) 500 512 empty_payload
        DECODE_MODE_NORMAL 0)) DECODE_MODE_NORMAL) = some (0, "1,x7,x8,9\n") :=
  ⟨main_calls, by decide!, by decide!, by decide!, by decide!, by decide!⟩

/-- C16: the first decode attempt of `find_next_row` is made at the start cursor `s`
whatever the end point is: the test `p < end_point - 10` follows the body of the
loop.  Under `--freespace` the run of `main` on `c16_db` calls `find_next_row` with the
start cursor 1020 and the end point 1024, and `decode_row` is attempted at 1020. -/
theorem find_next_row_first_attempt_unguarded :
    (∀ (g : globals) (h : host) (s end_point : Nat) (mode : Int) (forced_length : Nat)
      (sql : sql_payload) (st : scan_state),
      ∃ rest, (find_next_row g h s end_point mode forced_length sql st).attempts =
        st.attempts ++ s :: rest) ∧
    (main (freespace_run c16_db) host0 empty_payload).calls =
      [(1020, 1024, DECODE_MODE_FREESPACE, 8)] ∧
    (main (freespace_run c16_db) host0 empty_payload).attempts = [1020] ∧
    ¬ ((1020 : Int) < 1024 - PAYLOAD_SIZE_MINIMUM) :=
  ⟨find_next_row_first_attempt, by decide!, by decide!, by decide⟩

/-- C17: a scan in FreeBlock mode goes on behind the free block it was given.  Under
`--freespace` the run of `main` on `c17_db` starts at the data of the free block, 524,
with the forced length 14, and prints a row found at 540, which is behind
`524 + 14 - 4`. -/
theorem find_next_row_emits_behind_free_block :
    (main (freespace_run c17_db) host0 empty_payload).calls =
      [(524, 1024, DECODE_MODE_FREESPACE, 14)] ∧
    (main (freespace_run c17_db) host0 empty_payload).dumps = [(540, 0)] ∧
    (main (freespace_run c17_db) host0 empty_payload).out = "-1,x7,x8,9\n" ∧
    524 + 14 - 4 < 540 := by
  decide!

/-- C19: with `removed_only` set `find_next_row` dumps no row at all: every row
`decode_row` accepts has a return value of at least 0 and is passed over.  Under
`--freespace` the run of `main` on `c19_db` prints the deleted record of the free
block with key -1; with `--removed-only` added it attempts the same cursor, goes on
to the end of the page and prints nothing. -/
theorem find_next_row_removed_only_dumps_nothing :
    (main (freespace_run c19_db) host0 empty_payload).out = "-1,x10,x11,9\n" ∧
    (main { freespace_run c19_db with removed_only := 1 } host0 empty_payload).attempts =
      [1000, 1001, 1002, 1003, 1004, 1005, 1006, 1007, 1008, 1009, 1010, 1011, 1012, 1013] ∧
    (main { freespace_run c19_db with removed_only := 1 } host0 empty_payload).dumps = [] ∧
    (main { freespace_run c19_db with removed_only := 1 } host0 empty_payload).out = "" := by
  decide!

/-- C20: for the serial types 3, 5 and 6 `dump_row` does not print the value of the
cell.  The record of `c20_db` holds the number 1 in a cell of each of these types;
`decode_row` accepts it, and `dump_row` prints 256 for the 24-bit cell (on a host
whose uninitialised byte is 0), and 0 for the 48-bit and the 64-bit cell, of which it
reads the first byte only.  The conversions `dump_row` uses for the serial types 1, 2
and 4 are the two's complement ones of 8, 16 and 32 bits. -/
theorem dump_row_wide_integers_wrong :
    ret_of (decode_row (UNDARK_init c20_db 512 2) 520 1024 empty_payload
      DECODE_MODE_NORMAL 0) = some 1 ∧
    dump_result (dump_row (UNDARK_init c20_db 512 2) host0 520 1024
      (payload_after (decode_row (UNDARK_init c20_db 512 2) 520 1024 empty_payload
        DECODE_MODE_NORMAL 0)) DECODE_MODE_NORMAL) = some (0, "1,256,0,0\n") ∧
    (∀ b : Nat, to_signed_byte (b % 256) =
      if b % 256 < 128 then ((b % 256 : Nat) : Int) else ((b % 256 : Nat) : Int) - 256) ∧
    (∀ v : Nat, to_signed_int (v % 65536) =
      if v % 65536 < 32768 then ((v % 65536 : Nat) : Int)
      else ((v % 65536 : Nat) : Int) - 65536) ∧
    (∀ v : Nat, to_signed_long (v % 4294967296) =
      if v % 4294967296 < 2147483648 then ((v % 4294967296 : Nat) : Int)
      else ((v % 4294967296 : Nat) : Int) - 4294967296) :=
  ⟨by decide!, by decide!, to_signed_byte_value, to_signed_int_value, to_signed_long_value⟩

/-- C21: a TEXT cell of 65536 bytes is printed as the empty text.  In every file that
consists of `c21_head` and 65536 further bytes, read with the page size 131072,
`decode_row` accepts the record at offset 520 and records a TEXT cell of size 65536,
and `dump_row` prints the line `1,x7,x8,""` for it: `sqltdump` takes the size as a
`uint16_t`, so that none of the 65536 bytes is represented. -/
theorem dump_row_text_size_truncated (body : List Nat) (hb : body.length = 65536)
    (h : host) :
    ∃ d, decode_row (c21_globals body) 520 66068 empty_payload DECODE_MODE_NORMAL 0 = .ok d ∧
      d.ret = 1 ∧ d.payload.cells 2 = { t := 13, s := 65536, o := 12 } ∧
      dump_result (dump_row (c21_globals body) h 520 66068 d.payload DECODE_MODE_NORMAL) =
        some (0, "1,x7,x8,\"\"\n") := by
  obtain ⟨d, hd, d1, -, d3, d4, d5, d6, d7, d8, d9⟩ := c21_decode_row body hb 66068
  refine ⟨d, hd, d1, d9, ?_⟩
  rw [c21_dump_row body hb h 66068 d.payload d3 d4 d5 d6 d7 d8 d9]
  rfl

/-- The text of 65536 bytes `A` of C21. -/
theorem dump_row_text_size_truncated_witness :
    (List.replicate 65536 65).length = 65536 ∧
    ∃ d, decode_row (c21_globals (List.replicate 65536 65)) 520 66068 empty_payload
        DECODE_MODE_NORMAL 0 = .ok d ∧
      d.ret = 1 ∧ d.payload.cells 2 = { t := 13, s := 65536, o := 12 } ∧
      dump_result (dump_row (c21_globals (List.replicate 65536 65)) host0 520 66068 d.payload
        DECODE_MODE_NORMAL) = some (0, "1,x7,x8,\"\"\n") :=
  ⟨List.length_replicate 65536 65,
    dump_row_text_size_truncated (List.replicate 65536 65) (List.length_replicate 65536 65)
      host0⟩

/-- C22: the name of the sidecar file is not printed.  With `--blob-size-limit=4` the
record of `c22_db`, whose third cell is a BLOB of four bytes, is accepted, and
`dump_row` writes the four bytes to `0.blob` and raises the counter to 1, but the line
it prints is `1,x7,x8,` with nothing in the field of the BLOB.  With the limit 5 the
same cell is printed as `x'DEADBEEF'`. -/
theorem dump_row_blob_file_not_named :
    ret_of (decode_row c22_globals 520 1024 empty_payload DECODE_MODE_NORMAL 0) = some 1 ∧
    dump_result (dump_row c22_globals host0 520 1024
      (payload_after (decode_row c22_globals 520 1024 empty_payload DECODE_MODE_NORMAL 0))
      DECODE_MODE_NORMAL) = some (0, "1,x7,x8,\n") ∧
    dump_files (dump_row c22_globals host0 520 1024
      (payload_after (decode_row c22_globals 520 1024 empty_payload DECODE_MODE_NORMAL 0))
      DECODE_MODE_NORMAL) = some ([("0.blob", [0xDE, 0xAD, 0xBE, 0xEF])], 1) ∧
    dump_result (dump_row c22_inline_globals host0 520 1024
      (payload_after (decode_row c22_inline_globals 520 1024 empty_payload
        DECODE_MODE_NORMAL 0))
      DECODE_MODE_NORMAL) = some (0, "1,x7,x8,x'DEADBEEF'\n") :=
  ⟨by decide!, by decide!, by decide!, by decide!⟩

/-- C23: a record with an overflow chain is printed as two lines.  `decode_row` accepts
the record of `c23_db` at offset 920, whose text continues on page 3, and the text
`dump_row` writes for it is `c23_text`, which holds two newline characters: it starts
with the line `plength 478, total: 986`, which is printed whenever the payload is put
together from overflow pages, and the row `1,x65,x65,"..."` follows. -/
theorem dump_row_overflow_two_lines :
    ret_of (decode_row (UNDARK_init c23_db 512 3) 920 1024 empty_payload
      DECODE_MODE_NORMAL 0) = some 1 ∧
    dump_result (dump_row (UNDARK_init c23_db 512 3) host0 920 1024
      (payload_after (decode_row (UNDARK_init c23_db 512 3) 920 1024 empty_payload
        DECODE_MODE_NORMAL 0)) DECODE_MODE_NORMAL) = some (0, c23_text) ∧
    newlines c23_text = 2 :=
  ⟨by decide!, by decide!, by decide!⟩

/-- C25: for every record `decode_row` accepts, in either mode, the offset recorded
for cell 0 is `prefix_length + header_size` and the offset recorded for cell `i + 1`
is the offset of cell `i` plus its size, for every cell up to the last one,
`cell_count`.  The offsets are `int` fields: the equations hold for the values
converted to `int`, and they hold as they stand when the record, measured from its
start, ends below `2 ^ 31`. -/
theorem decode_row_offsets_contiguous (g : globals) (p data_endpoint : Nat)
    (payload : sql_payload) (mode : Int) (forced_length : Nat) (d : decoded)
    (h : decode_row g p data_endpoint payload mode forced_length = .ok d) (hret : d.ret ≠ 0) :
    (d.payload.cells 0).o =
      to_int32 ((d.payload.prefix_length : Int) + d.payload.header_size) ∧
    (∀ i : Nat, (i : Int) < d.payload.cell_count →
      (d.payload.cells (i + 1)).o =
        to_int32 ((d.payload.cells i).o + (d.payload.cells i).s)) ∧
    (d.payload.prefix_length + d.payload.header_size + d.payload.length < 2147483648 →
      (d.payload.cells 0).o = (d.payload.prefix_length : Int) + d.payload.header_size ∧
      ∀ i : Nat, (i : Int) < d.payload.cell_count →
        (d.payload.cells (i + 1)).o = (d.payload.cells i).o + (d.payload.cells i).s) :=
  decode_row_offsets_step g p data_endpoint payload mode forced_length d h hret

/-- The record of `c26_db`: prefix 2, header size 4, and the cells of the sizes 4, 4
and 1 at the offsets 6, 10 and 14. -/
theorem decode_row_offsets_contiguous_witness :
    c26_payload.prefix_length + c26_payload.header_size + c26_payload.length < 2147483648 ∧
    ((c26_payload.cells 0).o, (c26_payload.cells 1).o, (c26_payload.cells 2).o) = (6, 10, 14) ∧
    (c26_payload.cells 0).o = (c26_payload.prefix_length : Int) + c26_payload.header_size ∧
    ∀ i : Nat, (i : Int) < c26_payload.cell_count →
      (c26_payload.cells (i + 1)).o = (c26_payload.cells i).o + (c26_payload.cells i).s :=
  ⟨by decide, by decide,
    (decode_row_offsets_contiguous (UNDARK_init c26_db 512 2) 520 1024 empty_payload
      DECODE_MODE_NORMAL 0 ⟨1, c26_payload, []⟩ (by rfl) (by decide)).2.2 (by decide)⟩

/-- C26 (counterexample): the header of the record of `c26_db` ends at offset 526, and
its third serial type is the two bytes `80 01` at 525 and 526.  `decode_row` accepts
the record, and the cell loop stops with the cursor at 527, behind the header end: the
varints for the header size and the serial types take 5 bytes, the header size is
4. -/
theorem decode_row_serial_type_straddles :
    ret_of (decode_row (UNDARK_init c26_db 512 2) 520 1024 empty_payload
      DECODE_MODE_NORMAL 0) = some 1 ∧
    decode_head (UNDARK_init c26_db 512 2) 520 empty_payload DECODE_MODE_NORMAL 0 =
      .ok (.inr (c26_head, 522, 523)) ∧
    522 + c26_head.header_size = 526 ∧
    stop_cursor (cell_loop (UNDARK_init c26_db 512 2) 520 526 4 523 0 0 c26_head) =
      some 527 :=
  ⟨by decide, by rfl, by decide, by decide⟩

/-- C26 (amended): for every record `decode_row` accepts, in either mode, the cell loop
stops by `break` with the cursor at or behind the header end
`plh_start + header_size`, where `plh_start` is the cursor of the header size; it
stops less than 8 bytes behind the header end when the first serial type starts before
the header end.  So the varints of the header take at least `header_size` bytes, and
the last serial type may reach over the header end. -/
theorem decode_row_cursor_reaches_header_end (g : globals) (p data_endpoint : Nat)
    (payload : sql_payload) (mode : Int) (forced_length : Nat) (d : decoded)
    (h : decode_row g p data_endpoint payload mode forced_length = .ok d) (hret : d.ret ≠ 0) :
    ∃ (payload1 : sql_payload) (plh_start p1 : Nat) (payload2 : sql_payload) (p2 t2 : Nat)
        (offset2 : Int),
      decode_head g p payload mode forced_length = .ok (.inr (payload1, plh_start, p1)) ∧
      payload2.header_size = payload1.header_size ∧
      cell_loop g p (plh_start + payload1.header_size) payload1.header_size p1 0 0 payload2 =
        .ok (some (p2, t2, offset2), d.payload) ∧
      plh_start + payload1.header_size ≤ p2 ∧
      (p1 < plh_start + payload1.header_size → p2 < plh_start + payload1.header_size + 8) :=
  decode_row_cursor g p data_endpoint payload mode forced_length d h hret

/-- The record of `c10_db`, which `decode_row` accepts. -/
theorem decode_row_cursor_reaches_header_end_witness :
    ∃ (payload1 : sql_payload) (plh_start p1 : Nat) (payload2 : sql_payload) (p2 t2 : Nat)
        (offset2 : Int),
      decode_head (UNDARK_init c10_db 512 3) 520 empty_payload DECODE_MODE_NORMAL 0 =
        .ok (.inr (payload1, plh_start, p1)) ∧
      payload2.header_size = payload1.header_size ∧
      cell_loop (UNDARK_init c10_db 512 3) 520 (plh_start + payload1.header_size)
        payload1.header_size p1 0 0 payload2 = .ok (some (p2, t2, offset2), c10_payload) ∧
      plh_start + payload1.header_size ≤ p2 ∧
      (p1 < plh_start + payload1.header_size → p2 < plh_start + payload1.header_size + 8) :=
  decode_row_cursor_reaches_header_end (UNDARK_init c10_db 512 3) 520 1024 empty_payload
    DECODE_MODE_NORMAL 0 ⟨1, c10_payload, []⟩ (by rfl) (by decide)

/-- C27: the walk of the overflow chain in `decode_row` ends within its bound, whatever
the file holds.  The first page number is read before the loop and stored at index 0;
each pass of the loop reads one link and stores it at the next index, and 10000 passes
are enough for the loop to end, so that it reads at most 10000 links.  No page number
is stored at an index above 10000.  The chain of `c12_db`, whose page 3 names itself
as the next page, is an example: `decode_row` ends without fault for it. -/
theorem overflow_chain_walk_bounded (g : globals) (data_endpoint : Nat)
    (payload : sql_payload) :
    overflow_chain g data_endpoint payload ≠ .fault .fuel ∧
    overflow_chain g data_endpoint payload ≠ .fault .array_bounds ∧
    (∀ (ovp : Nat) (out : List String),
      overflow_loop g OVERFLOW_PAGES_MAX ovp 1 payload out ≠ .fault .fuel ∧
      overflow_loop g OVERFLOW_PAGES_MAX ovp 1 payload out ≠ .fault .array_bounds) ∧
    fault_of (decode_row (UNDARK_init c12_db 512 3) 520 1024 empty_payload
      DECODE_MODE_NORMAL 0) = none := by
  refine ⟨overflow_chain_no_fuel g data_endpoint payload,
    overflow_chain_no_bounds g data_endpoint payload, ?_, ?_⟩
  · intro ovp out
    exact ⟨overflow_loop_no_fuel g OVERFLOW_PAGES_MAX ovp 1 payload out (by decide)
        (by decide),
      overflow_loop_no_bounds g OVERFLOW_PAGES_MAX ovp 1 payload out (by decide)⟩
  · obtain ⟨X, hX, -⟩ := overflow_chain_cap (UNDARK_init c12_db 512 3) 1024 c9_head
      (fun _ => 3) (by decide) (by decide) (by decide) (fun _ _ => c12_chain_step)
    obtain ⟨d, hd, -, -⟩ := c12_cells X ["ERROR: No more space for overflow pages\n"]
    rw [decode_row_at_cap _ _ _ _ _ _ _ _ _ X _ d c12_head (by decide) hX hd]
    rfl

/-- C28: `find_next_row` ends, and its cursor only moves forward.  The side conditions
are the ranges of the C types: `page_size` is a `uint32_t`, a mapped file is shorter
than `2 ^ 63` bytes, `forced_length` is a `size_t`.  Whenever a pass through the loop
body hands a cursor to the loop test, that cursor is above the one the pass started
with.  For a call with the start cursor `s`: the cursors at which `decode_row` is
tried form a strictly increasing list of at most `end_point - s + 1` entries, the
cursors at which `dump_row` runs are taken from it in the same order, and the budget of
`end_point - s + 1` passes is not used up. -/
theorem find_next_row_terminates (g : globals) (h : host) (s end_point : Nat) (mode : Int)
    (forced_length : Nat) (sql : sql_payload) (st : scan_state)
    (hps : g.page_size < 4294967296) (hdb : g.db_size < 9223372036854775808)
    (hfl : forced_length < 18446744073709551616) :
    (∀ (p fl : Nat) (sql1 : sql_payload) (st1 : scan_state) (p2 fl2 : Nat),
      fl < 18446744073709551616 →
      (find_next_row_body g h end_point mode p fl sql1 st1).2.2 = some (p2, fl2) → p < p2) ∧
    ∃ (new : List Nat) (newd : List (Nat × Int)),
      (find_next_row g h s end_point mode forced_length sql st).attempts =
        st.attempts ++ new ∧
      (find_next_row g h s end_point mode forced_length sql st).dumps = st.dumps ++ newd ∧
      new.Pairwise (fun a b => a < b) ∧
      (newd.map (fun x => x.1)).Sublist new ∧
      new.length ≤ end_point - s + 1 ∧
      ((find_next_row g h s end_point mode forced_length sql st).fault = some .fuel →
        st.fault = some .fuel) := by
  constructor
  · intro p fl sql1 st1 p2 fl2 hfl1 hnext
    exact ((find_next_row_body_step g h end_point mode p fl sql1 st1 hps hdb hfl1).2.2.2
      p2 fl2 hnext).1
  · obtain ⟨new, newd, a1, a2, -, a4, a5, a6, a7⟩ := find_next_row_loop_step g h end_point
      mode hps hdb (end_point - s + 1) s forced_length sql
      { st with calls := st.calls ++ [(s, end_point, mode, forced_length)] } hfl (by omega)
    exact ⟨new, newd, a1, a2, a4, a5, a6, a7⟩

/-- The scan of the page of `c1_db`. -/
theorem find_next_row_terminates_witness :
    ∃ (new : List Nat) (newd : List (Nat × Int)),
      (find_next_row (UNDARK_init c1_db 512 2) host0 512 1024 DECODE_MODE_NORMAL 0
        empty_payload scan_start).attempts = scan_start.attempts ++ new ∧
      (find_next_row (UNDARK_init c1_db 512 2) host0 512 1024 DECODE_MODE_NORMAL 0
        empty_payload scan_start).dumps = scan_start.dumps ++ newd ∧
      new.Pairwise (fun a b => a < b) ∧
      (newd.map (fun x => x.1)).Sublist new ∧
      new.length ≤ 1024 - 512 + 1 ∧
      ((find_next_row (UNDARK_init c1_db 512 2) host0 512 1024 DECODE_MODE_NORMAL 0
        empty_payload scan_start).fault = some .fuel → scan_start.fault = some .fuel) :=
  (find_next_row_terminates (UNDARK_init c1_db 512 2) host0 512 1024 DECODE_MODE_NORMAL 0
    empty_payload scan_start (by decide) (by decide) (by decide)).2

/-- C29: the walk of a free-block chain with a cycle does not end.  The leaf page of
`c29_db` names the free block at page offset 8, and the first two bytes of that block
name offset 8 as the next block.  The loop in `main` keeps no record of the offsets it
has seen: whatever number of passes it is given, the walk from offset 8 is not over
after them, and the pass of the page loop over this page stays in it. -/
theorem freeblock_walk_cycle_never_ends :
    byte_at (UNDARK_init c29_db 512 2).db 512 = some 13 ∧
    read16be (UNDARK_init c29_db 512 2).db (512 + 1) = .ok 8 ∧
    read16be (UNDARK_init c29_db 512 2).db (512 + 8) = .ok 8 ∧
    (∀ fuel, freeblock_walk (UNDARK_init c29_db 512 2).db 512 fuel 8 =
      .fault .nontermination) ∧
    main_leaf (UNDARK_init c29_db 512 2) 512 = .fault .nontermination ∧
    ∀ (h : host) (sql : sql_payload) (st : scan_state),
      (main_page (UNDARK_init c29_db 512 2) h sql 512 st).1.fault = some .nontermination :=
  ⟨by decide, by decide, by decide, c29_walk, c29_main_leaf,
    fun h sql st => main_page_leaf_fault _ h sql 512 st _ (by decide) c29_main_leaf⟩

/-- C30: with `cellcount_max` at most 1000, `decode_row` never stores a cell at an
index above 1000, nor an overflow page number at an index above 10000, whatever the
input: neither the cell loop nor the whole call ends in the fault that stands for a
store outside the arrays. -/
theorem decode_row_cells_within_array (g : globals) (p data_endpoint : Nat)
    (payload : sql_payload) (mode : Int) (forced_length : Nat) (hcc : g.cc_max ≤ 1000) :
    (∀ (base plh_ep fuel q : Nat) (payload1 : sql_payload),
      cell_loop g base plh_ep fuel q 0 0 payload1 ≠ .fault .array_bounds) ∧
    decode_row g p data_endpoint payload mode forced_length ≠ .fault .array_bounds :=
  ⟨fun base plh_ep fuel q payload1 =>
      cell_loop_no_bounds g base plh_ep hcc fuel q 0 0 payload1 (by decide),
    decode_row_no_bounds g p data_endpoint payload mode forced_length hcc⟩

/-- The settings of `UNDARK_init`, whose `cc_max` is 1000, on the file `c1_db`. -/
theorem decode_row_cells_within_array_witness :
    (UNDARK_init c1_db 512 2).cc_max ≤ 1000 ∧
    decode_row (UNDARK_init c1_db 512 2) 520 1024 empty_payload DECODE_MODE_NORMAL 0 ≠
      .fault .array_bounds :=
  ⟨by decide,
    (decode_row_cells_within_array (UNDARK_init c1_db 512 2) 520 1024 empty_payload
      DECODE_MODE_NORMAL 0 (by decide)).2⟩

/-- C31: for every record `decode_row` accepts, in either mode, the last cell index
`cell_count` is not negative and each of the cells 0 to `cell_count` has a recorded
type among 0 to 9, 12 and 13, the case labels of the switch of `dump_row`.  So the
cell loop of `dump_row` over these cells never leaves by the `default` branch, on any
view and from any state, and a call of `dump_row` on the record that returns 0 has
written a text that ends in a newline. -/
theorem decode_row_types_all_rendered (g : globals) (h : host) (p data_endpoint : Nat)
    (payload : sql_payload) (mode : Int) (forced_length : Nat) (d : decoded)
    (hd : decode_row g p data_endpoint payload mode forced_length = .ok d)
    (hret : d.ret ≠ 0) :
    0 ≤ d.payload.cell_count ∧
    (∀ i : Nat, (i : Int) ≤ d.payload.cell_count →
      rendered_type (d.payload.cells i).t = true) ∧
    (∀ (m : mapped) (st st2 : dump_state),
      dump_cells g h m d.payload (List.range (d.payload.cell_count + 1).toNat) st ≠
        .ok (true, st2)) ∧
    (∀ (base dump_end : Nat) (dump_mode : Int) (r : dumped),
      dump_row g h base dump_end d.payload dump_mode = .ok r → r.ret = 0 →
        ∃ s, r.out = s ++ "\n") := by
  obtain ⟨hcc, hty⟩ := decode_row_types g p data_endpoint payload mode forced_length d hd hret
  refine ⟨hcc, hty, ?_, ?_⟩
  · intro m st st2
    apply dump_cells_flag
    intro t ht
    rw [List.mem_range] at ht
    exact hty t (by omega)
  · intro base dump_end dump_mode r hr h0
    exact dump_row_newline g h base dump_end d.payload dump_mode r hty hr h0

/-- The record of `c26_db`, whose three cells have the serial types 4, 4 and 1. -/
theorem decode_row_types_all_rendered_witness :
    c26_payload.cell_count = 2 ∧
    ((c26_payload.cells 0).t, (c26_payload.cells 1).t, (c26_payload.cells 2).t) = (4, 4, 1) ∧
    ∀ i : Nat, (i : Int) ≤ c26_payload.cell_count →
      rendered_type (c26_payload.cells i).t = true :=
  ⟨by decide, by decide,
    (decode_row_types_all_rendered (UNDARK_init c26_db 512 2) host0 520 1024 empty_payload
      DECODE_MODE_NORMAL 0 ⟨1, c26_payload, []⟩ (by rfl) (by decide)).2.1⟩

/-- C32: for every value `v < 2 ^ 14`, the varint encoding of `v` has one or two
bytes, and `varint_decode`, applied to the encoding at any place of a buffer, returns
the value `v`, the length of the encoding and the cursor behind the encoding. -/
theorem varint_decode_round_trip_below_16384 (v : Nat) (hv : v < 16384)
    (pre tail : List Nat) :
    (spec_varint_len v = 1 ∨ spec_varint_len v = 2) ∧
    (spec_varint_encode v).length = spec_varint_len v ∧
    varint_decode (pre ++ spec_varint_encode v ++ tail) pre.length =
      .ok (v, (spec_varint_len v : Int), pre.length + spec_varint_len v) := by
  by_cases h1 : v < 128
  · obtain ⟨hl, he⟩ := spec_varint_one v h1
    rw [hl, he]
    exact ⟨Or.inl rfl, rfl,
      varint_decode_at pre [v] tail v 1 (varint_loop_one_byte v tail h1)⟩
  · obtain ⟨hl, he⟩ := spec_varint_two v (by omega) hv
    have hq : v / 128 < 128 := by omega
    have hr : v % 128 < 128 := by omega
    have hv2 : v / 128 * 128 + v % 128 = v := by omega
    have key := varint_decode_at pre [v / 128 + 128, v % 128] tail _ _
      (varint_loop_two_bytes (v / 128) (v % 128) tail hq hr)
    rw [hv2] at key
    rw [hl, he]
    exact ⟨Or.inr rfl, rfl, key⟩

/-- The value 300, whose encoding is the two bytes `82 2C`, between two other bytes. -/
theorem varint_decode_round_trip_below_16384_witness :
    300 < 16384 ∧ spec_varint_encode 300 = [0x82, 0x2C] ∧
    varint_decode ([7] ++ spec_varint_encode 300 ++ [9]) 1 = .ok (300, 2, 3) :=
  ⟨by decide, by decide,
    (varint_decode_round_trip_below_16384 300 (by decide) [7] [9]).2.2⟩

end Undark
